import Mathlib

/-!
Verification of the Glukoscillator synthesis core.

This file gives a shallow embedding of the wavetable generator
(`src/synthesis/wavetable.ts`), the effects chain
(`src/synthesis/effects-config.ts` / `effects-chain.ts`) and the synth
engine (`src/synthesis/synth-engine.ts`), and proves properties of the
embedded operations.

Conventions:
* glucose values and wavetable samples are modelled as rationals where the
  source only performs field arithmetic, and as reals where the source uses
  transcendental functions (FFT twiddle factors, magnitudes, dB gains);
* JavaScript typed arrays are modelled as lists (or as total functions
  `Nat → ℝ` where the source updates them in place), with out-of-range
  reads defaulting to `0`;
* JavaScript `Map`/`Set` objects are modelled as insertion-ordered
  association lists / lists, matching the iteration order the source
  relies on (`Set.values().next().value` is the oldest inserted element).
-/

namespace Glukoscillator

/-! ## Wavetable generation (`src/synthesis/wavetable.ts`) -/

/-- Standard wavetable size (power of 2 for FFT efficiency). -/
def WAVETABLE_SIZE : ℕ := 2048

/-- One glucose reading; only the `value` field is consumed by the
wavetable generator. -/
structure GlucoseReading where
  value : ℚ
deriving DecidableEq

/-- A day's worth of glucose data, as consumed by `generateWavetable`. -/
structure DailyGlucoseData where
  readings : List GlucoseReading
deriving DecidableEq

/-- `Math.min(...values)` on a non-empty argument list. -/
def jsMin : List ℚ → ℚ
  | [] => 0
  | x :: xs => xs.foldl min x

/-- `Math.max(...values)` on a non-empty argument list. -/
def jsMax : List ℚ → ℚ
  | [] => 0
  | x :: xs => xs.foldl max x

/-- `normalizeGlucoseValues`: normalize glucose values to the `[-1, 1]`
audio range using the day's own min/max; a flat day (range zero) maps to
all zeros. -/
def normalizeGlucoseValues (values : List ℚ) : List ℚ :=
  if values.length = 0 then []
  else
    let mn := jsMin values
    let mx := jsMax values
    let range := mx - mn
    if range = 0 then List.replicate values.length 0
    else values.map fun v => (v - mn) / range * 2 - 1

/-- `resampleToWavetableSize`: linear-interpolation resampling to the
standard wavetable size.  The source computes the wrap guard
`(i - 1 + len)` over JS numbers; indices here are natural numbers so the
equivalent `min (sFloor + 1) (len - 1)` clamp is written directly as in
the source. -/
def resampleToWavetableSize (values : List ℚ) (targetSize : ℕ) : List ℚ :=
  if values.length = 0 then List.replicate targetSize 0
  else if values.length = targetSize then values
  else
    let ratio : ℚ := (values.length : ℚ) / (targetSize : ℚ)
    (List.range targetSize).map fun i =>
      let srcIndex : ℚ := (i : ℚ) * ratio
      let sFloor : ℕ := ⌊srcIndex⌋.toNat
      let sCeil : ℕ := min (sFloor + 1) (values.length - 1)
      let fraction : ℚ := srcIndex - (sFloor : ℚ)
      values.getD sFloor 0 * (1 - fraction) + values.getD sCeil 0 * fraction

/-- One pass of the circular 3-point weighted moving average used by
`smoothWavetable`.  The source's JS index expression `(i - 1 + len) % len`
equals `(i + len - 1) % len` for natural `i` and positive `len`. -/
def smoothPass (w : List ℚ) : List ℚ :=
  let len := w.length
  (List.range len).map fun i =>
    w.getD ((i + len - 1) % len) 0 * (1/4) + w.getD i 0 * (1/2) +
      w.getD ((i + 1) % len) 0 * (1/4)

/-- `smoothWavetable`: a fixed number of smoothing passes (default 2). -/
def smoothWavetable (w : List ℚ) (passes : ℕ := 2) : List ℚ :=
  smoothPass^[passes] w

/-- `generateWavetable`: a day's readings become a single-cycle waveform;
a day with no readings yields silence. -/
def generateWavetable (dayData : DailyGlucoseData) : List ℚ :=
  let readings := dayData.readings
  if readings.length = 0 then List.replicate WAVETABLE_SIZE 0
  else
    let values := readings.map (·.value)
    let normalized := normalizeGlucoseValues values
    let wavetable := resampleToWavetableSize normalized WAVETABLE_SIZE
    smoothWavetable wavetable 2

/-! ### Basic facts about `jsMin` / `jsMax` -/

lemma foldl_min_le_init (xs : List ℚ) (a : ℚ) : xs.foldl min a ≤ a := by
  induction xs generalizing a with
  | nil => exact le_refl a
  | cons x xs ih => exact le_trans (ih (min a x)) (min_le_left a x)

lemma foldl_min_le_mem (xs : List ℚ) (a x : ℚ) (hx : x ∈ xs) :
    xs.foldl min a ≤ x := by
  induction xs generalizing a with
  | nil => cases hx
  | cons y ys ih =>
    rcases List.mem_cons.mp hx with h | h
    · subst h
      exact le_trans (foldl_min_le_init ys (min a x)) (min_le_right a x)
    · exact ih (min a y) h

lemma foldl_min_mem (xs : List ℚ) (a : ℚ) :
    xs.foldl min a = a ∨ xs.foldl min a ∈ xs := by
  induction xs generalizing a with
  | nil => exact Or.inl rfl
  | cons x xs ih =>
    rcases ih (min a x) with h | h
    · rcases min_cases a x with ⟨h1, _⟩ | ⟨h1, _⟩
      · exact Or.inl (h.trans h1)
      · exact Or.inr (List.mem_cons.mpr (Or.inl (h.trans h1)))
    · exact Or.inr (List.mem_cons.mpr (Or.inr h))

lemma init_le_foldl_max (xs : List ℚ) (a : ℚ) : a ≤ xs.foldl max a := by
  induction xs generalizing a with
  | nil => exact le_refl a
  | cons x xs ih => exact le_trans (le_max_left a x) (ih (max a x))

lemma mem_le_foldl_max (xs : List ℚ) (a x : ℚ) (hx : x ∈ xs) :
    x ≤ xs.foldl max a := by
  induction xs generalizing a with
  | nil => cases hx
  | cons y ys ih =>
    rcases List.mem_cons.mp hx with h | h
    · subst h
      exact le_trans (le_max_right a x) (init_le_foldl_max ys (max a x))
    · exact ih (max a y) h

lemma foldl_max_mem (xs : List ℚ) (a : ℚ) :
    xs.foldl max a = a ∨ xs.foldl max a ∈ xs := by
  induction xs generalizing a with
  | nil => exact Or.inl rfl
  | cons x xs ih =>
    rcases ih (max a x) with h | h
    · rcases max_cases a x with ⟨h1, _⟩ | ⟨h1, _⟩
      · exact Or.inl (h.trans h1)
      · exact Or.inr (List.mem_cons.mpr (Or.inl (h.trans h1)))
    · exact Or.inr (List.mem_cons.mpr (Or.inr h))

lemma jsMin_le (values : List ℚ) (x : ℚ) (hx : x ∈ values) :
    jsMin values ≤ x := by
  cases values with
  | nil => cases hx
  | cons v vs =>
    rcases List.mem_cons.mp hx with h | h
    · subst h; exact foldl_min_le_init vs x
    · exact foldl_min_le_mem vs v x h

lemma le_jsMax (values : List ℚ) (x : ℚ) (hx : x ∈ values) :
    x ≤ jsMax values := by
  cases values with
  | nil => cases hx
  | cons v vs =>
    rcases List.mem_cons.mp hx with h | h
    · subst h; exact init_le_foldl_max vs x
    · exact mem_le_foldl_max vs v x h

lemma jsMin_mem (values : List ℚ) (h : values ≠ []) :
    jsMin values ∈ values := by
  cases values with
  | nil => exact absurd rfl h
  | cons v vs =>
    rcases foldl_min_mem vs v with h1 | h1
    · exact List.mem_cons.mpr (Or.inl h1)
    · exact List.mem_cons.mpr (Or.inr h1)

lemma jsMax_mem (values : List ℚ) (h : values ≠ []) :
    jsMax values ∈ values := by
  cases values with
  | nil => exact absurd rfl h
  | cons v vs =>
    rcases foldl_max_mem vs v with h1 | h1
    · exact List.mem_cons.mpr (Or.inl h1)
    · exact List.mem_cons.mpr (Or.inr h1)

/-! ### Claims C8 and C10 -/

/-- C8: for every non-empty input sequence, `normalizeGlucoseValues`
scales using the sequence's own min and max into `[-1, 1]` so the full
dynamic range is used (both `-1` and `1` are attained whenever the range
is non-degenerate); for every all-equal-value (flat) input sequence it
returns an all-zero sequence of the same length (rationals, hence no
NaN/Infinity). -/
theorem C8_normalize_uses_own_range (values : List ℚ) (h : values ≠ []) :
    (normalizeGlucoseValues values).length = values.length
    ∧ (∀ x ∈ normalizeGlucoseValues values, -1 ≤ x ∧ x ≤ 1)
    ∧ (jsMin values < jsMax values →
        (-1 : ℚ) ∈ normalizeGlucoseValues values ∧
          (1 : ℚ) ∈ normalizeGlucoseValues values)
    ∧ ((∀ x ∈ values, ∀ y ∈ values, x = y) →
        normalizeGlucoseValues values = List.replicate values.length 0) := by
  have hlen : ¬ values.length = 0 := by
    simpa [List.length_eq_zero] using h
  by_cases hr : jsMax values - jsMin values = 0
  · have hres : normalizeGlucoseValues values = List.replicate values.length 0 := by
      simp [normalizeGlucoseValues, hlen, hr]
    refine ⟨by simp [hres], ?_, ?_, fun _ => hres⟩
    · intro x hx
      have : x = 0 := List.eq_of_mem_replicate (hres ▸ hx)
      subst this; norm_num
    · intro hlt
      exact absurd hlt (by linarith)
  · have hres : normalizeGlucoseValues values =
        values.map (fun v =>
          (v - jsMin values) / (jsMax values - jsMin values) * 2 - 1) := by
      simp [normalizeGlucoseValues, hlen, hr]
    have hminmax : jsMin values ≤ jsMax values := by
      obtain ⟨v, hv⟩ := List.exists_mem_of_ne_nil values h
      exact le_trans (jsMin_le values v hv) (le_jsMax values v hv)
    have hpos : 0 < jsMax values - jsMin values :=
      lt_of_le_of_ne (by linarith) (Ne.symm hr)
    refine ⟨by simp [hres], ?_, ?_, ?_⟩
    · intro x hx
      rw [hres] at hx
      obtain ⟨v, hv, hvx⟩ := List.mem_map.mp hx
      have h1 : jsMin values ≤ v := jsMin_le values v hv
      have h2 : v ≤ jsMax values := le_jsMax values v hv
      have hq1 : 0 ≤ (v - jsMin values) / (jsMax values - jsMin values) :=
        div_nonneg (by linarith) (le_of_lt hpos)
      have hq2 : (v - jsMin values) / (jsMax values - jsMin values) ≤ 1 :=
        (div_le_one hpos).mpr (by linarith)
      constructor <;> [skip; skip] <;> rw [← hvx] <;> nlinarith
    · intro _
      rw [hres]
      constructor
      · refine List.mem_map.mpr ⟨jsMin values, jsMin_mem values h, ?_⟩
        rw [sub_self, zero_div]; ring
      · refine List.mem_map.mpr ⟨jsMax values, jsMax_mem values h, ?_⟩
        rw [div_self hr]; ring
    · intro hflat
      exfalso
      obtain ⟨_, _⟩ := And.intro (jsMin_mem values h) (jsMax_mem values h)
      exact hr (by
        have := hflat _ (jsMin_mem values h) _ (jsMax_mem values h)
        linarith)

/-- Witness for C8 at the concrete input `[0, 1]`. -/
theorem C8_witness :
    ([(0 : ℚ), 1] ≠ ([] : List ℚ))
    ∧ ((normalizeGlucoseValues [(0 : ℚ), 1]).length = ([(0 : ℚ), 1] : List ℚ).length
      ∧ (∀ x ∈ normalizeGlucoseValues [(0 : ℚ), 1], -1 ≤ x ∧ x ≤ 1)
      ∧ (jsMin [(0 : ℚ), 1] < jsMax [(0 : ℚ), 1] →
          (-1 : ℚ) ∈ normalizeGlucoseValues [(0 : ℚ), 1] ∧
            (1 : ℚ) ∈ normalizeGlucoseValues [(0 : ℚ), 1])
      ∧ ((∀ x ∈ [(0 : ℚ), 1], ∀ y ∈ [(0 : ℚ), 1], x = y) →
          normalizeGlucoseValues [(0 : ℚ), 1] =
            List.replicate ([(0 : ℚ), 1] : List ℚ).length 0)) :=
  ⟨by decide, C8_normalize_uses_own_range [(0 : ℚ), 1] (by decide)⟩

/-- C10: a day whose readings sequence is empty generates a silent
wavetable: `WAVETABLE_SIZE = 2048` entries, all zero (the source returns
early, skipping normalization, resampling and smoothing). -/
theorem C10_generateWavetable_empty (d : DailyGlucoseData)
    (h : d.readings = []) :
    generateWavetable d = List.replicate 2048 0 := by
  simp [generateWavetable, h, WAVETABLE_SIZE]

/-- Witness for C10 at a concrete day with no readings. -/
theorem C10_witness :
    (DailyGlucoseData.mk []).readings = []
    ∧ generateWavetable (DailyGlucoseData.mk []) = List.replicate 2048 0 :=
  ⟨rfl, C10_generateWavetable_empty (DailyGlucoseData.mk []) rfl⟩

/-! ## FFT and harmonic analysis (`src/synthesis/wavetable.ts`)

The FFT works on `Float32Array`s updated in place; these are modelled as
total functions `ℕ → ℝ` (reads past the end default to `0`).  Twiddle
factors use real cosine/sine, magnitudes a real square root. -/

/-- Inner loop of `bitReverse`: `bits` iterations of
`reversed = (reversed << 1) | (num & 1); num >>= 1`. -/
def bitRevAux : ℕ → ℕ → ℕ → ℕ
  | 0, reversed, _ => reversed
  | j + 1, reversed, num => bitRevAux j (2 * reversed + num % 2) (num / 2)

/-- Bit-reversal of an index with the given bit count. -/
def bitRev (bits i : ℕ) : ℕ := bitRevAux bits 0 i

/-- Pointwise update of an array modelled as a function. -/
def arrUpdate (a : ℕ → ℝ) (i : ℕ) (v : ℝ) : ℕ → ℝ :=
  fun j => if j = i then v else a j

/-- The three-assignment swap in `bitReverse`. -/
def arrSwap (a : ℕ → ℝ) (i r : ℕ) : ℕ → ℝ :=
  arrUpdate (arrUpdate a i (a r)) r (a i)

/-- `bitReverse(arr, n)`: bit-reversal permutation pass, swapping
`arr[i]` and `arr[reversed]` whenever `reversed > i`. -/
def bitReverse (n : ℕ) (a : ℕ → ℝ) : ℕ → ℝ :=
  let bits := Nat.log2 n
  (List.range n).foldl
    (fun arr i =>
      let reversed := bitRev bits i
      if reversed > i then arrSwap arr i reversed else arr) a

/-- `twiddleFactorsReal[i]` for transform length `size`:
`cos((-2 π i) / size)`. -/
noncomputable def twiddleFactorsReal (size i : ℕ) : ℝ :=
  Real.cos (-2 * Real.pi * (i : ℝ) / (size : ℝ))

/-- `twiddleFactorsImag[i]` for transform length `size`:
`sin((-2 π i) / size)`. -/
noncomputable def twiddleFactorsImag (size i : ℕ) : ℝ :=
  Real.sin (-2 * Real.pi * (i : ℝ) / (size : ℝ))

/-- Iteration space of one Cooley-Tukey stage: the outer loop visits
`i = 0, size, 2·size, …` below `N`, the inner loop `j < size / 2`. -/
def stagePairs (N size : ℕ) : List (ℕ × ℕ) :=
  (List.range (N / size)).flatMap fun bi =>
    (List.range (size / 2)).map fun j => (bi * size, j)

/-- One butterfly operation of the stage for block start `i` and offset
`j`; all four reads happen before the two writes, as in the source. -/
noncomputable def butterflyStep (N size : ℕ) (d : (ℕ → ℝ) × (ℕ → ℝ))
    (ij : ℕ × ℕ) : (ℕ → ℝ) × (ℕ → ℝ) :=
  let i := ij.1
  let j := ij.2
  let halfSize := size / 2
  let step := N / size
  let twiddleIdx := j * step
  let tReal := twiddleFactorsReal N twiddleIdx
  let tImag := twiddleFactorsImag N twiddleIdx
  let idx1 := i + j
  let idx2 := i + j + halfSize
  let tempReal := d.1 idx2 * tReal - d.2 idx2 * tImag
  let tempImag := d.1 idx2 * tImag + d.2 idx2 * tReal
  (arrUpdate (arrUpdate d.1 idx2 (d.1 idx1 - tempReal)) idx1 (d.1 idx1 + tempReal),
   arrUpdate (arrUpdate d.2 idx2 (d.2 idx1 - tempImag)) idx1 (d.2 idx1 + tempImag))

/-- The iterative Cooley-Tukey stages, `size = 2, 4, …, N`. -/
noncomputable def fftStages (N : ℕ) (d : (ℕ → ℝ) × (ℕ → ℝ)) :
    (ℕ → ℝ) × (ℕ → ℝ) :=
  ((List.range (Nat.log2 N)).map fun s => 2 ^ (s + 1)).foldl
    (fun d size => (stagePairs N size).foldl (butterflyStep N size) d) d

/-- The (real, imaginary) working arrays of `fft` after bit reversal and
all butterfly stages. -/
noncomputable def spectrum (input : List ℝ) : (ℕ → ℝ) × (ℕ → ℝ) :=
  fftStages input.length
    (bitReverse input.length (fun i => input.getD i 0),
     bitReverse input.length (fun _ => 0))

/-- Raw magnitude of bin `k`:
`sqrt(real[k]² + imag[k]²) · (2 / N)`. -/
noncomputable def rawMagnitude (input : List ℝ) (k : ℕ) : ℝ :=
  Real.sqrt ((spectrum input).1 k * (spectrum input).1 k +
      (spectrum input).2 k * (spectrum input).2 k) * (2 / (input.length : ℝ))

/-- The fundamental magnitude with the JS falsy guard:
`partials[0] || 1` (an empty list reads `undefined`, also falsy). -/
noncomputable def jsOr1 : List ℝ → ℝ
  | [] => 1
  | p :: _ => if p = 0 then 1 else p

/-- `fft(input, numPartials)`: fails fast on a non-power-of-two length,
otherwise extracts magnitudes for bins `1..numPartials` and normalizes by
the fundamental, `partials[0] || 1` guarding division by zero. -/
noncomputable def fft (input : List ℝ) (numPartials : ℕ) :
    Except String (List ℝ) :=
  if input.length &&& (input.length - 1) ≠ 0 then
    .error "FFT size must be a power of 2"
  else
    let partials := (List.range numPartials).map fun k =>
      rawMagnitude input (k + 1)
    let fundamental : ℝ := jsOr1 partials
    .ok (partials.map fun p => p / fundamental)

/-- `computePartialsFromWavetable(wavetable, numPartials = 64)`. -/
noncomputable def computePartialsFromWavetable (wavetable : List ℝ)
    (numPartials : ℕ := 64) : Except String (List ℝ) :=
  fft wavetable numPartials

/-! ### Claim C1 -/

lemma rawMagnitude_nonneg (input : List ℝ) (k : ℕ) :
    0 ≤ rawMagnitude input k := by
  unfold rawMagnitude
  exact mul_nonneg (Real.sqrt_nonneg _)
    (div_nonneg (by norm_num) (Nat.cast_nonneg _))

lemma jsOr1_pos (l : List ℝ) (h : ∀ x ∈ l, 0 ≤ x) : 0 < jsOr1 l := by
  cases l with
  | nil => norm_num [jsOr1]
  | cons p rest =>
    by_cases hp : p = 0
    · simp [jsOr1, hp]
    · have : 0 ≤ p := h p (List.mem_cons_self p rest)
      simp only [jsOr1, if_neg hp]
      exact lt_of_le_of_ne this (Ne.symm hp)

lemma fft_ok (input : List ℝ) (numPartials : ℕ)
    (hpow : input.length &&& (input.length - 1) = 0) :
    fft input numPartials =
      .ok (((List.range numPartials).map fun k =>
          rawMagnitude input (k + 1)).map
        fun p => p / jsOr1 ((List.range numPartials).map fun k =>
          rawMagnitude input (k + 1))) := by
  unfold fft
  rw [if_neg (by simp [hpow])]

/-- C1 (amended): for every wavetable whose length passes the
power-of-two gate and every `harmonicCount` below the wavetable length
(larger counts read past the end of the working arrays in the source),
`computePartialsFromWavetable` returns exactly `harmonicCount`
non-negative entries; the first entry equals `1` whenever the
fundamental (bin 1) raw magnitude is nonzero, and when that magnitude is
zero the raw magnitudes are returned undivided. -/
theorem C1_computePartials_corrected (input : List ℝ) (numPartials : ℕ)
    (hpow : input.length &&& (input.length - 1) = 0)
    (_hbound : numPartials < input.length) :
    ∃ out, computePartialsFromWavetable input numPartials = .ok out
      ∧ out.length = numPartials
      ∧ (∀ x ∈ out, 0 ≤ x)
      ∧ (0 < numPartials → rawMagnitude input 1 ≠ 0 → out.head? = some 1)
      ∧ (rawMagnitude input 1 = 0 →
          out = (List.range numPartials).map fun k =>
            rawMagnitude input (k + 1)) := by
  have hmem : ∀ x ∈ (List.range numPartials).map fun k =>
      rawMagnitude input (k + 1), 0 ≤ x := by
    intro x hx
    obtain ⟨k, _, hk⟩ := List.mem_map.mp hx
    exact hk ▸ rawMagnitude_nonneg input (k + 1)
  refine ⟨_, fft_ok input numPartials hpow, by simp, ?_, ?_, ?_⟩
  · intro x hx
    obtain ⟨p, hp, hpx⟩ := List.mem_map.mp hx
    exact hpx ▸ div_nonneg (hmem p hp) (le_of_lt (jsOr1_pos _ hmem))
  · intro hn hfund
    obtain ⟨m, rfl⟩ := Nat.exists_eq_succ_of_ne_zero (Nat.pos_iff_ne_zero.mp hn)
    rw [List.range_succ_eq_map]
    simp only [List.map_cons, List.head?_cons, jsOr1, zero_add]
    rw [if_neg hfund, div_self hfund]
  · intro hfund
    cases hc : (List.range numPartials).map fun k =>
        rawMagnitude input (k + 1) with
    | nil => simp [hc]
    | cons p rest =>
      have hp0 : p = 0 := by
        cases numPartials with
        | zero => simp at hc
        | succ m =>
          rw [List.range_succ_eq_map] at hc
          simp only [List.map_cons, zero_add] at hc
          exact (List.cons.injEq _ _ _ _ ▸ hc).1 ▸ hfund
      simp [jsOr1, hp0, div_one]

/-- Witness for C1 (amended) at the wavetable `[1, 1]` with one
requested partial. -/
theorem C1_witness :
    (([(1 : ℝ), 1] : List ℝ).length &&& (([(1 : ℝ), 1] : List ℝ).length - 1) = 0)
    ∧ (1 < ([(1 : ℝ), 1] : List ℝ).length)
    ∧ (∃ out, computePartialsFromWavetable [(1 : ℝ), 1] 1 = .ok out
        ∧ out.length = 1
        ∧ (∀ x ∈ out, 0 ≤ x)
        ∧ (0 < 1 → rawMagnitude [(1 : ℝ), 1] 1 ≠ 0 → out.head? = some 1)
        ∧ (rawMagnitude [(1 : ℝ), 1] 1 = 0 →
            out = (List.range 1).map fun k =>
              rawMagnitude [(1 : ℝ), 1] (k + 1))) :=
  ⟨by decide, by decide,
    C1_computePartials_corrected [(1 : ℝ), 1] 1 (by decide) (by decide)⟩

/-- C1 counterexample: the wavetable `[1, 1]` is non-silent, its length
`2` is a power of two, yet `computePartialsFromWavetable` returns `[0]`
— the first entry is `0`, not `1`, because the fundamental (bin 1)
magnitude of a constant signal is zero. -/
theorem C1_counterexample :
    (∃ x ∈ ([(1 : ℝ), 1] : List ℝ), x ≠ 0)
    ∧ computePartialsFromWavetable [(1 : ℝ), 1] 1 = .ok [0]
    ∧ ((0 : ℝ) ≠ 1) := by
  refine ⟨⟨1, by norm_num⟩, ?_, by norm_num⟩
  have hlog : Nat.log2 2 = 1 := by simp [Nat.log2]
  simp [computePartialsFromWavetable, fft, rawMagnitude, spectrum, fftStages,
    stagePairs, butterflyStep, bitReverse, bitRev, bitRevAux, arrUpdate,
    arrSwap, twiddleFactorsReal, twiddleFactorsImag, jsOr1, hlog,
    List.range_succ]

/-! ## Effects chain (`src/synthesis/effects-config.ts`, `effects-chain.ts`)

The fixed universe of effect kinds, the default order, the per-parameter
randomization ranges, and the `EffectsChain` state machine.  Audio-node
wiring is modelled by the list of `connect` calls `rewireChain` issues;
`localStorage` by an optional stored order carried in the state. -/

/-- The fixed universe of effect kinds (`EffectId`). -/
inductive EffectId
  | compressor | eq3 | bitcrusher | distortion | autowah | autofilter
  | phaser | chorus | tremolo | vibrato | freqshift | pitchshift
  | delay | reverb | stereowidener
deriving DecidableEq

/-- Default effect order (musically logical signal chain). -/
def DEFAULT_ORDER : List EffectId :=
  [.compressor, .eq3, .bitcrusher, .distortion, .autowah, .autofilter,
   .phaser, .chorus, .tremolo, .vibrato, .freqshift, .pitchshift,
   .delay, .reverb, .stereowidener]

/-- A `{ min, max }` randomization range from `RANDOM_RANGES`. -/
structure ParamRange where
  min : ℚ
  max : ℚ
deriving DecidableEq

/-- Current parameter values of the compressor (as read back by
`getEffectParams`). -/
structure CompressorParams where
  threshold : ℚ
  ratio : ℚ
  attack : ℚ
  release : ℚ
deriving DecidableEq

structure EQ3Params where
  low : ℚ
  mid : ℚ
  high : ℚ
deriving DecidableEq

structure BitCrusherParams where
  bits : ℚ
  wet : ℚ
deriving DecidableEq

structure DistortionParams where
  amount : ℚ
  wet : ℚ
deriving DecidableEq

structure AutoWahParams where
  baseFrequency : ℚ
  octaves : ℚ
  sensitivity : ℚ
  wet : ℚ
deriving DecidableEq

structure AutoFilterParams where
  frequency : ℚ
  depth : ℚ
  octaves : ℚ
  wet : ℚ
deriving DecidableEq

structure PhaserParams where
  frequency : ℚ
  octaves : ℚ
  wet : ℚ
deriving DecidableEq

structure ChorusParams where
  frequency : ℚ
  depth : ℚ
  wet : ℚ
deriving DecidableEq

structure TremoloParams where
  frequency : ℚ
  depth : ℚ
  wet : ℚ
deriving DecidableEq

structure VibratoParams where
  frequency : ℚ
  depth : ℚ
  wet : ℚ
deriving DecidableEq

structure FreqShiftParams where
  frequency : ℚ
  wet : ℚ
deriving DecidableEq

structure PitchShiftParams where
  pitch : ℚ
  wet : ℚ
deriving DecidableEq

structure DelayParams where
  time : ℚ
  feedback : ℚ
  wet : ℚ
deriving DecidableEq

structure ReverbParams where
  decay : ℚ
  wet : ℚ
deriving DecidableEq

structure StereoWidenerParams where
  width : ℚ
  wet : ℚ
deriving DecidableEq

/-- A node of the audio graph managed by the effects chain. -/
inductive ChainNode
  | input
  | effect (id : EffectId)
  | output
deriving DecidableEq

/-- The observable state of an `EffectsChain` instance: current parameter
values, per-unit enabled flags, the order, the persisted order
(`localStorage`), and the list of `connect` calls of the last rewiring. -/
structure ChainState where
  compressor : CompressorParams
  eq3 : EQ3Params
  bitcrusher : BitCrusherParams
  distortion : DistortionParams
  autowah : AutoWahParams
  autofilter : AutoFilterParams
  phaser : PhaserParams
  chorus : ChorusParams
  tremolo : TremoloParams
  vibrato : VibratoParams
  freqshift : FreqShiftParams
  pitchshift : PitchShiftParams
  delay : DelayParams
  reverb : ReverbParams
  stereowidener : StereoWidenerParams
  compressorEnabled : Bool
  eq3Enabled : Bool
  bitcrusherEnabled : Bool
  distortionEnabled : Bool
  autowahEnabled : Bool
  autofilterEnabled : Bool
  phaserEnabled : Bool
  chorusEnabled : Bool
  tremoloEnabled : Bool
  vibratoEnabled : Bool
  freqshiftEnabled : Bool
  pitchshiftEnabled : Bool
  delayEnabled : Bool
  reverbEnabled : Bool
  stereowidenerEnabled : Bool
  order : List EffectId
  storedOrder : Option (List EffectId)
  connections : List (ChainNode × ChainNode)
deriving DecidableEq

/-- `isEnabled(effectId)`. -/
def isEnabled (st : ChainState) : EffectId → Bool
  | .compressor => st.compressorEnabled
  | .eq3 => st.eq3Enabled
  | .bitcrusher => st.bitcrusherEnabled
  | .distortion => st.distortionEnabled
  | .autowah => st.autowahEnabled
  | .autofilter => st.autofilterEnabled
  | .phaser => st.phaserEnabled
  | .chorus => st.chorusEnabled
  | .tremolo => st.tremoloEnabled
  | .vibrato => st.vibratoEnabled
  | .freqshift => st.freqshiftEnabled
  | .pitchshift => st.pitchshiftEnabled
  | .delay => st.delayEnabled
  | .reverb => st.reverbEnabled
  | .stereowidener => st.stereowidenerEnabled

/-- Write one unit's enabled flag (the `effect.enabled = enabled`
assignment inside `setEnabled`). -/
def writeEnabledFlag (st : ChainState) : EffectId → Bool → ChainState
  | .compressor, b => { st with compressorEnabled := b }
  | .eq3, b => { st with eq3Enabled := b }
  | .bitcrusher, b => { st with bitcrusherEnabled := b }
  | .distortion, b => { st with distortionEnabled := b }
  | .autowah, b => { st with autowahEnabled := b }
  | .autofilter, b => { st with autofilterEnabled := b }
  | .phaser, b => { st with phaserEnabled := b }
  | .chorus, b => { st with chorusEnabled := b }
  | .tremolo, b => { st with tremoloEnabled := b }
  | .vibrato, b => { st with vibratoEnabled := b }
  | .freqshift, b => { st with freqshiftEnabled := b }
  | .pitchshift, b => { st with pitchshiftEnabled := b }
  | .delay, b => { st with delayEnabled := b }
  | .reverb, b => { st with reverbEnabled := b }
  | .stereowidener, b => { st with stereowidenerEnabled := b }

/-- `rewireChain`: disconnect everything, then connect the enabled
effects in order between input and output; the result is the list of
`connect` calls issued. -/
def rewireChain (st : ChainState) : List (ChainNode × ChainNode) :=
  let final := st.order.foldl
    (fun (acc : ChainNode × List (ChainNode × ChainNode)) effectId =>
      if isEnabled st effectId then
        (ChainNode.effect effectId, acc.2 ++ [(acc.1, ChainNode.effect effectId)])
      else acc)
    (ChainNode.input, [])
  final.2 ++ [(final.1, ChainNode.output)]

/-- `setEnabled(effectId, enabled)`: no-op when the flag already has the
requested value, otherwise flip it and rewire. -/
def setEnabled (st : ChainState) (effectId : EffectId) (enabled : Bool) :
    ChainState :=
  if isEnabled st effectId = enabled then st
  else
    let st' := writeEnabledFlag st effectId enabled
    { st' with connections := rewireChain st' }

/-- `loadOrder()`: a persisted list is accepted only if its length matches
the default order and every default id occurs in it. -/
def loadOrder (saved : Option (List EffectId)) : List EffectId :=
  match saved with
  | some parsed =>
      if parsed.length = DEFAULT_ORDER.length ∧ ∀ id ∈ DEFAULT_ORDER, id ∈ parsed
      then parsed
      else DEFAULT_ORDER
  | none => DEFAULT_ORDER

/-- The `EffectsChain` constructor: initialize every effect with its
factory parameters and a cleared enabled flag, load the persisted order,
and wire the (empty) chain. -/
def initChain (saved : Option (List EffectId)) : ChainState :=
  let st : ChainState := {
    compressor := { threshold := -20, ratio := 4, attack := 3/1000, release := 1/4 }
    eq3 := { low := 0, mid := 0, high := 0 }
    bitcrusher := { bits := 8, wet := 0 }
    distortion := { amount := 2/5, wet := 0 }
    autowah := { baseFrequency := 200, octaves := 4, sensitivity := 0, wet := 0 }
    autofilter := { frequency := 2, depth := 1/2, octaves := 5/2, wet := 0 }
    phaser := { frequency := 2, octaves := 2, wet := 0 }
    chorus := { frequency := 3/2, depth := 1/2, wet := 0 }
    tremolo := { frequency := 6, depth := 1/2, wet := 0 }
    vibrato := { frequency := 5, depth := 1/5, wet := 0 }
    freqshift := { frequency := 0, wet := 0 }
    pitchshift := { pitch := 0, wet := 0 }
    delay := { time := 1/4, feedback := 2/5, wet := 0 }
    reverb := { decay := 3/2, wet := 0 }
    stereowidener := { width := 1/2, wet := 0 }
    compressorEnabled := false, eq3Enabled := false, bitcrusherEnabled := false
    distortionEnabled := false, autowahEnabled := false, autofilterEnabled := false
    phaserEnabled := false, chorusEnabled := false, tremoloEnabled := false
    vibratoEnabled := false, freqshiftEnabled := false, pitchshiftEnabled := false
    delayEnabled := false, reverbEnabled := false, stereowidenerEnabled := false
    order := loadOrder saved
    storedOrder := saved
    connections := [] }
  { st with connections := rewireChain st }

/-- `reorder(newOrder)`: reject unless the proposed list has the default
length and contains every id of the fixed universe; on success store the
new order, rewire, and persist it. -/
def reorder (st : ChainState) (newOrder : List EffectId) : ChainState :=
  if newOrder.length ≠ DEFAULT_ORDER.length ∨ ¬ ∀ id ∈ DEFAULT_ORDER, id ∈ newOrder
  then st
  else
    let st' := { st with order := newOrder }
    let st'' := { st' with connections := rewireChain st' }
    { st'' with storedOrder := some st''.order }

/-! ### Effect setters

Each `setX(params)` takes a partial parameter record (`Partial<XParams>`
in the source, modelled with `Option` fields).  For the wet-bearing
effects the source only writes `wet` immediately if the unit is enabled,
or right after enabling it. -/

structure CompressorUpdate where
  threshold : Option ℚ := none
  ratio : Option ℚ := none
  attack : Option ℚ := none
  release : Option ℚ := none
  enabled : Option Bool := none

structure EQ3Update where
  low : Option ℚ := none
  mid : Option ℚ := none
  high : Option ℚ := none
  enabled : Option Bool := none

structure BitCrusherUpdate where
  bits : Option ℚ := none
  wet : Option ℚ := none
  enabled : Option Bool := none

structure DistortionUpdate where
  amount : Option ℚ := none
  wet : Option ℚ := none
  enabled : Option Bool := none

structure AutoWahUpdate where
  baseFrequency : Option ℚ := none
  octaves : Option ℚ := none
  sensitivity : Option ℚ := none
  wet : Option ℚ := none
  enabled : Option Bool := none

structure AutoFilterUpdate where
  frequency : Option ℚ := none
  depth : Option ℚ := none
  octaves : Option ℚ := none
  wet : Option ℚ := none
  enabled : Option Bool := none

structure PhaserUpdate where
  frequency : Option ℚ := none
  octaves : Option ℚ := none
  wet : Option ℚ := none
  enabled : Option Bool := none

structure ChorusUpdate where
  frequency : Option ℚ := none
  depth : Option ℚ := none
  wet : Option ℚ := none
  enabled : Option Bool := none

structure TremoloUpdate where
  frequency : Option ℚ := none
  depth : Option ℚ := none
  wet : Option ℚ := none
  enabled : Option Bool := none

structure VibratoUpdate where
  frequency : Option ℚ := none
  depth : Option ℚ := none
  wet : Option ℚ := none
  enabled : Option Bool := none

structure FreqShiftUpdate where
  frequency : Option ℚ := none
  wet : Option ℚ := none
  enabled : Option Bool := none

structure PitchShiftUpdate where
  pitch : Option ℚ := none
  wet : Option ℚ := none
  enabled : Option Bool := none

structure DelayUpdate where
  time : Option ℚ := none
  feedback : Option ℚ := none
  wet : Option ℚ := none
  enabled : Option Bool := none

structure ReverbUpdate where
  decay : Option ℚ := none
  wet : Option ℚ := none
  enabled : Option Bool := none

structure StereoWidenerUpdate where
  width : Option ℚ := none
  wet : Option ℚ := none
  enabled : Option Bool := none

def setCompressor (st : ChainState) (params : CompressorUpdate) : ChainState :=
  let st1 := match params.threshold with
    | some v => { st with compressor := { st.compressor with threshold := v } }
    | none => st
  let st2 := match params.ratio with
    | some v => { st1 with compressor := { st1.compressor with ratio := v } }
    | none => st1
  let st3 := match params.attack with
    | some v => { st2 with compressor := { st2.compressor with attack := v } }
    | none => st2
  let st4 := match params.release with
    | some v => { st3 with compressor := { st3.compressor with release := v } }
    | none => st3
  match params.enabled with
  | some b => setEnabled st4 .compressor b
  | none => st4

def setEQ3 (st : ChainState) (params : EQ3Update) : ChainState :=
  let st1 := match params.low with
    | some v => { st with eq3 := { st.eq3 with low := v } }
    | none => st
  let st2 := match params.mid with
    | some v => { st1 with eq3 := { st1.eq3 with mid := v } }
    | none => st1
  let st3 := match params.high with
    | some v => { st2 with eq3 := { st2.eq3 with high := v } }
    | none => st2
  match params.enabled with
  | some b => setEnabled st3 .eq3 b
  | none => st3

def setBitCrusher (st : ChainState) (params : BitCrusherUpdate) : ChainState :=
  let st1 := match params.bits with
    | some v => { st with bitcrusher := { st.bitcrusher with bits := v } }
    | none => st
  let st2 := match params.wet with
    | some v =>
        if isEnabled st .bitcrusher then
          { st1 with bitcrusher := { st1.bitcrusher with wet := v } }
        else st1
    | none => st1
  match params.enabled with
  | some b =>
      let st3 := setEnabled st2 .bitcrusher b
      match b, params.wet with
      | true, some v => { st3 with bitcrusher := { st3.bitcrusher with wet := v } }
      | true, none => st3
      | false, _ => st3
  | none => st2

def setDistortion (st : ChainState) (params : DistortionUpdate) : ChainState :=
  let st1 := match params.amount with
    | some v => { st with distortion := { st.distortion with amount := v } }
    | none => st
  let st2 := match params.wet with
    | some v =>
        if isEnabled st .distortion then
          { st1 with distortion := { st1.distortion with wet := v } }
        else st1
    | none => st1
  match params.enabled with
  | some b =>
      let st3 := setEnabled st2 .distortion b
      match b, params.wet with
      | true, some v => { st3 with distortion := { st3.distortion with wet := v } }
      | true, none => st3
      | false, _ => st3
  | none => st2

def setAutoWah (st : ChainState) (params : AutoWahUpdate) : ChainState :=
  let st1 := match params.baseFrequency with
    | some v => { st with autowah := { st.autowah with baseFrequency := v } }
    | none => st
  let st2 := match params.octaves with
    | some v => { st1 with autowah := { st1.autowah with octaves := v } }
    | none => st1
  let st3 := match params.sensitivity with
    | some v => { st2 with autowah := { st2.autowah with sensitivity := v } }
    | none => st2
  let st4 := match params.wet with
    | some v =>
        if isEnabled st .autowah then
          { st3 with autowah := { st3.autowah with wet := v } }
        else st3
    | none => st3
  match params.enabled with
  | some b =>
      let st5 := setEnabled st4 .autowah b
      match b, params.wet with
      | true, some v => { st5 with autowah := { st5.autowah with wet := v } }
      | true, none => st5
      | false, _ => st5
  | none => st4

def setAutoFilter (st : ChainState) (params : AutoFilterUpdate) : ChainState :=
  let st1 := match params.frequency with
    | some v => { st with autofilter := { st.autofilter with frequency := v } }
    | none => st
  let st2 := match params.depth with
    | some v => { st1 with autofilter := { st1.autofilter with depth := v } }
    | none => st1
  let st3 := match params.octaves with
    | some v => { st2 with autofilter := { st2.autofilter with octaves := v } }
    | none => st2
  let st4 := match params.wet with
    | some v =>
        if isEnabled st .autofilter then
          { st3 with autofilter := { st3.autofilter with wet := v } }
        else st3
    | none => st3
  match params.enabled with
  | some b =>
      let st5 := setEnabled st4 .autofilter b
      match b, params.wet with
      | true, some v => { st5 with autofilter := { st5.autofilter with wet := v } }
      | true, none => st5
      | false, _ => st5
  | none => st4

def setPhaser (st : ChainState) (params : PhaserUpdate) : ChainState :=
  let st1 := match params.frequency with
    | some v => { st with phaser := { st.phaser with frequency := v } }
    | none => st
  let st2 := match params.octaves with
    | some v => { st1 with phaser := { st1.phaser with octaves := v } }
    | none => st1
  let st3 := match params.wet with
    | some v =>
        if isEnabled st .phaser then
          { st2 with phaser := { st2.phaser with wet := v } }
        else st2
    | none => st2
  match params.enabled with
  | some b =>
      let st4 := setEnabled st3 .phaser b
      match b, params.wet with
      | true, some v => { st4 with phaser := { st4.phaser with wet := v } }
      | true, none => st4
      | false, _ => st4
  | none => st3

def setChorus (st : ChainState) (params : ChorusUpdate) : ChainState :=
  let st1 := match params.frequency with
    | some v => { st with chorus := { st.chorus with frequency := v } }
    | none => st
  let st2 := match params.depth with
    | some v => { st1 with chorus := { st1.chorus with depth := v } }
    | none => st1
  let st3 := match params.wet with
    | some v =>
        if isEnabled st .chorus then
          { st2 with chorus := { st2.chorus with wet := v } }
        else st2
    | none => st2
  match params.enabled with
  | some b =>
      let st4 := setEnabled st3 .chorus b
      match b, params.wet with
      | true, some v => { st4 with chorus := { st4.chorus with wet := v } }
      | true, none => st4
      | false, _ => st4
  | none => st3

def setTremolo (st : ChainState) (params : TremoloUpdate) : ChainState :=
  let st1 := match params.frequency with
    | some v => { st with tremolo := { st.tremolo with frequency := v } }
    | none => st
  let st2 := match params.depth with
    | some v => { st1 with tremolo := { st1.tremolo with depth := v } }
    | none => st1
  let st3 := match params.wet with
    | some v =>
        if isEnabled st .tremolo then
          { st2 with tremolo := { st2.tremolo with wet := v } }
        else st2
    | none => st2
  match params.enabled with
  | some b =>
      let st4 := setEnabled st3 .tremolo b
      match b, params.wet with
      | true, some v => { st4 with tremolo := { st4.tremolo with wet := v } }
      | true, none => st4
      | false, _ => st4
  | none => st3

def setVibrato (st : ChainState) (params : VibratoUpdate) : ChainState :=
  let st1 := match params.frequency with
    | some v => { st with vibrato := { st.vibrato with frequency := v } }
    | none => st
  let st2 := match params.depth with
    | some v => { st1 with vibrato := { st1.vibrato with depth := v } }
    | none => st1
  let st3 := match params.wet with
    | some v =>
        if isEnabled st .vibrato then
          { st2 with vibrato := { st2.vibrato with wet := v } }
        else st2
    | none => st2
  match params.enabled with
  | some b =>
      let st4 := setEnabled st3 .vibrato b
      match b, params.wet with
      | true, some v => { st4 with vibrato := { st4.vibrato with wet := v } }
      | true, none => st4
      | false, _ => st4
  | none => st3

def setFreqShift (st : ChainState) (params : FreqShiftUpdate) : ChainState :=
  let st1 := match params.frequency with
    | some v => { st with freqshift := { st.freqshift with frequency := v } }
    | none => st
  let st2 := match params.wet with
    | some v =>
        if isEnabled st .freqshift then
          { st1 with freqshift := { st1.freqshift with wet := v } }
        else st1
    | none => st1
  match params.enabled with
  | some b =>
      let st3 := setEnabled st2 .freqshift b
      match b, params.wet with
      | true, some v => { st3 with freqshift := { st3.freqshift with wet := v } }
      | true, none => st3
      | false, _ => st3
  | none => st2

def setPitchShift (st : ChainState) (params : PitchShiftUpdate) : ChainState :=
  let st1 := match params.pitch with
    | some v => { st with pitchshift := { st.pitchshift with pitch := v } }
    | none => st
  let st2 := match params.wet with
    | some v =>
        if isEnabled st .pitchshift then
          { st1 with pitchshift := { st1.pitchshift with wet := v } }
        else st1
    | none => st1
  match params.enabled with
  | some b =>
      let st3 := setEnabled st2 .pitchshift b
      match b, params.wet with
      | true, some v => { st3 with pitchshift := { st3.pitchshift with wet := v } }
      | true, none => st3
      | false, _ => st3
  | none => st2

def setDelay (st : ChainState) (params : DelayUpdate) : ChainState :=
  let st1 := match params.time with
    | some v => { st with delay := { st.delay with time := v } }
    | none => st
  let st2 := match params.feedback with
    | some v => { st1 with delay := { st1.delay with feedback := v } }
    | none => st1
  let st3 := match params.wet with
    | some v =>
        if isEnabled st .delay then
          { st2 with delay := { st2.delay with wet := v } }
        else st2
    | none => st2
  match params.enabled with
  | some b =>
      let st4 := setEnabled st3 .delay b
      match b, params.wet with
      | true, some v => { st4 with delay := { st4.delay with wet := v } }
      | true, none => st4
      | false, _ => st4
  | none => st3

def setReverb (st : ChainState) (params : ReverbUpdate) : ChainState :=
  let st1 := match params.decay with
    | some v => { st with reverb := { st.reverb with decay := v } }
    | none => st
  let st2 := match params.wet with
    | some v =>
        if isEnabled st .reverb then
          { st1 with reverb := { st1.reverb with wet := v } }
        else st1
    | none => st1
  match params.enabled with
  | some b =>
      let st3 := setEnabled st2 .reverb b
      match b, params.wet with
      | true, some v => { st3 with reverb := { st3.reverb with wet := v } }
      | true, none => st3
      | false, _ => st3
  | none => st2

def setStereoWidener (st : ChainState) (params : StereoWidenerUpdate) :
    ChainState :=
  let st1 := match params.width with
    | some v => { st with stereowidener := { st.stereowidener with width := v } }
    | none => st
  let st2 := match params.wet with
    | some v =>
        if isEnabled st .stereowidener then
          { st1 with stereowidener := { st1.stereowidener with wet := v } }
        else st1
    | none => st1
  match params.enabled with
  | some b =>
      let st3 := setEnabled st2 .stereowidener b
      match b, params.wet with
      | true, some v => { st3 with stereowidener := { st3.stereowidener with wet := v } }
      | true, none => st3
      | false, _ => st3
  | none => st2

/-! ### Randomization (`RANDOM_RANGES`, `randomize`, `reset`) -/

def RANDOM_RANGES.compressor.threshold : ParamRange := ⟨-30, -10⟩
def RANDOM_RANGES.compressor.ratio : ParamRange := ⟨2, 8⟩
def RANDOM_RANGES.eq3.low : ParamRange := ⟨-12, 12⟩
def RANDOM_RANGES.eq3.mid : ParamRange := ⟨-12, 12⟩
def RANDOM_RANGES.eq3.high : ParamRange := ⟨-12, 12⟩
def RANDOM_RANGES.bitcrusher.bits : ParamRange := ⟨4, 12⟩
def RANDOM_RANGES.bitcrusher.wet : ParamRange := ⟨0, 4/5⟩
def RANDOM_RANGES.distortion.amount : ParamRange := ⟨0, 3/5⟩
def RANDOM_RANGES.distortion.wet : ParamRange := ⟨0, 4/5⟩
def RANDOM_RANGES.autowah.baseFrequency : ParamRange := ⟨100, 800⟩
def RANDOM_RANGES.autowah.octaves : ParamRange := ⟨2, 6⟩
def RANDOM_RANGES.autowah.sensitivity : ParamRange := ⟨0, 0⟩
def RANDOM_RANGES.autowah.wet : ParamRange := ⟨0, 4/5⟩
def RANDOM_RANGES.autofilter.frequency : ParamRange := ⟨1/2, 8⟩
def RANDOM_RANGES.autofilter.depth : ParamRange := ⟨1/5, 1⟩
def RANDOM_RANGES.autofilter.octaves : ParamRange := ⟨1, 4⟩
def RANDOM_RANGES.autofilter.wet : ParamRange := ⟨0, 4/5⟩
def RANDOM_RANGES.phaser.frequency : ParamRange := ⟨1/2, 8⟩
def RANDOM_RANGES.phaser.octaves : ParamRange := ⟨1, 3⟩
def RANDOM_RANGES.phaser.wet : ParamRange := ⟨0, 7/10⟩
def RANDOM_RANGES.chorus.frequency : ParamRange := ⟨1/2, 4⟩
def RANDOM_RANGES.chorus.depth : ParamRange := ⟨1/5, 4/5⟩
def RANDOM_RANGES.chorus.wet : ParamRange := ⟨0, 3/5⟩
def RANDOM_RANGES.tremolo.frequency : ParamRange := ⟨2, 12⟩
def RANDOM_RANGES.tremolo.depth : ParamRange := ⟨3/10, 1⟩
def RANDOM_RANGES.tremolo.wet : ParamRange := ⟨0, 4/5⟩
def RANDOM_RANGES.vibrato.frequency : ParamRange := ⟨2, 10⟩
def RANDOM_RANGES.vibrato.depth : ParamRange := ⟨1/10, 1/2⟩
def RANDOM_RANGES.vibrato.wet : ParamRange := ⟨0, 7/10⟩
def RANDOM_RANGES.freqshift.frequency : ParamRange := ⟨-500, 500⟩
def RANDOM_RANGES.freqshift.wet : ParamRange := ⟨0, 3/5⟩
def RANDOM_RANGES.pitchshift.pitch : ParamRange := ⟨-12, 12⟩
def RANDOM_RANGES.pitchshift.wet : ParamRange := ⟨0, 4/5⟩
def RANDOM_RANGES.delay.time : ParamRange := ⟨1/10, 1/2⟩
def RANDOM_RANGES.delay.feedback : ParamRange := ⟨1/5, 3/5⟩
def RANDOM_RANGES.delay.wet : ParamRange := ⟨0, 1/2⟩
def RANDOM_RANGES.reverb.decay : ParamRange := ⟨1/2, 3⟩
def RANDOM_RANGES.reverb.wet : ParamRange := ⟨1/10, 1/2⟩
def RANDOM_RANGES.stereowidener.width : ParamRange := ⟨0, 1⟩
def RANDOM_RANGES.stereowidener.wet : ParamRange := ⟨0, 1⟩

/-- `Math.round(x)` for the rounded parameters (`bits`, `octaves`,
`pitch`): round half up. -/
def jsRound (q : ℚ) : ℚ := ((⌊q + 1/2⌋ : ℤ) : ℚ)

/-- The stream of `Math.random()` results consumed by one `randomize()`
call: `counts` feeds the enabled-unit count, `shuffled` is the result of
`[...DEFAULT_ORDER].sort(() => Math.random() - 0.5)` (some permutation of
the default order — the JS sort result with an inconsistent comparator is
implementation defined, but is always a permutation), and `draws n` is
the `n`-th subsequent `Math.random()` consumed by the parameter draws, in
source evaluation order. -/
structure RandomSource where
  counts : ℚ
  shuffled : List EffectId
  draws : ℕ → ℚ

/-- `Math.floor(Math.random() * 3) + 3`: the number of units to enable. -/
def numEffects (rs : RandomSource) : ℕ := (⌊rs.counts * 3⌋ + 3).toNat

/-- `randomize()`: disable everything, pick 3-5 units from the shuffled
order, then randomize parameters for all units while enabling only the
selected ones. -/
def randomize (st : ChainState) (rs : RandomSource) : ChainState :=
  let rand := fun (n : ℕ) (mn mx : ℚ) => rs.draws n * (mx - mn) + mn
  let st := DEFAULT_ORDER.foldl (fun s effectId => setEnabled s effectId false) st
  let selectedEffects := rs.shuffled.take (numEffects rs)
  let st := setCompressor st
    { threshold := some (rand 0 RANDOM_RANGES.compressor.threshold.min RANDOM_RANGES.compressor.threshold.max),
      ratio := some (rand 1 RANDOM_RANGES.compressor.ratio.min RANDOM_RANGES.compressor.ratio.max),
      enabled := some (selectedEffects.contains .compressor) }
  let st := setEQ3 st
    { low := some (rand 2 RANDOM_RANGES.eq3.low.min RANDOM_RANGES.eq3.low.max),
      mid := some (rand 3 RANDOM_RANGES.eq3.mid.min RANDOM_RANGES.eq3.mid.max),
      high := some (rand 4 RANDOM_RANGES.eq3.high.min RANDOM_RANGES.eq3.high.max),
      enabled := some (selectedEffects.contains .eq3) }
  let st := setBitCrusher st
    { bits := some (jsRound (rand 5 RANDOM_RANGES.bitcrusher.bits.min RANDOM_RANGES.bitcrusher.bits.max)),
      wet := some (rand 6 RANDOM_RANGES.bitcrusher.wet.min RANDOM_RANGES.bitcrusher.wet.max),
      enabled := some (selectedEffects.contains .bitcrusher) }
  let st := setDistortion st
    { amount := some (rand 7 RANDOM_RANGES.distortion.amount.min RANDOM_RANGES.distortion.amount.max),
      wet := some (rand 8 RANDOM_RANGES.distortion.wet.min RANDOM_RANGES.distortion.wet.max),
      enabled := some (selectedEffects.contains .distortion) }
  let st := setAutoWah st
    { baseFrequency := some (rand 9 RANDOM_RANGES.autowah.baseFrequency.min RANDOM_RANGES.autowah.baseFrequency.max),
      octaves := some (jsRound (rand 10 RANDOM_RANGES.autowah.octaves.min RANDOM_RANGES.autowah.octaves.max)),
      wet := some (rand 11 RANDOM_RANGES.autowah.wet.min RANDOM_RANGES.autowah.wet.max),
      enabled := some (selectedEffects.contains .autowah) }
  let st := setAutoFilter st
    { frequency := some (rand 12 RANDOM_RANGES.autofilter.frequency.min RANDOM_RANGES.autofilter.frequency.max),
      depth := some (rand 13 RANDOM_RANGES.autofilter.depth.min RANDOM_RANGES.autofilter.depth.max),
      octaves := some (jsRound (rand 14 RANDOM_RANGES.autofilter.octaves.min RANDOM_RANGES.autofilter.octaves.max)),
      wet := some (rand 15 RANDOM_RANGES.autofilter.wet.min RANDOM_RANGES.autofilter.wet.max),
      enabled := some (selectedEffects.contains .autofilter) }
  let st := setPhaser st
    { frequency := some (rand 16 RANDOM_RANGES.phaser.frequency.min RANDOM_RANGES.phaser.frequency.max),
      octaves := some (jsRound (rand 17 RANDOM_RANGES.phaser.octaves.min RANDOM_RANGES.phaser.octaves.max)),
      wet := some (rand 18 RANDOM_RANGES.phaser.wet.min RANDOM_RANGES.phaser.wet.max),
      enabled := some (selectedEffects.contains .phaser) }
  let st := setChorus st
    { frequency := some (rand 19 RANDOM_RANGES.chorus.frequency.min RANDOM_RANGES.chorus.frequency.max),
      depth := some (rand 20 RANDOM_RANGES.chorus.depth.min RANDOM_RANGES.chorus.depth.max),
      wet := some (rand 21 RANDOM_RANGES.chorus.wet.min RANDOM_RANGES.chorus.wet.max),
      enabled := some (selectedEffects.contains .chorus) }
  let st := setTremolo st
    { frequency := some (rand 22 RANDOM_RANGES.tremolo.frequency.min RANDOM_RANGES.tremolo.frequency.max),
      depth := some (rand 23 RANDOM_RANGES.tremolo.depth.min RANDOM_RANGES.tremolo.depth.max),
      wet := some (rand 24 RANDOM_RANGES.tremolo.wet.min RANDOM_RANGES.tremolo.wet.max),
      enabled := some (selectedEffects.contains .tremolo) }
  let st := setVibrato st
    { frequency := some (rand 25 RANDOM_RANGES.vibrato.frequency.min RANDOM_RANGES.vibrato.frequency.max),
      depth := some (rand 26 RANDOM_RANGES.vibrato.depth.min RANDOM_RANGES.vibrato.depth.max),
      wet := some (rand 27 RANDOM_RANGES.vibrato.wet.min RANDOM_RANGES.vibrato.wet.max),
      enabled := some (selectedEffects.contains .vibrato) }
  let st := setFreqShift st
    { frequency := some (rand 28 RANDOM_RANGES.freqshift.frequency.min RANDOM_RANGES.freqshift.frequency.max),
      wet := some (rand 29 RANDOM_RANGES.freqshift.wet.min RANDOM_RANGES.freqshift.wet.max),
      enabled := some (selectedEffects.contains .freqshift) }
  let st := setPitchShift st
    { pitch := some (jsRound (rand 30 RANDOM_RANGES.pitchshift.pitch.min RANDOM_RANGES.pitchshift.pitch.max)),
      wet := some (rand 31 RANDOM_RANGES.pitchshift.wet.min RANDOM_RANGES.pitchshift.wet.max),
      enabled := some (selectedEffects.contains .pitchshift) }
  let st := setDelay st
    { time := some (rand 32 RANDOM_RANGES.delay.time.min RANDOM_RANGES.delay.time.max),
      feedback := some (rand 33 RANDOM_RANGES.delay.feedback.min RANDOM_RANGES.delay.feedback.max),
      wet := some (rand 34 RANDOM_RANGES.delay.wet.min RANDOM_RANGES.delay.wet.max),
      enabled := some (selectedEffects.contains .delay) }
  let st := setReverb st
    { decay := some (rand 35 RANDOM_RANGES.reverb.decay.min RANDOM_RANGES.reverb.decay.max),
      wet := some (rand 36 RANDOM_RANGES.reverb.wet.min RANDOM_RANGES.reverb.wet.max),
      enabled := some (selectedEffects.contains .reverb) }
  setStereoWidener st
    { width := some (rand 37 RANDOM_RANGES.stereowidener.width.min RANDOM_RANGES.stereowidener.width.max),
      wet := some (rand 38 RANDOM_RANGES.stereowidener.wet.min RANDOM_RANGES.stereowidener.wet.max),
      enabled := some (selectedEffects.contains .stereowidener) }

/-- `reset()`: factory defaults, everything disabled. -/
def reset (st : ChainState) : ChainState :=
  let st := setCompressor st { threshold := some (-20), ratio := some 4, attack := some (3/1000), release := some (1/4), enabled := some false }
  let st := setEQ3 st { low := some 0, mid := some 0, high := some 0, enabled := some false }
  let st := setBitCrusher st { bits := some 8, wet := some (1/2), enabled := some false }
  let st := setDistortion st { amount := some (2/5), wet := some (1/2), enabled := some false }
  let st := setAutoWah st { baseFrequency := some 200, octaves := some 4, sensitivity := some 0, wet := some (1/2), enabled := some false }
  let st := setAutoFilter st { frequency := some 2, depth := some (1/2), octaves := some (5/2), wet := some (1/2), enabled := some false }
  let st := setPhaser st { frequency := some 2, octaves := some 2, wet := some (1/2), enabled := some false }
  let st := setChorus st { frequency := some (3/2), depth := some (1/2), wet := some (1/2), enabled := some false }
  let st := setTremolo st { frequency := some 6, depth := some (1/2), wet := some (1/2), enabled := some false }
  let st := setVibrato st { frequency := some 5, depth := some (1/5), wet := some (1/2), enabled := some false }
  let st := setFreqShift st { frequency := some 0, wet := some (1/2), enabled := some false }
  let st := setPitchShift st { pitch := some 0, wet := some (1/2), enabled := some false }
  let st := setDelay st { time := some (1/4), feedback := some (2/5), wet := some (3/10), enabled := some false }
  let st := setReverb st { decay := some (3/2), wet := some (3/10), enabled := some false }
  setStereoWidener st { width := some (1/2), wet := some (1/2), enabled := some false }

/-- The public mutating operations of `EffectsChain`. -/
inductive ChainOp
  | reorder (newOrder : List EffectId)
  | setEnabled (id : EffectId) (b : Bool)
  | randomize (rs : RandomSource)
  | reset
  | setCompressor (u : CompressorUpdate)
  | setEQ3 (u : EQ3Update)
  | setBitCrusher (u : BitCrusherUpdate)
  | setDistortion (u : DistortionUpdate)
  | setAutoWah (u : AutoWahUpdate)
  | setAutoFilter (u : AutoFilterUpdate)
  | setPhaser (u : PhaserUpdate)
  | setChorus (u : ChorusUpdate)
  | setTremolo (u : TremoloUpdate)
  | setVibrato (u : VibratoUpdate)
  | setFreqShift (u : FreqShiftUpdate)
  | setPitchShift (u : PitchShiftUpdate)
  | setDelay (u : DelayUpdate)
  | setReverb (u : ReverbUpdate)
  | setStereoWidener (u : StereoWidenerUpdate)

/-- Dispatch one `ChainOp`. -/
def applyChainOp (st : ChainState) : ChainOp → ChainState
  | .reorder newOrder => reorder st newOrder
  | .setEnabled id b => setEnabled st id b
  | .randomize rs => randomize st rs
  | .reset => reset st
  | .setCompressor u => setCompressor st u
  | .setEQ3 u => setEQ3 st u
  | .setBitCrusher u => setBitCrusher st u
  | .setDistortion u => setDistortion st u
  | .setAutoWah u => setAutoWah st u
  | .setAutoFilter u => setAutoFilter st u
  | .setPhaser u => setPhaser st u
  | .setChorus u => setChorus st u
  | .setTremolo u => setTremolo st u
  | .setVibrato u => setVibrato st u
  | .setFreqShift u => setFreqShift st u
  | .setPitchShift u => setPitchShift st u
  | .setDelay u => setDelay st u
  | .setReverb u => setReverb st u
  | .setStereoWidener u => setStereoWidener st u

/-- Everything of a `ChainState` except the wiring: used to state how the
operations transform parameters, enabled flags and order. -/
structure CoreView where
  compressor : CompressorParams
  eq3 : EQ3Params
  bitcrusher : BitCrusherParams
  distortion : DistortionParams
  autowah : AutoWahParams
  autofilter : AutoFilterParams
  phaser : PhaserParams
  chorus : ChorusParams
  tremolo : TremoloParams
  vibrato : VibratoParams
  freqshift : FreqShiftParams
  pitchshift : PitchShiftParams
  delay : DelayParams
  reverb : ReverbParams
  stereowidener : StereoWidenerParams
  compressorEnabled : Bool
  eq3Enabled : Bool
  bitcrusherEnabled : Bool
  distortionEnabled : Bool
  autowahEnabled : Bool
  autofilterEnabled : Bool
  phaserEnabled : Bool
  chorusEnabled : Bool
  tremoloEnabled : Bool
  vibratoEnabled : Bool
  freqshiftEnabled : Bool
  pitchshiftEnabled : Bool
  delayEnabled : Bool
  reverbEnabled : Bool
  stereowidenerEnabled : Bool
  order : List EffectId
  storedOrder : Option (List EffectId)
deriving DecidableEq

/-- Project a `ChainState` onto its `CoreView`. -/
def coreOf (st : ChainState) : CoreView where
  compressor := st.compressor
  eq3 := st.eq3
  bitcrusher := st.bitcrusher
  distortion := st.distortion
  autowah := st.autowah
  autofilter := st.autofilter
  phaser := st.phaser
  chorus := st.chorus
  tremolo := st.tremolo
  vibrato := st.vibrato
  freqshift := st.freqshift
  pitchshift := st.pitchshift
  delay := st.delay
  reverb := st.reverb
  stereowidener := st.stereowidener
  compressorEnabled := st.compressorEnabled
  eq3Enabled := st.eq3Enabled
  bitcrusherEnabled := st.bitcrusherEnabled
  distortionEnabled := st.distortionEnabled
  autowahEnabled := st.autowahEnabled
  autofilterEnabled := st.autofilterEnabled
  phaserEnabled := st.phaserEnabled
  chorusEnabled := st.chorusEnabled
  tremoloEnabled := st.tremoloEnabled
  vibratoEnabled := st.vibratoEnabled
  freqshiftEnabled := st.freqshiftEnabled
  pitchshiftEnabled := st.pitchshiftEnabled
  delayEnabled := st.delayEnabled
  reverbEnabled := st.reverbEnabled
  stereowidenerEnabled := st.stereowidenerEnabled
  order := st.order
  storedOrder := st.storedOrder

lemma setEnabled_core_compressor (st : ChainState) (b : Bool) :
    coreOf (setEnabled st .compressor b) = { coreOf st with compressorEnabled := b } := by
  unfold setEnabled
  split
  · rename_i h
    simp only [isEnabled] at h
    simp [coreOf, h]
  · simp [coreOf, writeEnabledFlag]

lemma setEnabled_core_eq3 (st : ChainState) (b : Bool) :
    coreOf (setEnabled st .eq3 b) = { coreOf st with eq3Enabled := b } := by
  unfold setEnabled
  split
  · rename_i h
    simp only [isEnabled] at h
    simp [coreOf, h]
  · simp [coreOf, writeEnabledFlag]

lemma setEnabled_core_bitcrusher (st : ChainState) (b : Bool) :
    coreOf (setEnabled st .bitcrusher b) = { coreOf st with bitcrusherEnabled := b } := by
  unfold setEnabled
  split
  · rename_i h
    simp only [isEnabled] at h
    simp [coreOf, h]
  · simp [coreOf, writeEnabledFlag]

lemma setEnabled_core_distortion (st : ChainState) (b : Bool) :
    coreOf (setEnabled st .distortion b) = { coreOf st with distortionEnabled := b } := by
  unfold setEnabled
  split
  · rename_i h
    simp only [isEnabled] at h
    simp [coreOf, h]
  · simp [coreOf, writeEnabledFlag]

lemma setEnabled_core_autowah (st : ChainState) (b : Bool) :
    coreOf (setEnabled st .autowah b) = { coreOf st with autowahEnabled := b } := by
  unfold setEnabled
  split
  · rename_i h
    simp only [isEnabled] at h
    simp [coreOf, h]
  · simp [coreOf, writeEnabledFlag]

lemma setEnabled_core_autofilter (st : ChainState) (b : Bool) :
    coreOf (setEnabled st .autofilter b) = { coreOf st with autofilterEnabled := b } := by
  unfold setEnabled
  split
  · rename_i h
    simp only [isEnabled] at h
    simp [coreOf, h]
  · simp [coreOf, writeEnabledFlag]

lemma setEnabled_core_phaser (st : ChainState) (b : Bool) :
    coreOf (setEnabled st .phaser b) = { coreOf st with phaserEnabled := b } := by
  unfold setEnabled
  split
  · rename_i h
    simp only [isEnabled] at h
    simp [coreOf, h]
  · simp [coreOf, writeEnabledFlag]

lemma setEnabled_core_chorus (st : ChainState) (b : Bool) :
    coreOf (setEnabled st .chorus b) = { coreOf st with chorusEnabled := b } := by
  unfold setEnabled
  split
  · rename_i h
    simp only [isEnabled] at h
    simp [coreOf, h]
  · simp [coreOf, writeEnabledFlag]

lemma setEnabled_core_tremolo (st : ChainState) (b : Bool) :
    coreOf (setEnabled st .tremolo b) = { coreOf st with tremoloEnabled := b } := by
  unfold setEnabled
  split
  · rename_i h
    simp only [isEnabled] at h
    simp [coreOf, h]
  · simp [coreOf, writeEnabledFlag]

lemma setEnabled_core_vibrato (st : ChainState) (b : Bool) :
    coreOf (setEnabled st .vibrato b) = { coreOf st with vibratoEnabled := b } := by
  unfold setEnabled
  split
  · rename_i h
    simp only [isEnabled] at h
    simp [coreOf, h]
  · simp [coreOf, writeEnabledFlag]

lemma setEnabled_core_freqshift (st : ChainState) (b : Bool) :
    coreOf (setEnabled st .freqshift b) = { coreOf st with freqshiftEnabled := b } := by
  unfold setEnabled
  split
  · rename_i h
    simp only [isEnabled] at h
    simp [coreOf, h]
  · simp [coreOf, writeEnabledFlag]

lemma setEnabled_core_pitchshift (st : ChainState) (b : Bool) :
    coreOf (setEnabled st .pitchshift b) = { coreOf st with pitchshiftEnabled := b } := by
  unfold setEnabled
  split
  · rename_i h
    simp only [isEnabled] at h
    simp [coreOf, h]
  · simp [coreOf, writeEnabledFlag]

lemma setEnabled_core_delay (st : ChainState) (b : Bool) :
    coreOf (setEnabled st .delay b) = { coreOf st with delayEnabled := b } := by
  unfold setEnabled
  split
  · rename_i h
    simp only [isEnabled] at h
    simp [coreOf, h]
  · simp [coreOf, writeEnabledFlag]

lemma setEnabled_core_reverb (st : ChainState) (b : Bool) :
    coreOf (setEnabled st .reverb b) = { coreOf st with reverbEnabled := b } := by
  unfold setEnabled
  split
  · rename_i h
    simp only [isEnabled] at h
    simp [coreOf, h]
  · simp [coreOf, writeEnabledFlag]

lemma setEnabled_core_stereowidener (st : ChainState) (b : Bool) :
    coreOf (setEnabled st .stereowidener b) = { coreOf st with stereowidenerEnabled := b } := by
  unfold setEnabled
  split
  · rename_i h
    simp only [isEnabled] at h
    simp [coreOf, h]
  · simp [coreOf, writeEnabledFlag]

lemma setEnabled_order (st : ChainState) (id : EffectId) (b : Bool) :
    (setEnabled st id b).order = st.order := by
  unfold setEnabled
  split
  · rfl
  · cases id <;> rfl

lemma disableAll_core (st : ChainState) :
    coreOf (DEFAULT_ORDER.foldl (fun s effectId => setEnabled s effectId false) st) =
      { coreOf st with
        compressorEnabled := false, eq3Enabled := false, bitcrusherEnabled := false, distortionEnabled := false, autowahEnabled := false, autofilterEnabled := false, phaserEnabled := false, chorusEnabled := false, tremoloEnabled := false, vibratoEnabled := false, freqshiftEnabled := false, pitchshiftEnabled := false, delayEnabled := false, reverbEnabled := false, stereowidenerEnabled := false } := by
  simp only [DEFAULT_ORDER, List.foldl_cons, List.foldl_nil,
    setEnabled_core_compressor, setEnabled_core_eq3, setEnabled_core_bitcrusher, setEnabled_core_distortion, setEnabled_core_autowah, setEnabled_core_autofilter, setEnabled_core_phaser, setEnabled_core_chorus, setEnabled_core_tremolo, setEnabled_core_vibrato, setEnabled_core_freqshift, setEnabled_core_pitchshift, setEnabled_core_delay, setEnabled_core_reverb, setEnabled_core_stereowidener]

lemma setCompressor_core (st : ChainState) (t r : ℚ) (ao ro : Option ℚ) (e : Bool) :
    coreOf (setCompressor st { threshold := some t, ratio := some r, attack := ao, release := ro, enabled := some e }) =
      { coreOf st with compressor := ⟨t, r, ao.getD (coreOf st).compressor.attack, ro.getD (coreOf st).compressor.release⟩, compressorEnabled := e } := by
  cases ao <;> cases ro <;>
    (simp only [setCompressor, setEnabled];
     split <;> rename_i h <;>
       simp_all [isEnabled, writeEnabledFlag, coreOf])

lemma setEQ3_core (st : ChainState) (lo mi hi : ℚ) (e : Bool) :
    coreOf (setEQ3 st { low := some lo, mid := some mi, high := some hi, enabled := some e }) =
      { coreOf st with eq3 := ⟨lo, mi, hi⟩, eq3Enabled := e } := by
  (simp only [setEQ3, setEnabled];
     split <;> rename_i h <;>
       simp_all [isEnabled, writeEnabledFlag, coreOf])

lemma setBitCrusher_core (st : ChainState) (bv wv : ℚ) (e : Bool) :
    coreOf (setBitCrusher st { bits := some bv, wet := some wv, enabled := some e }) =
      { coreOf st with bitcrusher := ⟨bv, ite (e = true) wv (ite ((coreOf st).bitcrusherEnabled = true) wv (coreOf st).bitcrusher.wet)⟩, bitcrusherEnabled := e } := by
  cases hb : st.bitcrusherEnabled <;> cases e <;>
    simp_all [setBitCrusher, setEnabled, isEnabled, writeEnabledFlag, coreOf]

lemma setDistortion_core (st : ChainState) (av wv : ℚ) (e : Bool) :
    coreOf (setDistortion st { amount := some av, wet := some wv, enabled := some e }) =
      { coreOf st with distortion := ⟨av, ite (e = true) wv (ite ((coreOf st).distortionEnabled = true) wv (coreOf st).distortion.wet)⟩, distortionEnabled := e } := by
  cases hb : st.distortionEnabled <;> cases e <;>
    simp_all [setDistortion, setEnabled, isEnabled, writeEnabledFlag, coreOf]

lemma setAutoWah_core (st : ChainState) (bf oc wv : ℚ) (so : Option ℚ) (e : Bool) :
    coreOf (setAutoWah st { baseFrequency := some bf, octaves := some oc, sensitivity := so, wet := some wv, enabled := some e }) =
      { coreOf st with autowah := ⟨bf, oc, so.getD (coreOf st).autowah.sensitivity, ite (e = true) wv (ite ((coreOf st).autowahEnabled = true) wv (coreOf st).autowah.wet)⟩, autowahEnabled := e } := by
  cases so <;>
    cases hb : st.autowahEnabled <;> cases e <;>
    simp_all [setAutoWah, setEnabled, isEnabled, writeEnabledFlag, coreOf]

lemma setAutoFilter_core (st : ChainState) (fv dv ov wv : ℚ) (e : Bool) :
    coreOf (setAutoFilter st { frequency := some fv, depth := some dv, octaves := some ov, wet := some wv, enabled := some e }) =
      { coreOf st with autofilter := ⟨fv, dv, ov, ite (e = true) wv (ite ((coreOf st).autofilterEnabled = true) wv (coreOf st).autofilter.wet)⟩, autofilterEnabled := e } := by
  cases hb : st.autofilterEnabled <;> cases e <;>
    simp_all [setAutoFilter, setEnabled, isEnabled, writeEnabledFlag, coreOf]

lemma setPhaser_core (st : ChainState) (fv ov wv : ℚ) (e : Bool) :
    coreOf (setPhaser st { frequency := some fv, octaves := some ov, wet := some wv, enabled := some e }) =
      { coreOf st with phaser := ⟨fv, ov, ite (e = true) wv (ite ((coreOf st).phaserEnabled = true) wv (coreOf st).phaser.wet)⟩, phaserEnabled := e } := by
  cases hb : st.phaserEnabled <;> cases e <;>
    simp_all [setPhaser, setEnabled, isEnabled, writeEnabledFlag, coreOf]

lemma setChorus_core (st : ChainState) (fv dv wv : ℚ) (e : Bool) :
    coreOf (setChorus st { frequency := some fv, depth := some dv, wet := some wv, enabled := some e }) =
      { coreOf st with chorus := ⟨fv, dv, ite (e = true) wv (ite ((coreOf st).chorusEnabled = true) wv (coreOf st).chorus.wet)⟩, chorusEnabled := e } := by
  cases hb : st.chorusEnabled <;> cases e <;>
    simp_all [setChorus, setEnabled, isEnabled, writeEnabledFlag, coreOf]

lemma setTremolo_core (st : ChainState) (fv dv wv : ℚ) (e : Bool) :
    coreOf (setTremolo st { frequency := some fv, depth := some dv, wet := some wv, enabled := some e }) =
      { coreOf st with tremolo := ⟨fv, dv, ite (e = true) wv (ite ((coreOf st).tremoloEnabled = true) wv (coreOf st).tremolo.wet)⟩, tremoloEnabled := e } := by
  cases hb : st.tremoloEnabled <;> cases e <;>
    simp_all [setTremolo, setEnabled, isEnabled, writeEnabledFlag, coreOf]

lemma setVibrato_core (st : ChainState) (fv dv wv : ℚ) (e : Bool) :
    coreOf (setVibrato st { frequency := some fv, depth := some dv, wet := some wv, enabled := some e }) =
      { coreOf st with vibrato := ⟨fv, dv, ite (e = true) wv (ite ((coreOf st).vibratoEnabled = true) wv (coreOf st).vibrato.wet)⟩, vibratoEnabled := e } := by
  cases hb : st.vibratoEnabled <;> cases e <;>
    simp_all [setVibrato, setEnabled, isEnabled, writeEnabledFlag, coreOf]

lemma setFreqShift_core (st : ChainState) (fv wv : ℚ) (e : Bool) :
    coreOf (setFreqShift st { frequency := some fv, wet := some wv, enabled := some e }) =
      { coreOf st with freqshift := ⟨fv, ite (e = true) wv (ite ((coreOf st).freqshiftEnabled = true) wv (coreOf st).freqshift.wet)⟩, freqshiftEnabled := e } := by
  cases hb : st.freqshiftEnabled <;> cases e <;>
    simp_all [setFreqShift, setEnabled, isEnabled, writeEnabledFlag, coreOf]

lemma setPitchShift_core (st : ChainState) (pv wv : ℚ) (e : Bool) :
    coreOf (setPitchShift st { pitch := some pv, wet := some wv, enabled := some e }) =
      { coreOf st with pitchshift := ⟨pv, ite (e = true) wv (ite ((coreOf st).pitchshiftEnabled = true) wv (coreOf st).pitchshift.wet)⟩, pitchshiftEnabled := e } := by
  cases hb : st.pitchshiftEnabled <;> cases e <;>
    simp_all [setPitchShift, setEnabled, isEnabled, writeEnabledFlag, coreOf]

lemma setDelay_core (st : ChainState) (tv fbv wv : ℚ) (e : Bool) :
    coreOf (setDelay st { time := some tv, feedback := some fbv, wet := some wv, enabled := some e }) =
      { coreOf st with delay := ⟨tv, fbv, ite (e = true) wv (ite ((coreOf st).delayEnabled = true) wv (coreOf st).delay.wet)⟩, delayEnabled := e } := by
  cases hb : st.delayEnabled <;> cases e <;>
    simp_all [setDelay, setEnabled, isEnabled, writeEnabledFlag, coreOf]

lemma setReverb_core (st : ChainState) (dv wv : ℚ) (e : Bool) :
    coreOf (setReverb st { decay := some dv, wet := some wv, enabled := some e }) =
      { coreOf st with reverb := ⟨dv, ite (e = true) wv (ite ((coreOf st).reverbEnabled = true) wv (coreOf st).reverb.wet)⟩, reverbEnabled := e } := by
  cases hb : st.reverbEnabled <;> cases e <;>
    simp_all [setReverb, setEnabled, isEnabled, writeEnabledFlag, coreOf]

lemma setStereoWidener_core (st : ChainState) (wdv wv : ℚ) (e : Bool) :
    coreOf (setStereoWidener st { width := some wdv, wet := some wv, enabled := some e }) =
      { coreOf st with stereowidener := ⟨wdv, ite (e = true) wv (ite ((coreOf st).stereowidenerEnabled = true) wv (coreOf st).stereowidener.wet)⟩, stereowidenerEnabled := e } := by
  cases hb : st.stereowidenerEnabled <;> cases e <;>
    simp_all [setStereoWidener, setEnabled, isEnabled, writeEnabledFlag, coreOf]

lemma setCompressor_order (st : ChainState) (u : CompressorUpdate) :
    (setCompressor st u).order = st.order := by
  obtain ⟨f0, f1, f2, f3, f4⟩ := u
  cases f0 <;> cases f1 <;> cases f2 <;> cases f3 <;> rcases f4 with _ | (_ | _) <;>
    simp [setCompressor, setEnabled_order, apply_ite (ChainState.order)]

lemma setEQ3_order (st : ChainState) (u : EQ3Update) :
    (setEQ3 st u).order = st.order := by
  obtain ⟨f0, f1, f2, f3⟩ := u
  cases f0 <;> cases f1 <;> cases f2 <;> rcases f3 with _ | (_ | _) <;>
    simp [setEQ3, setEnabled_order, apply_ite (ChainState.order)]

lemma setBitCrusher_order (st : ChainState) (u : BitCrusherUpdate) :
    (setBitCrusher st u).order = st.order := by
  obtain ⟨f0, f1, f2⟩ := u
  cases f0 <;> cases f1 <;> rcases f2 with _ | (_ | _) <;>
    simp [setBitCrusher, setEnabled_order, apply_ite (ChainState.order)]

lemma setDistortion_order (st : ChainState) (u : DistortionUpdate) :
    (setDistortion st u).order = st.order := by
  obtain ⟨f0, f1, f2⟩ := u
  cases f0 <;> cases f1 <;> rcases f2 with _ | (_ | _) <;>
    simp [setDistortion, setEnabled_order, apply_ite (ChainState.order)]

lemma setAutoWah_order (st : ChainState) (u : AutoWahUpdate) :
    (setAutoWah st u).order = st.order := by
  obtain ⟨f0, f1, f2, f3, f4⟩ := u
  cases f0 <;> cases f1 <;> cases f2 <;> cases f3 <;> rcases f4 with _ | (_ | _) <;>
    simp [setAutoWah, setEnabled_order, apply_ite (ChainState.order)]

lemma setAutoFilter_order (st : ChainState) (u : AutoFilterUpdate) :
    (setAutoFilter st u).order = st.order := by
  obtain ⟨f0, f1, f2, f3, f4⟩ := u
  cases f0 <;> cases f1 <;> cases f2 <;> cases f3 <;> rcases f4 with _ | (_ | _) <;>
    simp [setAutoFilter, setEnabled_order, apply_ite (ChainState.order)]

lemma setPhaser_order (st : ChainState) (u : PhaserUpdate) :
    (setPhaser st u).order = st.order := by
  obtain ⟨f0, f1, f2, f3⟩ := u
  cases f0 <;> cases f1 <;> cases f2 <;> rcases f3 with _ | (_ | _) <;>
    simp [setPhaser, setEnabled_order, apply_ite (ChainState.order)]

lemma setChorus_order (st : ChainState) (u : ChorusUpdate) :
    (setChorus st u).order = st.order := by
  obtain ⟨f0, f1, f2, f3⟩ := u
  cases f0 <;> cases f1 <;> cases f2 <;> rcases f3 with _ | (_ | _) <;>
    simp [setChorus, setEnabled_order, apply_ite (ChainState.order)]

lemma setTremolo_order (st : ChainState) (u : TremoloUpdate) :
    (setTremolo st u).order = st.order := by
  obtain ⟨f0, f1, f2, f3⟩ := u
  cases f0 <;> cases f1 <;> cases f2 <;> rcases f3 with _ | (_ | _) <;>
    simp [setTremolo, setEnabled_order, apply_ite (ChainState.order)]

lemma setVibrato_order (st : ChainState) (u : VibratoUpdate) :
    (setVibrato st u).order = st.order := by
  obtain ⟨f0, f1, f2, f3⟩ := u
  cases f0 <;> cases f1 <;> cases f2 <;> rcases f3 with _ | (_ | _) <;>
    simp [setVibrato, setEnabled_order, apply_ite (ChainState.order)]

lemma setFreqShift_order (st : ChainState) (u : FreqShiftUpdate) :
    (setFreqShift st u).order = st.order := by
  obtain ⟨f0, f1, f2⟩ := u
  cases f0 <;> cases f1 <;> rcases f2 with _ | (_ | _) <;>
    simp [setFreqShift, setEnabled_order, apply_ite (ChainState.order)]

lemma setPitchShift_order (st : ChainState) (u : PitchShiftUpdate) :
    (setPitchShift st u).order = st.order := by
  obtain ⟨f0, f1, f2⟩ := u
  cases f0 <;> cases f1 <;> rcases f2 with _ | (_ | _) <;>
    simp [setPitchShift, setEnabled_order, apply_ite (ChainState.order)]

lemma setDelay_order (st : ChainState) (u : DelayUpdate) :
    (setDelay st u).order = st.order := by
  obtain ⟨f0, f1, f2, f3⟩ := u
  cases f0 <;> cases f1 <;> cases f2 <;> rcases f3 with _ | (_ | _) <;>
    simp [setDelay, setEnabled_order, apply_ite (ChainState.order)]

lemma setReverb_order (st : ChainState) (u : ReverbUpdate) :
    (setReverb st u).order = st.order := by
  obtain ⟨f0, f1, f2⟩ := u
  cases f0 <;> cases f1 <;> rcases f2 with _ | (_ | _) <;>
    simp [setReverb, setEnabled_order, apply_ite (ChainState.order)]

lemma setStereoWidener_order (st : ChainState) (u : StereoWidenerUpdate) :
    (setStereoWidener st u).order = st.order := by
  obtain ⟨f0, f1, f2⟩ := u
  cases f0 <;> cases f1 <;> rcases f2 with _ | (_ | _) <;>
    simp [setStereoWidener, setEnabled_order, apply_ite (ChainState.order)]

/-- The `rand(min, max)` value produced from the `n`-th random draw and a
documented range. -/
def drawIn (rs : RandomSource) (n : ℕ) (r : ParamRange) : ℚ :=
  rs.draws n * (r.max - r.min) + r.min

/-- Full characterization of `randomize`: every unit's flag becomes
membership in the selected prefix of the shuffle; parameters are set from
the documented ranges, except that the `wet` of a unit left disabled and
the auto-wah sensitivity keep their previous values. -/
lemma randomize_core (st : ChainState) (rs : RandomSource) :
    coreOf (randomize st rs) =
      { coreOf st with
        compressor := ⟨drawIn rs 0 RANDOM_RANGES.compressor.threshold, drawIn rs 1 RANDOM_RANGES.compressor.ratio, (coreOf st).compressor.attack, (coreOf st).compressor.release⟩,
        eq3 := ⟨drawIn rs 2 RANDOM_RANGES.eq3.low, drawIn rs 3 RANDOM_RANGES.eq3.mid, drawIn rs 4 RANDOM_RANGES.eq3.high⟩,
        bitcrusher := ⟨jsRound (drawIn rs 5 RANDOM_RANGES.bitcrusher.bits), ite (((rs.shuffled.take (numEffects rs)).contains .bitcrusher) = true) (drawIn rs 6 RANDOM_RANGES.bitcrusher.wet) (coreOf st).bitcrusher.wet⟩,
        distortion := ⟨drawIn rs 7 RANDOM_RANGES.distortion.amount, ite (((rs.shuffled.take (numEffects rs)).contains .distortion) = true) (drawIn rs 8 RANDOM_RANGES.distortion.wet) (coreOf st).distortion.wet⟩,
        autowah := ⟨drawIn rs 9 RANDOM_RANGES.autowah.baseFrequency, jsRound (drawIn rs 10 RANDOM_RANGES.autowah.octaves), (coreOf st).autowah.sensitivity, ite (((rs.shuffled.take (numEffects rs)).contains .autowah) = true) (drawIn rs 11 RANDOM_RANGES.autowah.wet) (coreOf st).autowah.wet⟩,
        autofilter := ⟨drawIn rs 12 RANDOM_RANGES.autofilter.frequency, drawIn rs 13 RANDOM_RANGES.autofilter.depth, jsRound (drawIn rs 14 RANDOM_RANGES.autofilter.octaves), ite (((rs.shuffled.take (numEffects rs)).contains .autofilter) = true) (drawIn rs 15 RANDOM_RANGES.autofilter.wet) (coreOf st).autofilter.wet⟩,
        phaser := ⟨drawIn rs 16 RANDOM_RANGES.phaser.frequency, jsRound (drawIn rs 17 RANDOM_RANGES.phaser.octaves), ite (((rs.shuffled.take (numEffects rs)).contains .phaser) = true) (drawIn rs 18 RANDOM_RANGES.phaser.wet) (coreOf st).phaser.wet⟩,
        chorus := ⟨drawIn rs 19 RANDOM_RANGES.chorus.frequency, drawIn rs 20 RANDOM_RANGES.chorus.depth, ite (((rs.shuffled.take (numEffects rs)).contains .chorus) = true) (drawIn rs 21 RANDOM_RANGES.chorus.wet) (coreOf st).chorus.wet⟩,
        tremolo := ⟨drawIn rs 22 RANDOM_RANGES.tremolo.frequency, drawIn rs 23 RANDOM_RANGES.tremolo.depth, ite (((rs.shuffled.take (numEffects rs)).contains .tremolo) = true) (drawIn rs 24 RANDOM_RANGES.tremolo.wet) (coreOf st).tremolo.wet⟩,
        vibrato := ⟨drawIn rs 25 RANDOM_RANGES.vibrato.frequency, drawIn rs 26 RANDOM_RANGES.vibrato.depth, ite (((rs.shuffled.take (numEffects rs)).contains .vibrato) = true) (drawIn rs 27 RANDOM_RANGES.vibrato.wet) (coreOf st).vibrato.wet⟩,
        freqshift := ⟨drawIn rs 28 RANDOM_RANGES.freqshift.frequency, ite (((rs.shuffled.take (numEffects rs)).contains .freqshift) = true) (drawIn rs 29 RANDOM_RANGES.freqshift.wet) (coreOf st).freqshift.wet⟩,
        pitchshift := ⟨jsRound (drawIn rs 30 RANDOM_RANGES.pitchshift.pitch), ite (((rs.shuffled.take (numEffects rs)).contains .pitchshift) = true) (drawIn rs 31 RANDOM_RANGES.pitchshift.wet) (coreOf st).pitchshift.wet⟩,
        delay := ⟨drawIn rs 32 RANDOM_RANGES.delay.time, drawIn rs 33 RANDOM_RANGES.delay.feedback, ite (((rs.shuffled.take (numEffects rs)).contains .delay) = true) (drawIn rs 34 RANDOM_RANGES.delay.wet) (coreOf st).delay.wet⟩,
        reverb := ⟨drawIn rs 35 RANDOM_RANGES.reverb.decay, ite (((rs.shuffled.take (numEffects rs)).contains .reverb) = true) (drawIn rs 36 RANDOM_RANGES.reverb.wet) (coreOf st).reverb.wet⟩,
        stereowidener := ⟨drawIn rs 37 RANDOM_RANGES.stereowidener.width, ite (((rs.shuffled.take (numEffects rs)).contains .stereowidener) = true) (drawIn rs 38 RANDOM_RANGES.stereowidener.wet) (coreOf st).stereowidener.wet⟩,
        compressorEnabled := (rs.shuffled.take (numEffects rs)).contains .compressor,
        eq3Enabled := (rs.shuffled.take (numEffects rs)).contains .eq3,
        bitcrusherEnabled := (rs.shuffled.take (numEffects rs)).contains .bitcrusher,
        distortionEnabled := (rs.shuffled.take (numEffects rs)).contains .distortion,
        autowahEnabled := (rs.shuffled.take (numEffects rs)).contains .autowah,
        autofilterEnabled := (rs.shuffled.take (numEffects rs)).contains .autofilter,
        phaserEnabled := (rs.shuffled.take (numEffects rs)).contains .phaser,
        chorusEnabled := (rs.shuffled.take (numEffects rs)).contains .chorus,
        tremoloEnabled := (rs.shuffled.take (numEffects rs)).contains .tremolo,
        vibratoEnabled := (rs.shuffled.take (numEffects rs)).contains .vibrato,
        freqshiftEnabled := (rs.shuffled.take (numEffects rs)).contains .freqshift,
        pitchshiftEnabled := (rs.shuffled.take (numEffects rs)).contains .pitchshift,
        delayEnabled := (rs.shuffled.take (numEffects rs)).contains .delay,
        reverbEnabled := (rs.shuffled.take (numEffects rs)).contains .reverb,
        stereowidenerEnabled := (rs.shuffled.take (numEffects rs)).contains .stereowidener } := by
  simp only [randomize, drawIn, disableAll_core, Option.getD,
    setCompressor_core, setEQ3_core, setBitCrusher_core, setDistortion_core,
    setAutoWah_core, setAutoFilter_core, setPhaser_core, setChorus_core,
    setTremolo_core, setVibrato_core, setFreqShift_core, setPitchShift_core,
    setDelay_core, setReverb_core, setStereoWidener_core]
  simp
/-! ### Claims C2 and C7 -/

/-- The spec's live signal path: input wired through the given effects in
sequence, ending at output. -/
def linksFrom (cur : ChainNode) : List EffectId → List (ChainNode × ChainNode)
  | [] => [(cur, ChainNode.output)]
  | id :: rest => (cur, ChainNode.effect id) :: linksFrom (ChainNode.effect id) rest

/-- The spec's live signal path starting at the input stage. -/
def chainPath (ids : List EffectId) : List (ChainNode × ChainNode) :=
  linksFrom ChainNode.input ids

lemma rewire_fold (p : EffectId → Bool) (l : List EffectId)
    (cur : ChainNode) (acc : List (ChainNode × ChainNode)) :
    (l.foldl
        (fun (acc : ChainNode × List (ChainNode × ChainNode)) effectId =>
          if p effectId then
            (ChainNode.effect effectId, acc.2 ++ [(acc.1, ChainNode.effect effectId)])
          else acc)
        (cur, acc)).2
      ++ [((l.foldl
        (fun (acc : ChainNode × List (ChainNode × ChainNode)) effectId =>
          if p effectId then
            (ChainNode.effect effectId, acc.2 ++ [(acc.1, ChainNode.effect effectId)])
          else acc)
        (cur, acc)).1, ChainNode.output)]
    = acc ++ linksFrom cur (l.filter p) := by
  induction l generalizing cur acc with
  | nil => simp [linksFrom]
  | cons x xs ih =>
    cases hx : p x with
    | true =>
      simp only [List.foldl_cons, hx, if_pos, List.filter_cons_of_pos]
      rw [ih]
      simp [linksFrom]
    | false =>
      simp only [List.foldl_cons, hx, if_neg, List.filter_cons_of_neg, ih,
        Bool.false_eq_true, not_false_eq_true]

/-- `rewireChain` produces exactly the spec's path over the enabled
subsequence of the order. -/
lemma rewireChain_eq (st : ChainState) :
    rewireChain st = chainPath (st.order.filter (fun id => isEnabled st id)) := by
  unfold rewireChain chainPath
  simpa using rewire_fold (fun id => isEnabled st id) st.order ChainNode.input []

/-- Every effect kind occurs in the default order. -/
lemma mem_DEFAULT_ORDER (id : EffectId) : id ∈ DEFAULT_ORDER := by
  cases id <;> decide

/-- A list of the default length containing every id of the fixed
universe is a permutation of the default order. -/
lemma valid_perm {l : List EffectId} (hlen : l.length = DEFAULT_ORDER.length)
    (hsub : ∀ id ∈ DEFAULT_ORDER, id ∈ l) : DEFAULT_ORDER.Perm l :=
  (List.subperm_of_subset (by decide) hsub).perm_of_length_le (le_of_eq hlen)

/-- Enabled flags do not depend on the stored order. -/
lemma isEnabled_set_order (st : ChainState) (l : List EffectId) (id : EffectId) :
    isEnabled { st with order := l } id = isEnabled st id := by
  cases id <;> rfl

/-- C2: `reorder` rejects any list of the wrong length, with a duplicate
id, or missing an id, leaving the state unchanged; for a full permutation
of the fixed universe it succeeds, and the live signal path becomes
exactly the enabled subset of the new order wired in sequence between
input and output, with the new order persisted. -/
theorem C2_reorder_validation (st : ChainState) (newOrder : List EffectId) :
    ((newOrder.length ≠ DEFAULT_ORDER.length
        ∨ (∃ id, 1 < newOrder.count id)
        ∨ (∃ id : EffectId, id ∉ newOrder)) →
      reorder st newOrder = st)
    ∧ (newOrder.Perm DEFAULT_ORDER →
        (reorder st newOrder).order = newOrder
        ∧ (reorder st newOrder).connections =
            chainPath (newOrder.filter (fun id => isEnabled st id))
        ∧ (reorder st newOrder).storedOrder = some newOrder) := by
  constructor
  · intro h
    have hcond : newOrder.length ≠ DEFAULT_ORDER.length
        ∨ ¬ ∀ id ∈ DEFAULT_ORDER, id ∈ newOrder := by
      rcases h with h | ⟨id, hid⟩ | ⟨id, hid⟩
      · exact Or.inl h
      · by_cases hlen : newOrder.length = DEFAULT_ORDER.length
        · refine Or.inr fun hall => ?_
          have hnd : newOrder.Nodup := (valid_perm hlen hall).nodup (by decide)
          exact absurd (List.nodup_iff_count_le_one.mp hnd id) (by omega)
        · exact Or.inl hlen
      · exact Or.inr fun hall => hid (hall id (mem_DEFAULT_ORDER id))
    unfold reorder
    rw [if_pos hcond]
  · intro hperm
    have hcond : ¬ (newOrder.length ≠ DEFAULT_ORDER.length
        ∨ ¬ ∀ id ∈ DEFAULT_ORDER, id ∈ newOrder) := by
      simp only [not_or, not_not]
      exact ⟨hperm.length_eq, fun id hid => hperm.symm.subset hid⟩
    unfold reorder
    rw [if_neg hcond]
    refine ⟨rfl, ?_, rfl⟩
    show rewireChain { st with order := newOrder } = _
    rw [rewireChain_eq]
    show chainPath (newOrder.filter _) = _
    congr 1

/-- Witness for C2: the empty list is rejected on the initial chain; the
reversed default order is accepted. -/
theorem C2_witness :
    ((([] : List EffectId).length ≠ DEFAULT_ORDER.length
        ∨ (∃ id, 1 < ([] : List EffectId).count id)
        ∨ (∃ id : EffectId, id ∉ ([] : List EffectId)))
      ∧ reorder (initChain none) [] = initChain none)
    ∧ (DEFAULT_ORDER.reverse.Perm DEFAULT_ORDER
      ∧ ((reorder (initChain none) DEFAULT_ORDER.reverse).order = DEFAULT_ORDER.reverse
        ∧ (reorder (initChain none) DEFAULT_ORDER.reverse).connections =
            chainPath (DEFAULT_ORDER.reverse.filter
              (fun id => isEnabled (initChain none) id))
        ∧ (reorder (initChain none) DEFAULT_ORDER.reverse).storedOrder =
            some DEFAULT_ORDER.reverse)) :=
  ⟨⟨Or.inl (by decide),
    (C2_reorder_validation (initChain none) []).1 (Or.inl (by decide))⟩,
   List.reverse_perm DEFAULT_ORDER,
   (C2_reorder_validation (initChain none) DEFAULT_ORDER.reverse).2
     (List.reverse_perm DEFAULT_ORDER)⟩

/-- `randomize` leaves the order untouched. -/
lemma randomize_order (st : ChainState) (rs : RandomSource) :
    (randomize st rs).order = st.order := by
  have h := congrArg CoreView.order (randomize_core st rs)
  simpa [coreOf] using h

/-- `reset` leaves the order untouched. -/
lemma reset_order (st : ChainState) : (reset st).order = st.order := by
  simp [reset, setCompressor_order, setEQ3_order, setBitCrusher_order,
    setDistortion_order, setAutoWah_order, setAutoFilter_order,
    setPhaser_order, setChorus_order, setTremolo_order, setVibrato_order,
    setFreqShift_order, setPitchShift_order, setDelay_order, setReverb_order,
    setStereoWidener_order]

/-- The constructor's order is the loaded order. -/
lemma initChain_order (saved : Option (List EffectId)) :
    (initChain saved).order = loadOrder saved := rfl

/-- Whatever was persisted, the loaded order is a permutation of the
fixed universe. -/
lemma loadOrder_perm (saved : Option (List EffectId)) :
    (loadOrder saved).Perm DEFAULT_ORDER := by
  cases saved with
  | none => exact List.Perm.refl _
  | some parsed =>
    simp only [loadOrder]
    split
    · rename_i h
      exact (valid_perm h.1 h.2).symm
    · exact List.Perm.refl _

/-- Each chain operation preserves the order-is-a-permutation invariant. -/
lemma order_perm_preserved (st : ChainState) (op : ChainOp)
    (h : st.order.Perm DEFAULT_ORDER) :
    (applyChainOp st op).order.Perm DEFAULT_ORDER := by
  cases op with
  | reorder newOrder =>
    show (reorder st newOrder).order.Perm DEFAULT_ORDER
    unfold reorder
    split
    · exact h
    · rename_i hv
      simp only [not_or, not_not] at hv
      exact (valid_perm hv.1 hv.2).symm
  | setEnabled id b => simpa [applyChainOp, setEnabled_order] using h
  | randomize rs => simpa [applyChainOp, randomize_order] using h
  | reset => simpa [applyChainOp, reset_order] using h
  | setCompressor u => simpa [applyChainOp, setCompressor_order] using h
  | setEQ3 u => simpa [applyChainOp, setEQ3_order] using h
  | setBitCrusher u => simpa [applyChainOp, setBitCrusher_order] using h
  | setDistortion u => simpa [applyChainOp, setDistortion_order] using h
  | setAutoWah u => simpa [applyChainOp, setAutoWah_order] using h
  | setAutoFilter u => simpa [applyChainOp, setAutoFilter_order] using h
  | setPhaser u => simpa [applyChainOp, setPhaser_order] using h
  | setChorus u => simpa [applyChainOp, setChorus_order] using h
  | setTremolo u => simpa [applyChainOp, setTremolo_order] using h
  | setVibrato u => simpa [applyChainOp, setVibrato_order] using h
  | setFreqShift u => simpa [applyChainOp, setFreqShift_order] using h
  | setPitchShift u => simpa [applyChainOp, setPitchShift_order] using h
  | setDelay u => simpa [applyChainOp, setDelay_order] using h
  | setReverb u => simpa [applyChainOp, setReverb_order] using h
  | setStereoWidener u => simpa [applyChainOp, setStereoWidener_order] using h

/-- C7: after construction (from any persisted value, valid or not) and
any sequence of chain operations — reorder, setEnabled, randomize, reset
and all parameter setters — the order contains every effect kind exactly
once. -/
theorem C7_order_contains_each_exactly_once (saved : Option (List EffectId))
    (ops : List ChainOp) (id : EffectId) :
    ((ops.foldl applyChainOp (initChain saved)).order).count id = 1 := by
  have key : ∀ (l : List ChainOp) (s : ChainState), s.order.Perm DEFAULT_ORDER →
      (l.foldl applyChainOp s).order.Perm DEFAULT_ORDER := by
    intro l
    induction l with
    | nil => exact fun s h => h
    | cons op rest ih => exact fun s h => ih _ (order_perm_preserved s op h)
  have hperm := key ops (initChain saved)
    (by rw [initChain_order]; exact loadOrder_perm saved)
  rw [hperm.count_eq]
  cases id <;> decide

/-! ### Claims C9 and C3 -/

/-- A value lies inside a documented `{ min, max }` range. -/
def inRange (v : ℚ) (r : ParamRange) : Prop := r.min ≤ v ∧ v ≤ r.max

/-- `getEnabledEffects()`: the enabled units, in order. -/
def getEnabledEffects (st : ChainState) : List EffectId :=
  st.order.filter (fun id => isEnabled st id)

/-- The number of enabled units. -/
def enabledCount (st : ChainState) : ℕ := (getEnabledEffects st).length

lemma drawIn_mem (rs : RandomSource) (n : ℕ) (r : ParamRange)
    (h0 : 0 ≤ rs.draws n) (h1 : rs.draws n < 1) (hr : r.min ≤ r.max) :
    inRange (drawIn rs n r) r := by
  unfold drawIn inRange
  constructor <;> nlinarith

lemma jsRound_mem (x : ℚ) (r : ParamRange) (mn mx : ℤ)
    (hmn : r.min = (mn : ℚ)) (hmx : r.max = (mx : ℚ))
    (h1 : r.min ≤ x) (h2 : x ≤ r.max) : inRange (jsRound x) r := by
  unfold jsRound inRange
  rw [hmn, hmx] at *
  constructor
  · exact_mod_cast Int.le_floor.mpr (by linarith)
  · have hfl : (⌊x + 1/2⌋ : ℚ) ≤ x + 1/2 := Int.floor_le _
    have : (⌊x + 1/2⌋ : ℚ) < (mx : ℚ) + 1 := lt_of_le_of_lt hfl (by linarith)
    have hlt : ⌊x + 1/2⌋ < mx + 1 := by exact_mod_cast this
    exact_mod_cast Int.lt_add_one_iff.mp hlt

lemma numEffects_bounds (rs : RandomSource)
    (hc0 : 0 ≤ rs.counts) (hc1 : rs.counts < 1) :
    3 ≤ numEffects rs ∧ numEffects rs ≤ 5 := by
  unfold numEffects
  have h0 : (0 : ℤ) ≤ ⌊rs.counts * 3⌋ := Int.le_floor.mpr (by push_cast; nlinarith)
  have h2 : ⌊rs.counts * 3⌋ < 3 := Int.floor_lt.mpr (by push_cast; nlinarith)
  omega

/-- Enabled flags after `randomize`: exactly the selected prefix of the
shuffle. -/
lemma randomize_isEnabled (st : ChainState) (rs : RandomSource) (id : EffectId) :
    isEnabled (randomize st rs) id =
      (rs.shuffled.take (numEffects rs)).contains id := by
  have h := randomize_core st rs
  cases id with
  | compressor => exact congrArg CoreView.compressorEnabled h
  | eq3 => exact congrArg CoreView.eq3Enabled h
  | bitcrusher => exact congrArg CoreView.bitcrusherEnabled h
  | distortion => exact congrArg CoreView.distortionEnabled h
  | autowah => exact congrArg CoreView.autowahEnabled h
  | autofilter => exact congrArg CoreView.autofilterEnabled h
  | phaser => exact congrArg CoreView.phaserEnabled h
  | chorus => exact congrArg CoreView.chorusEnabled h
  | tremolo => exact congrArg CoreView.tremoloEnabled h
  | vibrato => exact congrArg CoreView.vibratoEnabled h
  | freqshift => exact congrArg CoreView.freqshiftEnabled h
  | pitchshift => exact congrArg CoreView.pitchshiftEnabled h
  | delay => exact congrArg CoreView.delayEnabled h
  | reverb => exact congrArg CoreView.reverbEnabled h
  | stereowidener => exact congrArg CoreView.stereowidenerEnabled h

lemma take_filter_length (shuffled : List EffectId) (k : ℕ)
    (hperm : shuffled.Perm DEFAULT_ORDER) (hk : k ≤ DEFAULT_ORDER.length) :
    (DEFAULT_ORDER.filter
      (fun id => (shuffled.take k).contains id)).length = k := by
  have hnd : shuffled.Nodup := hperm.nodup_iff.mpr (by decide)
  have h1 : (DEFAULT_ORDER.filter (fun id => (shuffled.take k).contains id)).length
      = (shuffled.filter (fun id => (shuffled.take k).contains id)).length :=
    ((hperm.filter _).length_eq).symm
  have hsplit : (shuffled.take k ++ shuffled.drop k).filter
        (fun id => (shuffled.take k).contains id)
      = shuffled.filter (fun id => (shuffled.take k).contains id) := by
    rw [List.take_append_drop]
  rw [h1, ← hsplit, List.filter_append]
  have hA : (shuffled.take k).filter (fun id => (shuffled.take k).contains id)
      = shuffled.take k :=
    List.filter_eq_self.mpr fun a ha => by
      simpa [List.elem_eq_mem] using ha
  have hB : (shuffled.drop k).filter (fun id => (shuffled.take k).contains id)
      = [] := by
    refine List.filter_eq_nil_iff.mpr fun a ha => ?_
    have hdisj := List.disjoint_take_drop hnd (le_refl k)
    simp only [List.elem_eq_mem, decide_eq_true_eq]
    exact fun hmem => hdisj hmem ha
  rw [hA, hB]
  simp only [List.append_nil, List.length_take]
  have : shuffled.length = DEFAULT_ORDER.length := hperm.length_eq
  omega

/-- Number of enabled units after `randomize`, for any reachable order. -/
lemma enabledCount_randomize (st : ChainState) (rs : RandomSource)
    (horder : st.order.Perm DEFAULT_ORDER) (hsh : rs.shuffled.Perm DEFAULT_ORDER)
    (hk : numEffects rs ≤ DEFAULT_ORDER.length) :
    enabledCount (randomize st rs) = numEffects rs := by
  unfold enabledCount getEnabledEffects
  rw [randomize_order]
  have hfc : st.order.filter (fun id => isEnabled (randomize st rs) id)
      = st.order.filter (fun id => (rs.shuffled.take (numEffects rs)).contains id) :=
    List.filter_congr fun id _ => randomize_isEnabled st rs id
  rw [hfc]
  have hlen : (st.order.filter
        (fun id => (rs.shuffled.take (numEffects rs)).contains id)).length
      = (DEFAULT_ORDER.filter
        (fun id => (rs.shuffled.take (numEffects rs)).contains id)).length :=
    (horder.filter _).length_eq
  rw [hlen]
  exact take_filter_length rs.shuffled (numEffects rs) hsh hk

/-- The outcome of `randomize` starting from `st`: between 3 and 5 units
enabled (exactly the selected prefix `sel` of the shuffle), every
assigned parameter inside its documented range, and the parameters the
source does not assign — the wet of units left disabled and the auto-wah
sensitivity — unchanged. -/
def RandomizeOutcome (st st' : ChainState) (sel : List EffectId) : Prop :=
  (3 ≤ enabledCount st' ∧ enabledCount st' ≤ 5)
  ∧ (∀ id, isEnabled st' id = sel.contains id)
  ∧ inRange st'.compressor.threshold RANDOM_RANGES.compressor.threshold
  ∧ inRange st'.compressor.ratio RANDOM_RANGES.compressor.ratio
  ∧ st'.compressor.attack = st.compressor.attack
  ∧ st'.compressor.release = st.compressor.release
  ∧ inRange st'.eq3.low RANDOM_RANGES.eq3.low
  ∧ inRange st'.eq3.mid RANDOM_RANGES.eq3.mid
  ∧ inRange st'.eq3.high RANDOM_RANGES.eq3.high
  ∧ inRange st'.bitcrusher.bits RANDOM_RANGES.bitcrusher.bits
  ∧ (sel.contains .bitcrusher = true → inRange st'.bitcrusher.wet RANDOM_RANGES.bitcrusher.wet)
  ∧ (sel.contains .bitcrusher = false → st'.bitcrusher.wet = st.bitcrusher.wet)
  ∧ inRange st'.distortion.amount RANDOM_RANGES.distortion.amount
  ∧ (sel.contains .distortion = true → inRange st'.distortion.wet RANDOM_RANGES.distortion.wet)
  ∧ (sel.contains .distortion = false → st'.distortion.wet = st.distortion.wet)
  ∧ inRange st'.autowah.baseFrequency RANDOM_RANGES.autowah.baseFrequency
  ∧ inRange st'.autowah.octaves RANDOM_RANGES.autowah.octaves
  ∧ st'.autowah.sensitivity = st.autowah.sensitivity
  ∧ (sel.contains .autowah = true → inRange st'.autowah.wet RANDOM_RANGES.autowah.wet)
  ∧ (sel.contains .autowah = false → st'.autowah.wet = st.autowah.wet)
  ∧ inRange st'.autofilter.frequency RANDOM_RANGES.autofilter.frequency
  ∧ inRange st'.autofilter.depth RANDOM_RANGES.autofilter.depth
  ∧ inRange st'.autofilter.octaves RANDOM_RANGES.autofilter.octaves
  ∧ (sel.contains .autofilter = true → inRange st'.autofilter.wet RANDOM_RANGES.autofilter.wet)
  ∧ (sel.contains .autofilter = false → st'.autofilter.wet = st.autofilter.wet)
  ∧ inRange st'.phaser.frequency RANDOM_RANGES.phaser.frequency
  ∧ inRange st'.phaser.octaves RANDOM_RANGES.phaser.octaves
  ∧ (sel.contains .phaser = true → inRange st'.phaser.wet RANDOM_RANGES.phaser.wet)
  ∧ (sel.contains .phaser = false → st'.phaser.wet = st.phaser.wet)
  ∧ inRange st'.chorus.frequency RANDOM_RANGES.chorus.frequency
  ∧ inRange st'.chorus.depth RANDOM_RANGES.chorus.depth
  ∧ (sel.contains .chorus = true → inRange st'.chorus.wet RANDOM_RANGES.chorus.wet)
  ∧ (sel.contains .chorus = false → st'.chorus.wet = st.chorus.wet)
  ∧ inRange st'.tremolo.frequency RANDOM_RANGES.tremolo.frequency
  ∧ inRange st'.tremolo.depth RANDOM_RANGES.tremolo.depth
  ∧ (sel.contains .tremolo = true → inRange st'.tremolo.wet RANDOM_RANGES.tremolo.wet)
  ∧ (sel.contains .tremolo = false → st'.tremolo.wet = st.tremolo.wet)
  ∧ inRange st'.vibrato.frequency RANDOM_RANGES.vibrato.frequency
  ∧ inRange st'.vibrato.depth RANDOM_RANGES.vibrato.depth
  ∧ (sel.contains .vibrato = true → inRange st'.vibrato.wet RANDOM_RANGES.vibrato.wet)
  ∧ (sel.contains .vibrato = false → st'.vibrato.wet = st.vibrato.wet)
  ∧ inRange st'.freqshift.frequency RANDOM_RANGES.freqshift.frequency
  ∧ (sel.contains .freqshift = true → inRange st'.freqshift.wet RANDOM_RANGES.freqshift.wet)
  ∧ (sel.contains .freqshift = false → st'.freqshift.wet = st.freqshift.wet)
  ∧ inRange st'.pitchshift.pitch RANDOM_RANGES.pitchshift.pitch
  ∧ (sel.contains .pitchshift = true → inRange st'.pitchshift.wet RANDOM_RANGES.pitchshift.wet)
  ∧ (sel.contains .pitchshift = false → st'.pitchshift.wet = st.pitchshift.wet)
  ∧ inRange st'.delay.time RANDOM_RANGES.delay.time
  ∧ inRange st'.delay.feedback RANDOM_RANGES.delay.feedback
  ∧ (sel.contains .delay = true → inRange st'.delay.wet RANDOM_RANGES.delay.wet)
  ∧ (sel.contains .delay = false → st'.delay.wet = st.delay.wet)
  ∧ inRange st'.reverb.decay RANDOM_RANGES.reverb.decay
  ∧ (sel.contains .reverb = true → inRange st'.reverb.wet RANDOM_RANGES.reverb.wet)
  ∧ (sel.contains .reverb = false → st'.reverb.wet = st.reverb.wet)
  ∧ inRange st'.stereowidener.width RANDOM_RANGES.stereowidener.width
  ∧ (sel.contains .stereowidener = true → inRange st'.stereowidener.wet RANDOM_RANGES.stereowidener.wet)
  ∧ (sel.contains .stereowidener = false → st'.stereowidener.wet = st.stereowidener.wet)

/-- C9 (amended): `randomize` enables between 3 and 5 units inclusive
(exactly the selected shuffle prefix, all others disabled); every
parameter it assigns is inside its documented [min, max] range; but the
wet of a unit left disabled and the auto-wah sensitivity are not
assigned and keep their previous values. -/
theorem C9_randomize_corrected (st : ChainState) (rs : RandomSource)
    (horder : st.order.Perm DEFAULT_ORDER)
    (hc0 : 0 ≤ rs.counts) (hc1 : rs.counts < 1)
    (hd : ∀ n, 0 ≤ rs.draws n ∧ rs.draws n < 1)
    (hsh : rs.shuffled.Perm DEFAULT_ORDER) :
    RandomizeOutcome st (randomize st rs)
      (rs.shuffled.take (numEffects rs)) := by
  have h := randomize_core st rs
  have hne := numEffects_bounds rs hc0 hc1
  have hcount := enabledCount_randomize st rs horder hsh (le_trans hne.2 (by decide))
  unfold RandomizeOutcome
  refine ⟨⟨?_, ?_⟩, randomize_isEnabled st rs, ?_, ?_, ?_, ?_, ?_, ?_, ?_, ?_, ?_, ?_, ?_, ?_, ?_, ?_, ?_, ?_, ?_, ?_, ?_, ?_, ?_, ?_, ?_, ?_, ?_, ?_, ?_, ?_, ?_, ?_, ?_, ?_, ?_, ?_, ?_, ?_, ?_, ?_, ?_, ?_, ?_, ?_, ?_, ?_, ?_, ?_, ?_, ?_, ?_, ?_, ?_, ?_, ?_, ?_, ?_⟩
  · rw [hcount]; exact hne.1
  · rw [hcount]; exact hne.2
  · have hp : (randomize st rs).compressor.threshold = drawIn rs 0 RANDOM_RANGES.compressor.threshold :=
      congrArg (fun c => c.compressor.threshold) h
    rw [hp]
    exact drawIn_mem rs 0 _ (hd 0).1 (hd 0).2 (by norm_num [RANDOM_RANGES.compressor.threshold])
  · have hp : (randomize st rs).compressor.ratio = drawIn rs 1 RANDOM_RANGES.compressor.ratio :=
      congrArg (fun c => c.compressor.ratio) h
    rw [hp]
    exact drawIn_mem rs 1 _ (hd 1).1 (hd 1).2 (by norm_num [RANDOM_RANGES.compressor.ratio])
  · exact congrArg (fun c => c.compressor.attack) h
  · exact congrArg (fun c => c.compressor.release) h
  · have hp : (randomize st rs).eq3.low = drawIn rs 2 RANDOM_RANGES.eq3.low :=
      congrArg (fun c => c.eq3.low) h
    rw [hp]
    exact drawIn_mem rs 2 _ (hd 2).1 (hd 2).2 (by norm_num [RANDOM_RANGES.eq3.low])
  · have hp : (randomize st rs).eq3.mid = drawIn rs 3 RANDOM_RANGES.eq3.mid :=
      congrArg (fun c => c.eq3.mid) h
    rw [hp]
    exact drawIn_mem rs 3 _ (hd 3).1 (hd 3).2 (by norm_num [RANDOM_RANGES.eq3.mid])
  · have hp : (randomize st rs).eq3.high = drawIn rs 4 RANDOM_RANGES.eq3.high :=
      congrArg (fun c => c.eq3.high) h
    rw [hp]
    exact drawIn_mem rs 4 _ (hd 4).1 (hd 4).2 (by norm_num [RANDOM_RANGES.eq3.high])
  · have hp : (randomize st rs).bitcrusher.bits = jsRound (drawIn rs 5 RANDOM_RANGES.bitcrusher.bits) :=
      congrArg (fun c => c.bitcrusher.bits) h
    rw [hp]
    have hin := drawIn_mem rs 5 RANDOM_RANGES.bitcrusher.bits (hd 5).1 (hd 5).2
      (by norm_num [RANDOM_RANGES.bitcrusher.bits])
    exact jsRound_mem _ _ 4 12 (by norm_num [RANDOM_RANGES.bitcrusher.bits])
      (by norm_num [RANDOM_RANGES.bitcrusher.bits]) hin.1 hin.2
  · intro hsel
    have hp : (randomize st rs).bitcrusher.wet =
        ite (((rs.shuffled.take (numEffects rs)).contains EffectId.bitcrusher) = true)
          (drawIn rs 6 RANDOM_RANGES.bitcrusher.wet) st.bitcrusher.wet :=
      congrArg (fun c => c.bitcrusher.wet) h
    rw [hp, if_pos hsel]
    exact drawIn_mem rs 6 _ (hd 6).1 (hd 6).2 (by norm_num [RANDOM_RANGES.bitcrusher.wet])
  · intro hsel
    have hp : (randomize st rs).bitcrusher.wet =
        ite (((rs.shuffled.take (numEffects rs)).contains EffectId.bitcrusher) = true)
          (drawIn rs 6 RANDOM_RANGES.bitcrusher.wet) st.bitcrusher.wet :=
      congrArg (fun c => c.bitcrusher.wet) h
    rw [hp, if_neg (by rw [hsel]; simp)]
  · have hp : (randomize st rs).distortion.amount = drawIn rs 7 RANDOM_RANGES.distortion.amount :=
      congrArg (fun c => c.distortion.amount) h
    rw [hp]
    exact drawIn_mem rs 7 _ (hd 7).1 (hd 7).2 (by norm_num [RANDOM_RANGES.distortion.amount])
  · intro hsel
    have hp : (randomize st rs).distortion.wet =
        ite (((rs.shuffled.take (numEffects rs)).contains EffectId.distortion) = true)
          (drawIn rs 8 RANDOM_RANGES.distortion.wet) st.distortion.wet :=
      congrArg (fun c => c.distortion.wet) h
    rw [hp, if_pos hsel]
    exact drawIn_mem rs 8 _ (hd 8).1 (hd 8).2 (by norm_num [RANDOM_RANGES.distortion.wet])
  · intro hsel
    have hp : (randomize st rs).distortion.wet =
        ite (((rs.shuffled.take (numEffects rs)).contains EffectId.distortion) = true)
          (drawIn rs 8 RANDOM_RANGES.distortion.wet) st.distortion.wet :=
      congrArg (fun c => c.distortion.wet) h
    rw [hp, if_neg (by rw [hsel]; simp)]
  · have hp : (randomize st rs).autowah.baseFrequency = drawIn rs 9 RANDOM_RANGES.autowah.baseFrequency :=
      congrArg (fun c => c.autowah.baseFrequency) h
    rw [hp]
    exact drawIn_mem rs 9 _ (hd 9).1 (hd 9).2 (by norm_num [RANDOM_RANGES.autowah.baseFrequency])
  · have hp : (randomize st rs).autowah.octaves = jsRound (drawIn rs 10 RANDOM_RANGES.autowah.octaves) :=
      congrArg (fun c => c.autowah.octaves) h
    rw [hp]
    have hin := drawIn_mem rs 10 RANDOM_RANGES.autowah.octaves (hd 10).1 (hd 10).2
      (by norm_num [RANDOM_RANGES.autowah.octaves])
    exact jsRound_mem _ _ 2 6 (by norm_num [RANDOM_RANGES.autowah.octaves])
      (by norm_num [RANDOM_RANGES.autowah.octaves]) hin.1 hin.2
  · exact congrArg (fun c => c.autowah.sensitivity) h
  · intro hsel
    have hp : (randomize st rs).autowah.wet =
        ite (((rs.shuffled.take (numEffects rs)).contains EffectId.autowah) = true)
          (drawIn rs 11 RANDOM_RANGES.autowah.wet) st.autowah.wet :=
      congrArg (fun c => c.autowah.wet) h
    rw [hp, if_pos hsel]
    exact drawIn_mem rs 11 _ (hd 11).1 (hd 11).2 (by norm_num [RANDOM_RANGES.autowah.wet])
  · intro hsel
    have hp : (randomize st rs).autowah.wet =
        ite (((rs.shuffled.take (numEffects rs)).contains EffectId.autowah) = true)
          (drawIn rs 11 RANDOM_RANGES.autowah.wet) st.autowah.wet :=
      congrArg (fun c => c.autowah.wet) h
    rw [hp, if_neg (by rw [hsel]; simp)]
  · have hp : (randomize st rs).autofilter.frequency = drawIn rs 12 RANDOM_RANGES.autofilter.frequency :=
      congrArg (fun c => c.autofilter.frequency) h
    rw [hp]
    exact drawIn_mem rs 12 _ (hd 12).1 (hd 12).2 (by norm_num [RANDOM_RANGES.autofilter.frequency])
  · have hp : (randomize st rs).autofilter.depth = drawIn rs 13 RANDOM_RANGES.autofilter.depth :=
      congrArg (fun c => c.autofilter.depth) h
    rw [hp]
    exact drawIn_mem rs 13 _ (hd 13).1 (hd 13).2 (by norm_num [RANDOM_RANGES.autofilter.depth])
  · have hp : (randomize st rs).autofilter.octaves = jsRound (drawIn rs 14 RANDOM_RANGES.autofilter.octaves) :=
      congrArg (fun c => c.autofilter.octaves) h
    rw [hp]
    have hin := drawIn_mem rs 14 RANDOM_RANGES.autofilter.octaves (hd 14).1 (hd 14).2
      (by norm_num [RANDOM_RANGES.autofilter.octaves])
    exact jsRound_mem _ _ 1 4 (by norm_num [RANDOM_RANGES.autofilter.octaves])
      (by norm_num [RANDOM_RANGES.autofilter.octaves]) hin.1 hin.2
  · intro hsel
    have hp : (randomize st rs).autofilter.wet =
        ite (((rs.shuffled.take (numEffects rs)).contains EffectId.autofilter) = true)
          (drawIn rs 15 RANDOM_RANGES.autofilter.wet) st.autofilter.wet :=
      congrArg (fun c => c.autofilter.wet) h
    rw [hp, if_pos hsel]
    exact drawIn_mem rs 15 _ (hd 15).1 (hd 15).2 (by norm_num [RANDOM_RANGES.autofilter.wet])
  · intro hsel
    have hp : (randomize st rs).autofilter.wet =
        ite (((rs.shuffled.take (numEffects rs)).contains EffectId.autofilter) = true)
          (drawIn rs 15 RANDOM_RANGES.autofilter.wet) st.autofilter.wet :=
      congrArg (fun c => c.autofilter.wet) h
    rw [hp, if_neg (by rw [hsel]; simp)]
  · have hp : (randomize st rs).phaser.frequency = drawIn rs 16 RANDOM_RANGES.phaser.frequency :=
      congrArg (fun c => c.phaser.frequency) h
    rw [hp]
    exact drawIn_mem rs 16 _ (hd 16).1 (hd 16).2 (by norm_num [RANDOM_RANGES.phaser.frequency])
  · have hp : (randomize st rs).phaser.octaves = jsRound (drawIn rs 17 RANDOM_RANGES.phaser.octaves) :=
      congrArg (fun c => c.phaser.octaves) h
    rw [hp]
    have hin := drawIn_mem rs 17 RANDOM_RANGES.phaser.octaves (hd 17).1 (hd 17).2
      (by norm_num [RANDOM_RANGES.phaser.octaves])
    exact jsRound_mem _ _ 1 3 (by norm_num [RANDOM_RANGES.phaser.octaves])
      (by norm_num [RANDOM_RANGES.phaser.octaves]) hin.1 hin.2
  · intro hsel
    have hp : (randomize st rs).phaser.wet =
        ite (((rs.shuffled.take (numEffects rs)).contains EffectId.phaser) = true)
          (drawIn rs 18 RANDOM_RANGES.phaser.wet) st.phaser.wet :=
      congrArg (fun c => c.phaser.wet) h
    rw [hp, if_pos hsel]
    exact drawIn_mem rs 18 _ (hd 18).1 (hd 18).2 (by norm_num [RANDOM_RANGES.phaser.wet])
  · intro hsel
    have hp : (randomize st rs).phaser.wet =
        ite (((rs.shuffled.take (numEffects rs)).contains EffectId.phaser) = true)
          (drawIn rs 18 RANDOM_RANGES.phaser.wet) st.phaser.wet :=
      congrArg (fun c => c.phaser.wet) h
    rw [hp, if_neg (by rw [hsel]; simp)]
  · have hp : (randomize st rs).chorus.frequency = drawIn rs 19 RANDOM_RANGES.chorus.frequency :=
      congrArg (fun c => c.chorus.frequency) h
    rw [hp]
    exact drawIn_mem rs 19 _ (hd 19).1 (hd 19).2 (by norm_num [RANDOM_RANGES.chorus.frequency])
  · have hp : (randomize st rs).chorus.depth = drawIn rs 20 RANDOM_RANGES.chorus.depth :=
      congrArg (fun c => c.chorus.depth) h
    rw [hp]
    exact drawIn_mem rs 20 _ (hd 20).1 (hd 20).2 (by norm_num [RANDOM_RANGES.chorus.depth])
  · intro hsel
    have hp : (randomize st rs).chorus.wet =
        ite (((rs.shuffled.take (numEffects rs)).contains EffectId.chorus) = true)
          (drawIn rs 21 RANDOM_RANGES.chorus.wet) st.chorus.wet :=
      congrArg (fun c => c.chorus.wet) h
    rw [hp, if_pos hsel]
    exact drawIn_mem rs 21 _ (hd 21).1 (hd 21).2 (by norm_num [RANDOM_RANGES.chorus.wet])
  · intro hsel
    have hp : (randomize st rs).chorus.wet =
        ite (((rs.shuffled.take (numEffects rs)).contains EffectId.chorus) = true)
          (drawIn rs 21 RANDOM_RANGES.chorus.wet) st.chorus.wet :=
      congrArg (fun c => c.chorus.wet) h
    rw [hp, if_neg (by rw [hsel]; simp)]
  · have hp : (randomize st rs).tremolo.frequency = drawIn rs 22 RANDOM_RANGES.tremolo.frequency :=
      congrArg (fun c => c.tremolo.frequency) h
    rw [hp]
    exact drawIn_mem rs 22 _ (hd 22).1 (hd 22).2 (by norm_num [RANDOM_RANGES.tremolo.frequency])
  · have hp : (randomize st rs).tremolo.depth = drawIn rs 23 RANDOM_RANGES.tremolo.depth :=
      congrArg (fun c => c.tremolo.depth) h
    rw [hp]
    exact drawIn_mem rs 23 _ (hd 23).1 (hd 23).2 (by norm_num [RANDOM_RANGES.tremolo.depth])
  · intro hsel
    have hp : (randomize st rs).tremolo.wet =
        ite (((rs.shuffled.take (numEffects rs)).contains EffectId.tremolo) = true)
          (drawIn rs 24 RANDOM_RANGES.tremolo.wet) st.tremolo.wet :=
      congrArg (fun c => c.tremolo.wet) h
    rw [hp, if_pos hsel]
    exact drawIn_mem rs 24 _ (hd 24).1 (hd 24).2 (by norm_num [RANDOM_RANGES.tremolo.wet])
  · intro hsel
    have hp : (randomize st rs).tremolo.wet =
        ite (((rs.shuffled.take (numEffects rs)).contains EffectId.tremolo) = true)
          (drawIn rs 24 RANDOM_RANGES.tremolo.wet) st.tremolo.wet :=
      congrArg (fun c => c.tremolo.wet) h
    rw [hp, if_neg (by rw [hsel]; simp)]
  · have hp : (randomize st rs).vibrato.frequency = drawIn rs 25 RANDOM_RANGES.vibrato.frequency :=
      congrArg (fun c => c.vibrato.frequency) h
    rw [hp]
    exact drawIn_mem rs 25 _ (hd 25).1 (hd 25).2 (by norm_num [RANDOM_RANGES.vibrato.frequency])
  · have hp : (randomize st rs).vibrato.depth = drawIn rs 26 RANDOM_RANGES.vibrato.depth :=
      congrArg (fun c => c.vibrato.depth) h
    rw [hp]
    exact drawIn_mem rs 26 _ (hd 26).1 (hd 26).2 (by norm_num [RANDOM_RANGES.vibrato.depth])
  · intro hsel
    have hp : (randomize st rs).vibrato.wet =
        ite (((rs.shuffled.take (numEffects rs)).contains EffectId.vibrato) = true)
          (drawIn rs 27 RANDOM_RANGES.vibrato.wet) st.vibrato.wet :=
      congrArg (fun c => c.vibrato.wet) h
    rw [hp, if_pos hsel]
    exact drawIn_mem rs 27 _ (hd 27).1 (hd 27).2 (by norm_num [RANDOM_RANGES.vibrato.wet])
  · intro hsel
    have hp : (randomize st rs).vibrato.wet =
        ite (((rs.shuffled.take (numEffects rs)).contains EffectId.vibrato) = true)
          (drawIn rs 27 RANDOM_RANGES.vibrato.wet) st.vibrato.wet :=
      congrArg (fun c => c.vibrato.wet) h
    rw [hp, if_neg (by rw [hsel]; simp)]
  · have hp : (randomize st rs).freqshift.frequency = drawIn rs 28 RANDOM_RANGES.freqshift.frequency :=
      congrArg (fun c => c.freqshift.frequency) h
    rw [hp]
    exact drawIn_mem rs 28 _ (hd 28).1 (hd 28).2 (by norm_num [RANDOM_RANGES.freqshift.frequency])
  · intro hsel
    have hp : (randomize st rs).freqshift.wet =
        ite (((rs.shuffled.take (numEffects rs)).contains EffectId.freqshift) = true)
          (drawIn rs 29 RANDOM_RANGES.freqshift.wet) st.freqshift.wet :=
      congrArg (fun c => c.freqshift.wet) h
    rw [hp, if_pos hsel]
    exact drawIn_mem rs 29 _ (hd 29).1 (hd 29).2 (by norm_num [RANDOM_RANGES.freqshift.wet])
  · intro hsel
    have hp : (randomize st rs).freqshift.wet =
        ite (((rs.shuffled.take (numEffects rs)).contains EffectId.freqshift) = true)
          (drawIn rs 29 RANDOM_RANGES.freqshift.wet) st.freqshift.wet :=
      congrArg (fun c => c.freqshift.wet) h
    rw [hp, if_neg (by rw [hsel]; simp)]
  · have hp : (randomize st rs).pitchshift.pitch = jsRound (drawIn rs 30 RANDOM_RANGES.pitchshift.pitch) :=
      congrArg (fun c => c.pitchshift.pitch) h
    rw [hp]
    have hin := drawIn_mem rs 30 RANDOM_RANGES.pitchshift.pitch (hd 30).1 (hd 30).2
      (by norm_num [RANDOM_RANGES.pitchshift.pitch])
    exact jsRound_mem _ _ (-12) 12 (by norm_num [RANDOM_RANGES.pitchshift.pitch])
      (by norm_num [RANDOM_RANGES.pitchshift.pitch]) hin.1 hin.2
  · intro hsel
    have hp : (randomize st rs).pitchshift.wet =
        ite (((rs.shuffled.take (numEffects rs)).contains EffectId.pitchshift) = true)
          (drawIn rs 31 RANDOM_RANGES.pitchshift.wet) st.pitchshift.wet :=
      congrArg (fun c => c.pitchshift.wet) h
    rw [hp, if_pos hsel]
    exact drawIn_mem rs 31 _ (hd 31).1 (hd 31).2 (by norm_num [RANDOM_RANGES.pitchshift.wet])
  · intro hsel
    have hp : (randomize st rs).pitchshift.wet =
        ite (((rs.shuffled.take (numEffects rs)).contains EffectId.pitchshift) = true)
          (drawIn rs 31 RANDOM_RANGES.pitchshift.wet) st.pitchshift.wet :=
      congrArg (fun c => c.pitchshift.wet) h
    rw [hp, if_neg (by rw [hsel]; simp)]
  · have hp : (randomize st rs).delay.time = drawIn rs 32 RANDOM_RANGES.delay.time :=
      congrArg (fun c => c.delay.time) h
    rw [hp]
    exact drawIn_mem rs 32 _ (hd 32).1 (hd 32).2 (by norm_num [RANDOM_RANGES.delay.time])
  · have hp : (randomize st rs).delay.feedback = drawIn rs 33 RANDOM_RANGES.delay.feedback :=
      congrArg (fun c => c.delay.feedback) h
    rw [hp]
    exact drawIn_mem rs 33 _ (hd 33).1 (hd 33).2 (by norm_num [RANDOM_RANGES.delay.feedback])
  · intro hsel
    have hp : (randomize st rs).delay.wet =
        ite (((rs.shuffled.take (numEffects rs)).contains EffectId.delay) = true)
          (drawIn rs 34 RANDOM_RANGES.delay.wet) st.delay.wet :=
      congrArg (fun c => c.delay.wet) h
    rw [hp, if_pos hsel]
    exact drawIn_mem rs 34 _ (hd 34).1 (hd 34).2 (by norm_num [RANDOM_RANGES.delay.wet])
  · intro hsel
    have hp : (randomize st rs).delay.wet =
        ite (((rs.shuffled.take (numEffects rs)).contains EffectId.delay) = true)
          (drawIn rs 34 RANDOM_RANGES.delay.wet) st.delay.wet :=
      congrArg (fun c => c.delay.wet) h
    rw [hp, if_neg (by rw [hsel]; simp)]
  · have hp : (randomize st rs).reverb.decay = drawIn rs 35 RANDOM_RANGES.reverb.decay :=
      congrArg (fun c => c.reverb.decay) h
    rw [hp]
    exact drawIn_mem rs 35 _ (hd 35).1 (hd 35).2 (by norm_num [RANDOM_RANGES.reverb.decay])
  · intro hsel
    have hp : (randomize st rs).reverb.wet =
        ite (((rs.shuffled.take (numEffects rs)).contains EffectId.reverb) = true)
          (drawIn rs 36 RANDOM_RANGES.reverb.wet) st.reverb.wet :=
      congrArg (fun c => c.reverb.wet) h
    rw [hp, if_pos hsel]
    exact drawIn_mem rs 36 _ (hd 36).1 (hd 36).2 (by norm_num [RANDOM_RANGES.reverb.wet])
  · intro hsel
    have hp : (randomize st rs).reverb.wet =
        ite (((rs.shuffled.take (numEffects rs)).contains EffectId.reverb) = true)
          (drawIn rs 36 RANDOM_RANGES.reverb.wet) st.reverb.wet :=
      congrArg (fun c => c.reverb.wet) h
    rw [hp, if_neg (by rw [hsel]; simp)]
  · have hp : (randomize st rs).stereowidener.width = drawIn rs 37 RANDOM_RANGES.stereowidener.width :=
      congrArg (fun c => c.stereowidener.width) h
    rw [hp]
    exact drawIn_mem rs 37 _ (hd 37).1 (hd 37).2 (by norm_num [RANDOM_RANGES.stereowidener.width])
  · intro hsel
    have hp : (randomize st rs).stereowidener.wet =
        ite (((rs.shuffled.take (numEffects rs)).contains EffectId.stereowidener) = true)
          (drawIn rs 38 RANDOM_RANGES.stereowidener.wet) st.stereowidener.wet :=
      congrArg (fun c => c.stereowidener.wet) h
    rw [hp, if_pos hsel]
    exact drawIn_mem rs 38 _ (hd 38).1 (hd 38).2 (by norm_num [RANDOM_RANGES.stereowidener.wet])
  · intro hsel
    have hp : (randomize st rs).stereowidener.wet =
        ite (((rs.shuffled.take (numEffects rs)).contains EffectId.stereowidener) = true)
          (drawIn rs 38 RANDOM_RANGES.stereowidener.wet) st.stereowidener.wet :=
      congrArg (fun c => c.stereowidener.wet) h
    rw [hp, if_neg (by rw [hsel]; simp)]

/-- C9 counterexample: from the freshly constructed chain, with the
zero random stream (count draw 0, identity shuffle, all parameter draws
0), `randomize` selects the first three units; reverb is left disabled
and its wet value stays `0`, outside the documented range `[0.1, 0.5]` —
so randomize does not set every randomized parameter of every unit into
its documented range. -/
theorem C9_counterexample :
    isEnabled (randomize (initChain none)
        ⟨0, DEFAULT_ORDER, fun _ => 0⟩) .reverb = false
    ∧ (randomize (initChain none) ⟨0, DEFAULT_ORDER, fun _ => 0⟩).reverb.wet = 0
    ∧ ¬ inRange ((randomize (initChain none)
        ⟨0, DEFAULT_ORDER, fun _ => 0⟩).reverb.wet) RANDOM_RANGES.reverb.wet := by
  have h := randomize_core (initChain none) ⟨0, DEFAULT_ORDER, fun _ => 0⟩
  have hnum : numEffects ⟨0, DEFAULT_ORDER, (fun _ => (0 : ℚ))⟩ = 3 := by
    unfold numEffects
    norm_num
    rfl
  have hflag : isEnabled (randomize (initChain none)
      ⟨0, DEFAULT_ORDER, fun _ => 0⟩) .reverb = false := by
    rw [randomize_isEnabled, hnum]
    decide
  have hwet : (randomize (initChain none)
      ⟨0, DEFAULT_ORDER, fun _ => 0⟩).reverb.wet = 0 := by
    have hw : (randomize (initChain none)
        ⟨0, DEFAULT_ORDER, fun _ => 0⟩).reverb.wet =
          ite (((DEFAULT_ORDER.take (numEffects
              ⟨0, DEFAULT_ORDER, fun _ => 0⟩)).contains EffectId.reverb) = true)
            (drawIn ⟨0, DEFAULT_ORDER, fun _ => 0⟩ 36 RANDOM_RANGES.reverb.wet)
            ((initChain none).reverb.wet) :=
      congrArg (fun c => c.reverb.wet) h
    rw [hw, hnum, if_neg (by decide)]
    rfl
  exact ⟨hflag, hwet, by rw [hwet]; norm_num [inRange, RANDOM_RANGES.reverb.wet]⟩

/-- Witness for C9 (amended) at the freshly constructed chain and the
zero random stream. -/
theorem C9_witness :
    ((initChain none).order.Perm DEFAULT_ORDER
      ∧ 0 ≤ (0 : ℚ) ∧ (0 : ℚ) < 1
      ∧ (∀ n : ℕ, 0 ≤ ((fun _ => (0 : ℚ)) n) ∧ ((fun _ => (0 : ℚ)) n) < 1)
      ∧ DEFAULT_ORDER.Perm DEFAULT_ORDER)
    ∧ RandomizeOutcome (initChain none)
        (randomize (initChain none) ⟨0, DEFAULT_ORDER, fun _ => 0⟩)
        (DEFAULT_ORDER.take (numEffects ⟨0, DEFAULT_ORDER, fun _ => 0⟩)) :=
  ⟨⟨List.Perm.refl _, le_refl 0, by norm_num, fun n => ⟨le_refl 0, by norm_num⟩,
    List.Perm.refl _⟩,
   C9_randomize_corrected (initChain none) ⟨0, DEFAULT_ORDER, fun _ => 0⟩
     (List.Perm.refl _) (le_refl 0) (by norm_num)
     (fun n => ⟨le_refl 0, by norm_num⟩) (List.Perm.refl _)⟩

/-- C3: the shipped `randomize` has no glucose-metrics path at all: it
takes no metrics argument, and the set of enabled units after a call is
exactly the selected prefix of the shuffle — a function of the random
source alone, identical from any two starting states.  No composite
chaos score is computed and no ADSR envelope is touched (the chain state
carries no envelope; the envelope lives in the synth engine, which
`randomize` never reaches). -/
theorem C3_randomize_ignores_metrics (st₁ st₂ : ChainState)
    (rs : RandomSource) (id : EffectId) :
    isEnabled (randomize st₁ rs) id =
      (rs.shuffled.take (numEffects rs)).contains id
    ∧ isEnabled (randomize st₁ rs) id = isEnabled (randomize st₂ rs) id :=
  ⟨randomize_isEnabled st₁ rs id, by
    rw [randomize_isEnabled, randomize_isEnabled]⟩

/-! ## Synth engine (`src/synthesis/synth-engine.ts`)

Three oscillator layers with fixed voice pools.  A `Tone.Synth` voice is
identified by its owning oscillator index and its position in that
oscillator's `synths` array; the `availableVoices` JS `Set` is modelled
as an insertion-ordered duplicate-free list (`values().next().value` is
its head, `add` appends if absent), and the `activeVoices` JS `Map` as an
insertion-ordered association list. -/

/-- Maximum polyphony per oscillator. -/
def MAX_VOICES : ℕ := 6

/-- Number of oscillator layers. -/
def NUM_OSCILLATORS : ℕ := 3

/-- ADSR envelope record (`src/types.ts`). -/
structure ADSREnvelope where
  attack : ℚ
  decay : ℚ
  sustain : ℚ
  release : ℚ
deriving DecidableEq

/-- Modelled from the spec: `DEFAULT_ENVELOPE` is declared in
`src/types.ts`, which is not among the shipped sources; the concrete
values play no role in any claim below. -/
def DEFAULT_ENVELOPE : ADSREnvelope := ⟨1/100, 1/10, 7/10, 1/2⟩

/-- A partial ADSR update (`Partial<ADSREnvelope>`). -/
structure PartialADSR where
  attack : Option ℚ := none
  decay : Option ℚ := none
  sustain : Option ℚ := none
  release : Option ℚ := none

/-- One `Tone.Synth` voice, identified by its owner and slot. -/
structure Voice where
  osc : ℕ
  idx : ℕ
deriving DecidableEq

/-- One oscillator layer. -/
structure OscillatorLayer where
  synths : List Voice
  availableVoices : List Voice
  wavetable : Option (List ℚ)
  partials : List ℝ
  dayLabel : String
  level : ℚ

/-- The observable state of a `GlucoseSynth`. -/
structure SynthState where
  oscillators : List OscillatorLayer
  activeVoices : List (String × List Voice)
  envelope : ADSREnvelope
  userVolume : ℚ
  masterVolumeDb : ℝ
  isInitialized : Bool

/-- The `synths` array built for oscillator `osc`. -/
def mkSynths (osc : ℕ) : List Voice :=
  (List.range MAX_VOICES).map fun i => ⟨osc, i⟩

/-- `initializeOscillators`: each layer starts with all voices available,
no wavetable, and level 1 for the first oscillator, 0.5 for the rest. -/
def initializeOscillators : List OscillatorLayer :=
  (List.range NUM_OSCILLATORS).map fun osc =>
    { synths := mkSynths osc
      availableVoices := mkSynths osc
      wavetable := none
      partials := []
      dayLabel := ""
      level := if osc = 0 then 1 else 1/2 }

/-- The `GlucoseSynth` constructor (master volume starts at −6 dB,
user volume at 0.7, audio not yet started). -/
def initSynth : SynthState :=
  { oscillators := initializeOscillators
    activeVoices := []
    envelope := DEFAULT_ENVELOPE
    userVolume := 7/10
    masterVolumeDb := -6
    isInitialized := false }

/-- `Map.has`. -/
def mapHas (m : List (String × List Voice)) (note : String) : Bool :=
  m.any fun e => e.1 == note

/-- `Map.get`. -/
def mapGet (m : List (String × List Voice)) (note : String) :
    Option (List Voice) :=
  (m.find? fun e => e.1 == note).map (·.2)

/-- `Map.delete`. -/
def mapDelete (m : List (String × List Voice)) (note : String) :
    List (String × List Voice) :=
  m.filter fun e => !(e.1 == note)

/-- `Set.add`: a no-op when the element is present, otherwise appended. -/
def setAdd (l : List Voice) (v : Voice) : List Voice :=
  if v ∈ l then l else l ++ [v]

/-- `getActiveOscillatorCount`: layers with a wavetable and level > 0. -/
def getActiveOscillatorCount (st : SynthState) : ℕ :=
  (st.oscillators.filter fun osc =>
    decide (osc.wavetable ≠ none ∧ 0 < osc.level)).length

/-- `updateGainCompensation`: master gain factor
`userVolume / sqrt(activeCount)` (or plain `userVolume` with no active
layer), converted to dB (`-60` for a zero factor) and clamped to
`[-60, 0]`. -/
noncomputable def updateGainCompensation (st : SynthState) : SynthState :=
  let activeCount := getActiveOscillatorCount st
  let compensatedVolume : ℝ :=
    if 0 < activeCount then (st.userVolume : ℝ) / Real.sqrt (activeCount : ℝ)
    else (st.userVolume : ℝ)
  let db : ℝ :=
    if 0 < compensatedVolume then 20 * Real.logb 10 compensatedVolume else -60
  { st with masterVolumeDb := max (-60) (min 0 db) }

/-- `setWavetable(oscillatorIndex, wavetable, dayLabel)`.  A negative or
out-of-range index is a no-op (indices here are naturals, so only the
upper bound is checked).  The partials computation can throw (non
power-of-two input): in that case the wavetable field was already
assigned and the remaining statements are skipped. -/
noncomputable def setWavetable (st : SynthState) (oscillatorIndex : ℕ)
    (wavetable : List ℚ) (dayLabel : String := "") : SynthState :=
  if NUM_OSCILLATORS ≤ oscillatorIndex then st
  else
    match st.oscillators.get? oscillatorIndex with
    | none => st
    | some osc =>
      match computePartialsFromWavetable (wavetable.map fun q => (q : ℝ)) 64 with
      | .ok ps =>
          updateGainCompensation
            { st with oscillators :=
                (st.oscillators.set oscillatorIndex
                  { osc with wavetable := some wavetable, partials := ps,
                             dayLabel := dayLabel }) }
      | .error _ =>
          { st with oscillators :=
              (st.oscillators.set oscillatorIndex
                { osc with wavetable := some wavetable }) }

/-- `clearWavetable(oscillatorIndex)`. -/
noncomputable def clearWavetable (st : SynthState) (oscillatorIndex : ℕ) :
    SynthState :=
  if NUM_OSCILLATORS ≤ oscillatorIndex then st
  else
    match st.oscillators.get? oscillatorIndex with
    | none => st
    | some osc =>
        updateGainCompensation
          { st with oscillators :=
              (st.oscillators.set oscillatorIndex
                { osc with wavetable := none, partials := [], dayLabel := "" }) }

/-- `setOscillatorLevel(oscillatorIndex, level)`: level clamped to
`[0, 1]` (the per-layer volume node is external). -/
noncomputable def setOscillatorLevel (st : SynthState) (oscillatorIndex : ℕ)
    (level : ℚ) : SynthState :=
  if NUM_OSCILLATORS ≤ oscillatorIndex then st
  else
    match st.oscillators.get? oscillatorIndex with
    | none => st
    | some osc =>
        updateGainCompensation
          { st with oscillators :=
              (st.oscillators.set oscillatorIndex
                { osc with level := max 0 (min 1 level) }) }

/-- `setVolume(volume)`: clamp to `[0, 1]` and recompensateating gain. -/
noncomputable def setVolume (st : SynthState) (volume : ℚ) : SynthState :=
  updateGainCompensation { st with userVolume := max 0 (min 1 volume) }

/-- `setEnvelope(envelope)`: merge the partial update into the shared
envelope (propagation to the voices is external). -/
def setEnvelope (st : SynthState) (p : PartialADSR) : SynthState :=
  { st with envelope :=
      { attack := p.attack.getD st.envelope.attack
        decay := p.decay.getD st.envelope.decay
        sustain := p.sustain.getD st.envelope.sustain
        release := p.release.getD st.envelope.release } }

/-- `start()`. -/
def start (st : SynthState) : SynthState := { st with isInitialized := true }

/-- The voice-allocation loop of `noteOn`: walk the oscillators, skip
layers with no wavetable or zero level, pop the first available voice of
the rest; returns the updated layers and the allocated voices in layer
order. -/
def noteOnLoop : List OscillatorLayer → List OscillatorLayer × List Voice
  | [] => ([], [])
  | osc :: rest =>
      if osc.wavetable = none ∨ osc.level = 0 then
        let r := noteOnLoop rest
        (osc :: r.1, r.2)
      else
        match osc.availableVoices with
        | [] =>
            let r := noteOnLoop rest
            (osc :: r.1, r.2)
        | v :: vs =>
            let r := noteOnLoop rest
            ({ osc with availableVoices := vs } :: r.1, v :: r.2)

/-- `noteOn(note, velocity)`: no-op before `start()` and for an
already-sounding note; otherwise allocate one voice per active layer and
record the allocated set under the note identifier (when non-empty). -/
def noteOn (st : SynthState) (note : String) (_velocity : ℚ) : SynthState :=
  if st.isInitialized = false then st
  else if mapHas st.activeVoices note then st
  else
    let r := noteOnLoop st.oscillators
    let st' := { st with oscillators := r.1 }
    if 0 < r.2.length then
      { st' with activeVoices := st'.activeVoices ++ [(note, r.2)] }
    else st'

/-- The owner search of `noteOff`: scan the oscillators for the first one
whose `synths` contains the voice, add the voice back to its available
set, and stop. -/
def returnVoice (oscs : List OscillatorLayer) (v : Voice) :
    List OscillatorLayer :=
  match oscs with
  | [] => []
  | osc :: rest =>
      if v ∈ osc.synths then
        { osc with availableVoices := setAdd osc.availableVoices v } :: rest
      else osc :: returnVoice rest v

/-- `noteOff(note)`: release exactly the voices recorded for the note,
returning each to its owning pool, and drop the map entry; unknown notes
are a no-op. -/
def noteOff (st : SynthState) (note : String) : SynthState :=
  match mapGet st.activeVoices note with
  | some voices =>
      { st with
        oscillators := voices.foldl returnVoice st.oscillators
        activeVoices := mapDelete st.activeVoices note }
  | none => st

/-- `allNotesOff()`: return every recorded voice and clear the map. -/
def allNotesOff (st : SynthState) : SynthState :=
  { st with
    oscillators :=
      ((st.activeVoices.map (·.2)).flatten).foldl returnVoice st.oscillators
    activeVoices := [] }

/-- The public mutating operations of `GlucoseSynth`. -/
inductive SynthOp
  | start
  | noteOn (note : String) (velocity : ℚ)
  | noteOff (note : String)
  | allNotesOff
  | setWavetable (i : ℕ) (wavetable : List ℚ) (dayLabel : String)
  | clearWavetable (i : ℕ)
  | setOscillatorLevel (i : ℕ) (level : ℚ)
  | setVolume (v : ℚ)
  | setEnvelope (p : PartialADSR)

/-- Dispatch one `SynthOp`. -/
noncomputable def applySynthOp (st : SynthState) : SynthOp → SynthState
  | .start => start st
  | .noteOn note velocity => noteOn st note velocity
  | .noteOff note => noteOff st note
  | .allNotesOff => allNotesOff st
  | .setWavetable i w l => setWavetable st i w l
  | .clearWavetable i => clearWavetable st i
  | .setOscillatorLevel i l => setOscillatorLevel st i l
  | .setVolume v => setVolume st v
  | .setEnvelope p => setEnvelope st p

/-! ### Claim C6 -/

/-- C6: whenever the number `N` of active layers (wavetable assigned and
level > 0) is positive, the gain factor is `userVolume / sqrt N`, and the
master volume is set to its dB value clamped into the documented
`[-60, 0]` floor/ceiling. -/
theorem C6_gain_compensation (st : SynthState) (N : ℕ)
    (hN : getActiveOscillatorCount st = N) (hpos : 0 < N) :
    (updateGainCompensation st).masterVolumeDb =
      max (-60) (min 0 (if 0 < (st.userVolume : ℝ) / Real.sqrt (N : ℝ)
        then 20 * Real.logb 10 ((st.userVolume : ℝ) / Real.sqrt (N : ℝ))
        else -60))
    ∧ -60 ≤ (updateGainCompensation st).masterVolumeDb
    ∧ (updateGainCompensation st).masterVolumeDb ≤ 0 := by
  have hmain : (updateGainCompensation st).masterVolumeDb =
      max (-60) (min 0 (if 0 < (st.userVolume : ℝ) / Real.sqrt (N : ℝ)
        then 20 * Real.logb 10 ((st.userVolume : ℝ) / Real.sqrt (N : ℝ))
        else -60)) := by
    simp only [updateGainCompensation, hN, hpos, if_true]
  refine ⟨hmain, ?_, ?_⟩
  · rw [hmain]; exact le_max_left _ _
  · rw [hmain]; exact max_le (by norm_num) (min_le_left _ _)

/-- Witness for C6: a synth whose first layer holds a wavetable at level
1, the other layers silent. -/
theorem C6_witness :
    (getActiveOscillatorCount
      { initSynth with oscillators :=
          [⟨mkSynths 0, mkSynths 0, some [1], [], "", 1⟩,
           ⟨mkSynths 1, mkSynths 1, none, [], "", 1/2⟩,
           ⟨mkSynths 2, mkSynths 2, none, [], "", 1/2⟩] } = 1
      ∧ 0 < 1)
    ∧ (updateGainCompensation
        { initSynth with oscillators :=
            [⟨mkSynths 0, mkSynths 0, some [1], [], "", 1⟩,
             ⟨mkSynths 1, mkSynths 1, none, [], "", 1/2⟩,
             ⟨mkSynths 2, mkSynths 2, none, [], "", 1/2⟩] }).masterVolumeDb =
      max (-60) (min 0 (if 0 < (((7 : ℚ)/10 : ℚ) : ℝ) / Real.sqrt ((1 : ℕ) : ℝ)
        then 20 * Real.logb 10 ((((7 : ℚ)/10 : ℚ) : ℝ) / Real.sqrt ((1 : ℕ) : ℝ))
        else -60)) := by
  have h1 : getActiveOscillatorCount
      { initSynth with oscillators :=
          [⟨mkSynths 0, mkSynths 0, some [1], [], "", 1⟩,
           ⟨mkSynths 1, mkSynths 1, none, [], "", 1/2⟩,
           ⟨mkSynths 2, mkSynths 2, none, [], "", 1/2⟩] } = 1 := by
    simp [getActiveOscillatorCount]
  exact ⟨⟨h1, Nat.one_pos⟩,
    (C6_gain_compensation _ 1 h1 Nat.one_pos).1⟩

/-! ### Voice-pool invariant (claims C4 and C5) -/

lemma mem_mkSynths (v : Voice) (k : ℕ) :
    v ∈ mkSynths k ↔ v.osc = k ∧ v.idx < MAX_VOICES := by
  cases v with
  | mk o i =>
    simp only [mkSynths, List.mem_map, List.mem_range, Voice.mk.injEq]
    constructor
    · rintro ⟨a, ha, hk, hi⟩
      exact ⟨hk.symm, hi ▸ ha⟩
    · rintro ⟨rfl, hi⟩
      exact ⟨i, hi, rfl, rfl⟩

lemma mkSynths_nodup (k : ℕ) : (mkSynths k).Nodup :=
  (List.nodup_range MAX_VOICES).map fun _ _ h => (Voice.mk.injEq _ _ _ _ ▸ h).2

/-- All voices currently recorded in the active-note map. -/
def recordedAll (st : SynthState) : List Voice :=
  (st.activeVoices.map (·.2)).flatten

/-- Well-formedness of a synth state: three layers whose `synths` arrays
are the construction-time pools, duplicate-free available sets drawn from
the own pool, duplicate-free recorded voices that are valid, absent from
their pool's available set, and recorded under duplicate-free note keys. -/
def INV (st : SynthState) : Prop :=
  st.oscillators.length = NUM_OSCILLATORS
  ∧ (∀ k osc, st.oscillators.get? k = some osc →
      osc.synths = mkSynths k
      ∧ osc.availableVoices.Nodup
      ∧ ∀ v ∈ osc.availableVoices, v ∈ mkSynths k)
  ∧ (recordedAll st).Nodup
  ∧ (∀ v ∈ recordedAll st, v.osc < NUM_OSCILLATORS ∧ v.idx < MAX_VOICES
      ∧ ∀ osc, st.oscillators.get? v.osc = some osc →
          v ∉ osc.availableVoices)
  ∧ (st.activeVoices.map (·.1)).Nodup

/-- How the allocation loop transforms one layer. -/
def allocStep (osc : OscillatorLayer) : OscillatorLayer :=
  if osc.wavetable = none ∨ osc.level = 0 then osc
  else match osc.availableVoices with
       | [] => osc
       | _ :: vs => { osc with availableVoices := vs }

lemma allocStep_synths (osc : OscillatorLayer) :
    (allocStep osc).synths = osc.synths := by
  unfold allocStep
  split
  · rfl
  · split <;> rfl

lemma allocStep_avail_sub (osc : OscillatorLayer) (v : Voice)
    (hv : v ∈ (allocStep osc).availableVoices) : v ∈ osc.availableVoices := by
  unfold allocStep at hv
  split at hv
  · exact hv
  · split at hv
    · exact hv
    · rename_i heq
      rw [heq]
      exact List.mem_cons_of_mem _ hv

lemma allocStep_nodup (osc : OscillatorLayer)
    (h : osc.availableVoices.Nodup) : (allocStep osc).availableVoices.Nodup := by
  unfold allocStep
  split
  · exact h
  · split
    · exact h
    · rename_i heq
      rw [heq] at h
      exact h.of_cons

/-- The layers after the allocation loop, elementwise. -/
lemma noteOnLoop_get? (L : List OscillatorLayer) (k : ℕ) :
    (noteOnLoop L).1.get? k = (L.get? k).map allocStep := by
  unfold allocStep
  induction L generalizing k with
  | nil => simp [noteOnLoop]
  | cons osc rest ih =>
    cases k with
    | zero =>
      by_cases h : osc.wavetable = none ∨ osc.level = 0
      · simp [noteOnLoop, h]
      · cases hav : osc.availableVoices with
        | nil => simp [noteOnLoop, h, hav]
        | cons v vs => simp [noteOnLoop, h, hav]
    | succ k =>
      by_cases h : osc.wavetable = none ∨ osc.level = 0
      · simpa [noteOnLoop, h] using ih k
      · cases hav : osc.availableVoices with
        | nil => simpa [noteOnLoop, h, hav] using ih k
        | cons v vs => simpa [noteOnLoop, h, hav] using ih k

/-- The voices collected by the allocation loop: the head of each active
layer's available set. -/
lemma noteOnLoop_voices (L : List OscillatorLayer) :
    (noteOnLoop L).2 = L.filterMap fun osc =>
      if osc.wavetable = none ∨ osc.level = 0 then none
      else osc.availableVoices.head? := by
  induction L with
  | nil => simp [noteOnLoop]
  | cons osc rest ih =>
    by_cases h : osc.wavetable = none ∨ osc.level = 0
    · simp [noteOnLoop, h, ih]
    · cases hav : osc.availableVoices with
      | nil => simp [noteOnLoop, h, hav, ih]
      | cons v vs => simp [noteOnLoop, h, hav, ih]

/-- The loop preserves the number of layers. -/
lemma noteOnLoop_length (L : List OscillatorLayer) :
    (noteOnLoop L).1.length = L.length := by
  induction L with
  | nil => rfl
  | cons osc rest ih =>
    by_cases h : osc.wavetable = none ∨ osc.level = 0
    · simp [noteOnLoop, h, ih]
    · cases hav : osc.availableVoices with
      | nil => simp [noteOnLoop, h, hav, ih]
      | cons v vs => simp [noteOnLoop, h, hav, ih]

/-- Provenance of a collected voice: it is the available head of some
active layer. -/
lemma noteOnLoop_voices_mem (L : List OscillatorLayer) (v : Voice)
    (hv : v ∈ (noteOnLoop L).2) :
    ∃ k osc, L.get? k = some osc
      ∧ ¬(osc.wavetable = none ∨ osc.level = 0)
      ∧ osc.availableVoices.head? = some v := by
  rw [noteOnLoop_voices] at hv
  obtain ⟨osc, hosc, hf⟩ := List.mem_filterMap.mp hv
  obtain ⟨k, hk⟩ := List.mem_iff_get?.mp hosc
  by_cases h : osc.wavetable = none ∨ osc.level = 0
  · rw [if_pos h] at hf; cases hf
  · rw [if_neg h] at hf
    exact ⟨k, osc, hk, h, hf⟩

/-- With layer-tagged available voices, the collected voices are distinct
and tagged at or above the base index. -/
lemma noteOnLoop_voices_nodup_aux (L : List OscillatorLayer) (base : ℕ)
    (h : ∀ k osc, L.get? k = some osc →
      ∀ v ∈ osc.availableVoices, v.osc = base + k) :
    (noteOnLoop L).2.Nodup ∧ ∀ v ∈ (noteOnLoop L).2, base ≤ v.osc := by
  induction L generalizing base with
  | nil => simp [noteOnLoop]
  | cons osc rest ih =>
    have hrest : ∀ k o, rest.get? k = some o →
        ∀ v ∈ o.availableVoices, v.osc = (base + 1) + k := by
      intro k o hk v hvo
      have := h (k + 1) o (by simpa using hk) v hvo
      omega
    obtain ⟨ihnd, ihge⟩ := ih (base + 1) hrest
    by_cases hact : osc.wavetable = none ∨ osc.level = 0
    · constructor
      · simpa [noteOnLoop, hact] using ihnd
      · intro v hv
        have : v ∈ (noteOnLoop rest).2 := by
          simpa [noteOnLoop, hact] using hv
        exact le_trans (Nat.le_succ base) (ihge v this)
    · cases hav : osc.availableVoices with
      | nil =>
        constructor
        · simpa [noteOnLoop, hact, hav] using ihnd
        · intro v hv
          have : v ∈ (noteOnLoop rest).2 := by
            simpa [noteOnLoop, hact, hav] using hv
          exact le_trans (Nat.le_succ base) (ihge v this)
      | cons w ws =>
        have hw : w.osc = base := by
          have := h 0 osc rfl w (by rw [hav]; exact List.mem_cons_self w ws)
          simpa using this
        constructor
        · have hwnot : w ∉ (noteOnLoop rest).2 := fun hmem => by
            have := ihge w hmem
            omega
          simpa [noteOnLoop, hact, hav] using List.Nodup.cons hwnot ihnd
        · intro v hv
          rw [show (noteOnLoop (osc :: rest)).2 = w :: (noteOnLoop rest).2 by
            simp [noteOnLoop, hact, hav]] at hv
          rcases List.mem_cons.mp hv with rfl | hmem
          · omega
          · exact le_trans (Nat.le_succ base) (ihge v hmem)

/-- `noteOn` never records a voice twice in one call. -/
lemma noteOnLoop_voices_nodup (L : List OscillatorLayer)
    (h : ∀ k osc, L.get? k = some osc →
      ∀ v ∈ osc.availableVoices, v.osc = k) :
    (noteOnLoop L).2.Nodup :=
  (noteOnLoop_voices_nodup_aux L 0 (by simpa using h)).1

lemma get?_lt_of_some {α : Type} (l : List α) (k : ℕ) (a : α)
    (h : l.get? k = some a) : k < l.length := by
  by_contra hk
  rw [List.get?_eq_none.mpr (le_of_not_lt hk)] at h
  cases h

lemma INV_noteOn (st : SynthState) (note : String) (vel : ℚ)
    (hwf : INV st) : INV (noteOn st note vel) := by
  by_cases h1 : st.isInitialized = false
  · have heq : noteOn st note vel = st := by simp [noteOn, h1]
    rw [heq]; exact hwf
  by_cases h2 : mapHas st.activeVoices note
  · have heq : noteOn st note vel = st := by simp [noteOn, h1, h2]
    rw [heq]; exact hwf
  obtain ⟨hlen, hlayers, hnd, hrec, hkeys⟩ := hwf
  -- facts about the allocation loop
  have havail_tag : ∀ k osc, st.oscillators.get? k = some osc →
      ∀ v ∈ osc.availableVoices, v.osc = k := fun k osc hk v hv =>
    ((mem_mkSynths v k).mp ((hlayers k osc hk).2.2 v hv)).1
  have hr2nd : (noteOnLoop st.oscillators).2.Nodup :=
    noteOnLoop_voices_nodup _ havail_tag
  have hr2src : ∀ v ∈ (noteOnLoop st.oscillators).2, ∃ osc,
      st.oscillators.get? v.osc = some osc ∧ v ∈ osc.availableVoices ∧
      osc.availableVoices.head? = some v := by
    intro v hv
    obtain ⟨k, osc, hk, _, hhead⟩ := noteOnLoop_voices_mem _ v hv
    have hmem : v ∈ osc.availableVoices := List.mem_of_mem_head? hhead
    have : v.osc = k := havail_tag k osc hk v hmem
    exact this ▸ ⟨osc, hk, hmem, hhead⟩
  have hr2valid : ∀ v ∈ (noteOnLoop st.oscillators).2,
      v.osc < NUM_OSCILLATORS ∧ v.idx < MAX_VOICES := by
    intro v hv
    obtain ⟨osc, hk, hmem, _⟩ := hr2src v hv
    have hmk := (hlayers _ osc hk).2.2 v hmem
    have := (mem_mkSynths v v.osc).mp (by rwa [(havail_tag _ osc hk v hmem)] at hmk ⊢)
    exact ⟨hlen ▸ get?_lt_of_some _ _ _ hk, this.2⟩
  have hdisj : ∀ v ∈ recordedAll st, v ∉ (noteOnLoop st.oscillators).2 := by
    intro v hv hvr
    obtain ⟨osc, hk, hmem, _⟩ := hr2src v hvr
    exact (hrec v hv).2.2 osc hk hmem
  -- the transformed layers satisfy the per-layer facts
  have hlayers' : ∀ k osc', (noteOnLoop st.oscillators).1.get? k = some osc' →
      osc'.synths = mkSynths k ∧ osc'.availableVoices.Nodup ∧
      ∀ v ∈ osc'.availableVoices, v ∈ mkSynths k := by
    intro k osc' hk
    rw [noteOnLoop_get?] at hk
    cases hko : st.oscillators.get? k with
    | none => rw [hko] at hk; cases hk
    | some osc =>
      rw [hko] at hk
      obtain ⟨hsyn, hand, hsub⟩ := hlayers k osc hko
      have hosc' : osc' = allocStep osc := (Option.some.inj hk).symm
      subst hosc'
      exact ⟨(allocStep_synths osc).trans hsyn, allocStep_nodup osc hand,
        fun v hv => hsub v (allocStep_avail_sub osc v hv)⟩
  -- a recorded voice stays outside the (shrunken) available sets
  have hnotavail' : ∀ v, v ∈ recordedAll st ∨ v ∈ (noteOnLoop st.oscillators).2 →
      ∀ osc', (noteOnLoop st.oscillators).1.get? v.osc = some osc' →
        v ∉ osc'.availableVoices := by
    rintro v hv osc' hk hmem
    rw [noteOnLoop_get?] at hk
    cases hko : st.oscillators.get? v.osc with
    | none => rw [hko] at hk; cases hk
    | some osc =>
      rw [hko] at hk
      have hosc' : osc' = allocStep osc := (Option.some.inj hk).symm
      subst hosc'
      rcases hv with hv | hv
      · exact (hrec v hv).2.2 osc hko (allocStep_avail_sub osc v hmem)
      · -- the freshly allocated voice is the popped head, absent from the tail
        obtain ⟨osc0, hk0, hmem0, hhead0⟩ := hr2src v hv
        rw [hko] at hk0
        have hosc0 : osc = osc0 := Option.some.inj hk0
        subst hosc0
        have hand := (hlayers _ osc hko).2.1
        unfold allocStep at hmem
        split at hmem
        · rename_i hact
          -- inactive layer: but the head was collected from an active one?
          -- v came from this very layer's available set, so v.osc points here;
          -- the collected head came from an active layer, contradiction is not
          -- needed: v ∈ availableVoices unchanged, but v is that set's head
          -- only if the layer was active.  Use the head fact directly.
          obtain ⟨kk, oscA, hkA, hactA, hheadA⟩ := noteOnLoop_voices_mem _ v hv
          have : v.osc = kk := havail_tag kk oscA hkA v (List.mem_of_mem_head? hheadA)
          rw [this] at hko
          rw [hkA] at hko
          have : oscA = osc := Option.some.inj hko
          subst this
          exact hactA hact
        · split at hmem
          · rename_i hav
            rw [hav] at hhead0
            cases hhead0
          · rename_i w vs hav
            rw [hav] at hhead0 hand
            have hv_eq : w = v := by simpa using hhead0
            rw [← hv_eq] at hmem
            exact (List.nodup_cons.mp hand).1 hmem
  have hfresh : ∀ e ∈ st.activeVoices, e.1 ≠ note := by
    intro e he heq
    apply h2
    simp only [mapHas, List.any_eq_true]
    exact ⟨e, he, by simp [heq]⟩
  by_cases h3 : 0 < (noteOnLoop st.oscillators).2.length
  · have heq : noteOn st note vel =
        { st with oscillators := (noteOnLoop st.oscillators).1,
                  activeVoices :=
                    st.activeVoices ++ [(note, (noteOnLoop st.oscillators).2)] } := by
      simp [noteOn, h1, h2, h3]
    rw [heq]
    have hrall : recordedAll
        { st with oscillators := (noteOnLoop st.oscillators).1,
                  activeVoices :=
                    st.activeVoices ++ [(note, (noteOnLoop st.oscillators).2)] }
        = recordedAll st ++ (noteOnLoop st.oscillators).2 := by
      simp [recordedAll]
    refine ⟨?_, hlayers', ?_, ?_, ?_⟩
    · show (noteOnLoop st.oscillators).1.length = NUM_OSCILLATORS
      rw [noteOnLoop_length]; exact hlen
    · rw [hrall]
      exact hnd.append hr2nd hdisj
    · intro v hv
      rw [hrall] at hv
      rcases List.mem_append.mp hv with hv | hv
      · exact ⟨(hrec v hv).1, (hrec v hv).2.1,
          fun osc' hk => hnotavail' v (Or.inl hv) osc' hk⟩
      · exact ⟨(hr2valid v hv).1, (hr2valid v hv).2,
          fun osc' hk => hnotavail' v (Or.inr hv) osc' hk⟩
    · show ((st.activeVoices ++ [(note, (noteOnLoop st.oscillators).2)]).map (·.1)).Nodup
      rw [List.map_append]
      refine hkeys.append (List.nodup_singleton note) ?_
      intro a ha ha'
      obtain ⟨e, he, he1⟩ := List.mem_map.mp ha
      have ha2 : a = note := by simpa using ha'
      exact hfresh e he (he1.trans ha2)
  · have heq : noteOn st note vel =
        { st with oscillators := (noteOnLoop st.oscillators).1 } := by
      simp [noteOn, h1, h2, h3]
    rw [heq]
    have hrall : recordedAll
        { st with oscillators := (noteOnLoop st.oscillators).1 }
        = recordedAll st := by
      simp [recordedAll]
    refine ⟨?_, hlayers', ?_, ?_, hkeys⟩
    · show (noteOnLoop st.oscillators).1.length = NUM_OSCILLATORS
      rw [noteOnLoop_length]; exact hlen
    · rw [hrall]; exact hnd
    · intro v hv
      rw [hrall] at hv
      exact ⟨(hrec v hv).1, (hrec v hv).2.1,
        fun osc' hk => hnotavail' v (Or.inl hv) osc' hk⟩

lemma mem_setAdd (l : List Voice) (v x : Voice) :
    x ∈ setAdd l v ↔ x ∈ l ∨ x = v := by
  unfold setAdd
  split
  · rename_i hv
    constructor
    · exact Or.inl
    · rintro (h | rfl)
      · exact h
      · exact hv
  · simp

lemma setAdd_of_not_mem (l : List Voice) (v : Voice) (h : v ∉ l) :
    setAdd l v = l ++ [v] := by
  unfold setAdd
  rw [if_neg h]

lemma returnVoice_length (oscs : List OscillatorLayer) (v : Voice) :
    (returnVoice oscs v).length = oscs.length := by
  induction oscs with
  | nil => rfl
  | cons osc rest ih =>
    unfold returnVoice
    split
    · simp
    · simpa using ih

lemma returnVoice_get?_aux (oscs : List OscillatorLayer) (base : ℕ) (v : Voice)
    (hsyn : ∀ j osc, oscs.get? j = some osc → osc.synths = mkSynths (base + j))
    (hidx : v.idx < MAX_VOICES) :
    ∀ k, (returnVoice oscs v).get? k = (oscs.get? k).map fun osc =>
      if base + k = v.osc then
        { osc with availableVoices := setAdd osc.availableVoices v }
      else osc := by
  induction oscs generalizing base with
  | nil => intro k; simp [returnVoice]
  | cons osc rest ih =>
    intro k
    have hsyn0 : osc.synths = mkSynths base := by simpa using hsyn 0 osc rfl
    have hsynr : ∀ j o, rest.get? j = some o → o.synths = mkSynths ((base + 1) + j) := by
      intro j o hj
      have := hsyn (j + 1) o (by simpa using hj)
      rwa [show base + (j + 1) = (base + 1) + j by omega] at this
    by_cases hv : v ∈ osc.synths
    · have hvo : v.osc = base := ((mem_mkSynths v base).mp (hsyn0 ▸ hv)).1
      cases k with
      | zero => simp [returnVoice, hv, hvo]
      | succ k =>
        have hne : ¬ base + (k + 1) = v.osc := by omega
        simp only [returnVoice, if_pos hv, List.get?_cons_succ, hne, if_neg]
        cases h : rest.get? k with
        | none => simp
        | some o => simp [hne]
    · have hvo : ¬ base = v.osc := by
        intro he
        exact hv (hsyn0 ▸ (mem_mkSynths v base).mpr ⟨he.symm, hidx⟩)
      cases k with
      | zero =>
        simp only [returnVoice, if_neg hv, List.get?_cons_zero, Option.map_some']
        rw [if_neg (by simpa using hvo)]
      | succ k =>
        have := ih (base + 1) hsynr k
        simp only [returnVoice, if_neg hv, List.get?_cons_succ]
        rw [this, show (base + 1) + k = base + (k + 1) by omega]

lemma returnVoices_length (vs : List Voice) (oscs : List OscillatorLayer) :
    (vs.foldl returnVoice oscs).length = oscs.length := by
  induction vs generalizing oscs with
  | nil => rfl
  | cons v vs ih =>
    rw [List.foldl_cons, ih, returnVoice_length]

lemma returnVoices_get? (vs : List Voice) (oscs : List OscillatorLayer)
    (hsyn : ∀ j osc, oscs.get? j = some osc → osc.synths = mkSynths j)
    (hval : ∀ v ∈ vs, v.idx < MAX_VOICES ∧
        ∀ osc, oscs.get? v.osc = some osc → v ∉ osc.availableVoices)
    (hnd : vs.Nodup) :
    ∀ k, (vs.foldl returnVoice oscs).get? k = (oscs.get? k).map fun osc =>
      { osc with availableVoices :=
          osc.availableVoices ++ vs.filter fun v => decide (v.osc = k) } := by
  induction vs generalizing oscs with
  | nil =>
    intro k
    cases h : oscs.get? k with
    | none => rw [List.foldl_nil, h]; rfl
    | some osc => rw [List.foldl_nil, h]; simp
  | cons v vs ih =>
    intro k
    rw [List.foldl_cons]
    have hidx : v.idx < MAX_VOICES := (hval v (List.mem_cons_self v vs)).1
    have hR := returnVoice_get?_aux oscs 0 v (by simpa using hsyn) hidx
    have hsyn' : ∀ j osc, (returnVoice oscs v).get? j = some osc →
        osc.synths = mkSynths j := by
      intro j osc' hj
      rw [hR j] at hj
      cases hjo : oscs.get? j with
      | none => rw [hjo] at hj; cases hj
      | some osc =>
        rw [hjo] at hj
        simp only [Option.map_some'] at hj
        have h2 := (Option.some.inj hj).symm
        subst h2
        by_cases hc : j = v.osc <;> simp [hc, hsyn j osc hjo]
    have hval' : ∀ w ∈ vs, w.idx < MAX_VOICES ∧
        ∀ osc, (returnVoice oscs v).get? w.osc = some osc →
          w ∉ osc.availableVoices := by
      intro w hw
      refine ⟨(hval w (List.mem_cons_of_mem v hw)).1, ?_⟩
      intro osc' hj hmem
      rw [hR w.osc] at hj
      cases hjo : oscs.get? w.osc with
      | none => rw [hjo] at hj; cases hj
      | some osc =>
        rw [hjo] at hj
        simp only [Option.map_some'] at hj
        have h2 := (Option.some.inj hj).symm
        subst h2
        have hwold := (hval w (List.mem_cons_of_mem v hw)).2 osc hjo
        by_cases hc : 0 + w.osc = v.osc
        · rw [if_pos hc] at hmem
          rcases (mem_setAdd _ _ _).mp hmem with hmem | rfl
          · exact hwold hmem
          · exact (List.nodup_cons.mp hnd).1 hw
        · rw [if_neg hc] at hmem
          exact hwold hmem
    have := ih (returnVoice oscs v) hsyn' hval' (List.nodup_cons.mp hnd).2 k
    rw [this, hR k]
    cases hko : oscs.get? k with
    | none => simp
    | some osc =>
      simp only [Option.map_map, Option.map_some']
      by_cases hc : 0 + k = v.osc
      · have hk_eq : v.osc = k := by omega
        have hvnot : v ∉ osc.availableVoices :=
          (hval v (List.mem_cons_self v vs)).2 osc (by rw [hk_eq]; exact hko)
        rw [if_pos hc, setAdd_of_not_mem _ _ hvnot]
        simp [List.filter_cons, hk_eq, List.append_assoc]
      · have hk_ne : ¬ v.osc = k := by omega
        rw [if_neg hc]
        simp [List.filter_cons, hk_ne]

/-- A successful `Map.get` locates an entry, splitting the insertion
order around it. -/
lemma mapGet_some_entry (m : List (String × List Voice)) (note : String)
    (vs : List Voice) (h : mapGet m note = some vs) :
    ∃ m1 m2, m = m1 ++ (note, vs) :: m2 := by
  unfold mapGet at h
  cases hf : m.find? (fun e => e.1 == note) with
  | none => rw [hf] at h; cases h
  | some e =>
    rw [hf] at h
    simp only [Option.map_some'] at h
    have he2 : e.2 = vs := Option.some.inj h
    have hemem : e ∈ m := List.mem_of_find?_eq_some hf
    have hekey : e.1 = note := by simpa using List.find?_some hf
    obtain ⟨m1, m2, rfl⟩ := List.append_of_mem hemem
    exact ⟨m1, m2, by rw [← hekey, ← he2]⟩

/-- With duplicate-free keys, the other entries' keys differ from a
located entry's key. -/
lemma keys_split (m1 m2 : List (String × List Voice)) (note : String)
    (vs : List Voice)
    (hkeys : ((m1 ++ (note, vs) :: m2).map (·.1)).Nodup) :
    (∀ e ∈ m1, e.1 ≠ note) ∧ (∀ e ∈ m2, e.1 ≠ note) := by
  rw [List.map_append, List.map_cons] at hkeys
  obtain ⟨_, h2, hd⟩ := List.nodup_append.mp hkeys
  constructor
  · intro e he heq
    exact hd (List.mem_map_of_mem _ he)
      (by rw [heq]; exact List.mem_cons_self _ _)
  · intro e he heq
    exact (List.nodup_cons.mp h2).1 (List.mem_map.mpr ⟨e, he, heq⟩)

/-- `Map.delete` removes exactly the located entry. -/
lemma mapDelete_split (m1 m2 : List (String × List Voice)) (note : String)
    (vs : List Voice)
    (hkeys : ((m1 ++ (note, vs) :: m2).map (·.1)).Nodup) :
    mapDelete (m1 ++ (note, vs) :: m2) note = m1 ++ m2 := by
  obtain ⟨h1, h2⟩ := keys_split m1 m2 note vs hkeys
  unfold mapDelete
  rw [List.filter_append, List.filter_cons]
  have e1 : m1.filter (fun e => !(e.1 == note)) = m1 :=
    List.filter_eq_self.mpr fun e he => by simpa using h1 e he
  have e2 : m2.filter (fun e => !(e.1 == note)) = m2 :=
    List.filter_eq_self.mpr fun e he => by simpa using h2 e he
  rw [e1, e2, if_neg (by simp)]

/-- Returning a duplicate-free batch of recorded voices preserves the
invariant, for any new map whose recorded voices are the remainder. -/
lemma INV_return (st : SynthState) (vs : List Voice)
    (m' : List (String × List Voice)) (F1 F2 : List Voice)
    (hwf : INV st)
    (hdec : recordedAll st = F1 ++ (vs ++ F2))
    (hm' : (m'.map (·.2)).flatten = F1 ++ F2)
    (hkeys' : (m'.map (·.1)).Sublist (st.activeVoices.map (·.1))) :
    INV { st with oscillators := vs.foldl returnVoice st.oscillators,
                  activeVoices := m' } := by
  obtain ⟨hlen, hlayers, hnd, hrec, hkeys⟩ := hwf
  rw [hdec] at hnd
  obtain ⟨hF1, h23, hd1⟩ := List.nodup_append.mp hnd
  obtain ⟨hvs, hF2, hd2⟩ := List.nodup_append.mp h23
  have hmemvs : ∀ v ∈ vs, v ∈ recordedAll st := by
    intro v hv; rw [hdec]
    exact List.mem_append_right _ (List.mem_append_left _ hv)
  have hval : ∀ v ∈ vs, v.idx < MAX_VOICES ∧
      ∀ osc, st.oscillators.get? v.osc = some osc →
        v ∉ osc.availableVoices :=
    fun v hv => ⟨(hrec v (hmemvs v hv)).2.1, (hrec v (hmemvs v hv)).2.2⟩
  have hG := returnVoices_get? vs st.oscillators
    (fun j osc hj => (hlayers j osc hj).1) hval hvs
  have hrall : recordedAll { st with
      oscillators := vs.foldl returnVoice st.oscillators,
      activeVoices := m' } = F1 ++ F2 := by
    simpa [recordedAll] using hm'
  refine ⟨?_, ?_, ?_, ?_, ?_⟩
  · show (vs.foldl returnVoice st.oscillators).length = NUM_OSCILLATORS
    rw [returnVoices_length]; exact hlen
  · intro k osc' hk
    rw [show ({ st with
        oscillators := vs.foldl returnVoice st.oscillators,
        activeVoices := m' } : SynthState).oscillators
      = vs.foldl returnVoice st.oscillators from rfl, hG k] at hk
    cases hko : st.oscillators.get? k with
    | none => rw [hko] at hk; cases hk
    | some osc =>
      rw [hko] at hk
      simp only [Option.map_some'] at hk
      have h2 := (Option.some.inj hk).symm
      subst h2
      obtain ⟨hsyn, hand, hsub⟩ := hlayers k osc hko
      refine ⟨hsyn, ?_, ?_⟩
      · refine List.Nodup.append hand (hvs.filter _) ?_
        intro x hx hxf
        obtain ⟨hxvs, hxe⟩ := List.mem_filter.mp hxf
        have hxk : x.osc = k := of_decide_eq_true hxe
        exact (hval x hxvs).2 osc (by rw [hxk]; exact hko) hx
      · intro x hx
        rcases List.mem_append.mp hx with hx | hx
        · exact hsub x hx
        · obtain ⟨hxvs, hxe⟩ := List.mem_filter.mp hx
          have hxk : x.osc = k := of_decide_eq_true hxe
          exact (mem_mkSynths x k).mpr
            ⟨hxk, (hrec x (hmemvs x hxvs)).2.1⟩
  · rw [hrall]
    exact List.nodup_append.mpr ⟨hF1, hF2, fun a ha haf =>
      hd1 ha (List.mem_append_right _ haf)⟩
  · intro v hv
    rw [hrall] at hv
    have hvold : v ∈ recordedAll st := by
      rw [hdec]
      rcases List.mem_append.mp hv with hvm | hvm
      · exact List.mem_append_left _ hvm
      · exact List.mem_append_right _ (List.mem_append_right _ hvm)
    refine ⟨(hrec v hvold).1, (hrec v hvold).2.1, ?_⟩
    intro osc' hk hmem
    rw [show ({ st with
        oscillators := vs.foldl returnVoice st.oscillators,
        activeVoices := m' } : SynthState).oscillators
      = vs.foldl returnVoice st.oscillators from rfl, hG v.osc] at hk
    cases hko : st.oscillators.get? v.osc with
    | none => rw [hko] at hk; cases hk
    | some osc =>
      rw [hko] at hk
      simp only [Option.map_some'] at hk
      have h2 := (Option.some.inj hk).symm
      subst h2
      rcases List.mem_append.mp hmem with hmem | hmem
      · exact (hrec v hvold).2.2 osc hko hmem
      · obtain ⟨hvvs, _⟩ := List.mem_filter.mp hmem
        rcases List.mem_append.mp hv with hvF | hvF
        · exact hd1 hvF (List.mem_append_left _ hvvs)
        · exact hd2 hvvs hvF
  · show (m'.map (·.1)).Nodup
    exact hkeys'.nodup hkeys

lemma INV_noteOff (st : SynthState) (note : String) (hwf : INV st) :
    INV (noteOff st note) := by
  cases hget : mapGet st.activeVoices note with
  | none =>
    have heq : noteOff st note = st := by unfold noteOff; rw [hget]
    rw [heq]; exact hwf
  | some vs =>
    obtain ⟨m1, m2, hm⟩ := mapGet_some_entry _ _ _ hget
    have hkeysm : ((m1 ++ (note, vs) :: m2).map (·.1)).Nodup := by
      rw [← hm]; exact hwf.2.2.2.2
    have hdel : mapDelete st.activeVoices note = m1 ++ m2 := by
      rw [hm]; exact mapDelete_split m1 m2 note vs hkeysm
    have heq : noteOff st note = { st with
        oscillators := vs.foldl returnVoice st.oscillators,
        activeVoices := m1 ++ m2 } := by
      unfold noteOff; rw [hget, hdel]
    rw [heq]
    refine INV_return st vs (m1 ++ m2)
      ((m1.map (·.2)).flatten) ((m2.map (·.2)).flatten) hwf ?_ (by simp) ?_
    · simp [recordedAll, hm]
    · rw [hm]
      simp only [List.map_append, List.map_cons]
      exact (List.sublist_cons_self _ _).append_left _

lemma INV_allNotesOff (st : SynthState) (hwf : INV st) :
    INV (allNotesOff st) := by
  have heq : allNotesOff st = { st with
      oscillators := (recordedAll st).foldl returnVoice st.oscillators,
      activeVoices := [] } := rfl
  rw [heq]
  exact INV_return st (recordedAll st) [] [] [] hwf (by simp) rfl
    (List.nil_sublist _)

/-- Gain compensation touches only the master volume, so the pool
invariant passes through unchanged. -/
lemma INV_gain (st : SynthState) (hwf : INV st) :
    INV (updateGainCompensation st) := hwf

/-- Replacing one layer by a layer with the same `synths` and
`availableVoices` preserves the invariant. -/
lemma INV_set_layer (st : SynthState) (i : ℕ) (osc osc' : OscillatorLayer)
    (hwf : INV st) (hi : st.oscillators.get? i = some osc)
    (hsy : osc'.synths = osc.synths)
    (hav : osc'.availableVoices = osc.availableVoices) :
    INV { st with oscillators := st.oscillators.set i osc' } := by
  obtain ⟨hlen, hlayers, hnd, hrec, hkeys⟩ := hwf
  have hget : ∀ k, (st.oscillators.set i osc').get? k =
      if k = i then some osc' else st.oscillators.get? k := by
    intro k
    by_cases hk : k = i
    · subst hk
      rw [if_pos rfl]
      exact List.get?_set_eq_of_lt _ (get?_lt_of_some _ _ _ hi)
    · rw [if_neg hk]
      exact List.get?_set_ne _ _ fun h => hk h.symm
  refine ⟨by simpa using hlen, ?_, hnd, ?_, hkeys⟩
  · intro k o hk
    have hk' : (st.oscillators.set i osc').get? k = some o := hk
    rw [hget k] at hk'
    by_cases hkk : k = i
    · rw [if_pos hkk] at hk'
      have ho : o = osc' := (Option.some.inj hk').symm
      subst ho; subst hkk
      obtain ⟨h1, h2, h3⟩ := hlayers k osc hi
      exact ⟨hsy.trans h1, hav ▸ h2, fun v hv => h3 v (hav ▸ hv)⟩
    · rw [if_neg hkk] at hk'
      exact hlayers k o hk'
  · intro v hv
    refine ⟨(hrec v hv).1, (hrec v hv).2.1, ?_⟩
    intro o hk hmem
    have hk' : (st.oscillators.set i osc').get? v.osc = some o := hk
    rw [hget v.osc] at hk'
    by_cases hkk : v.osc = i
    · rw [if_pos hkk] at hk'
      have ho : o = osc' := (Option.some.inj hk').symm
      subst ho
      rw [hav] at hmem
      exact (hrec v hv).2.2 osc (hkk ▸ hi) hmem
    · rw [if_neg hkk] at hk'
      exact (hrec v hv).2.2 o hk' hmem

lemma INV_setWavetable (st : SynthState) (i : ℕ) (w : List ℚ) (l : String)
    (hwf : INV st) : INV (setWavetable st i w l) := by
  unfold setWavetable
  split
  · exact hwf
  · split
    · exact hwf
    · rename_i osc hko
      split
      · exact INV_gain _ (INV_set_layer st i osc _ hwf hko rfl rfl)
      · exact INV_set_layer st i osc _ hwf hko rfl rfl

lemma INV_clearWavetable (st : SynthState) (i : ℕ) (hwf : INV st) :
    INV (clearWavetable st i) := by
  unfold clearWavetable
  split
  · exact hwf
  · split
    · exact hwf
    · rename_i osc hko
      exact INV_gain _ (INV_set_layer st i osc _ hwf hko rfl rfl)

lemma INV_setOscillatorLevel (st : SynthState) (i : ℕ) (l : ℚ)
    (hwf : INV st) : INV (setOscillatorLevel st i l) := by
  unfold setOscillatorLevel
  split
  · exact hwf
  · split
    · exact hwf
    · rename_i osc hko
      exact INV_gain _ (INV_set_layer st i osc _ hwf hko rfl rfl)

lemma INV_setVolume (st : SynthState) (v : ℚ) (hwf : INV st) :
    INV (setVolume st v) :=
  INV_gain _ hwf

/-- The constructed synth satisfies the pool invariant. -/
lemma INV_initSynth : INV initSynth := by
  refine ⟨by simp [initSynth, initializeOscillators], ?_,
    List.nodup_nil, ?_, List.nodup_nil⟩
  · intro k osc hk
    have hk' : initializeOscillators.get? k = some osc := hk
    unfold initializeOscillators at hk'
    rw [List.get?_map] at hk'
    cases hr : (List.range NUM_OSCILLATORS).get? k with
    | none => rw [hr] at hk'; cases hk'
    | some j =>
      have hlt : k < NUM_OSCILLATORS := by
        have := get?_lt_of_some _ _ _ hr
        simpa using this
      rw [List.get?_range hlt] at hr
      have hjk : j = k := (Option.some.inj hr).symm
      subst hjk
      rw [List.get?_range hlt] at hk'
      simp only [Option.map_some'] at hk'
      have ho := (Option.some.inj hk').symm
      subst ho
      exact ⟨rfl, mkSynths_nodup j, fun v hv => hv⟩
  · intro v hv
    exact absurd hv (List.not_mem_nil v)

/-- Every public operation preserves the pool invariant. -/
lemma INV_apply (st : SynthState) (op : SynthOp) (hwf : INV st) :
    INV (applySynthOp st op) := by
  cases op with
  | start => exact hwf
  | noteOn n v => exact INV_noteOn st n v hwf
  | noteOff n => exact INV_noteOff st n hwf
  | allNotesOff => exact INV_allNotesOff st hwf
  | setWavetable i w l => exact INV_setWavetable st i w l hwf
  | clearWavetable i => exact INV_clearWavetable st i hwf
  | setOscillatorLevel i l => exact INV_setOscillatorLevel st i l hwf
  | setVolume v => exact INV_setVolume st v hwf
  | setEnvelope p => exact hwf

/-- Any reachable state satisfies the pool invariant. -/
lemma INV_foldl (ops : List SynthOp) :
    ∀ st, INV st → INV (ops.foldl applySynthOp st) := by
  induction ops with
  | nil => intro st h; exact h
  | cons op rest ih => intro st h; exact ih _ (INV_apply st op h)

lemma INV_run (ops : List SynthOp) :
    INV (ops.foldl applySynthOp initSynth) :=
  INV_foldl ops initSynth INV_initSynth

/-- The voices of layer `i` currently allocated (recorded in the
active-note map). -/
def allocatedVoices (st : SynthState) (i : ℕ) : List Voice :=
  (recordedAll st).filter fun v => decide (v.osc = i)

/-- Appending a fresh note's entry makes it the one `Map.get` finds. -/
lemma mapGet_append_fresh (m : List (String × List Voice)) (note : String)
    (l : List Voice) (h : mapHas m note = false) :
    mapGet (m ++ [(note, l)]) note = some l := by
  induction m with
  | nil => simp [mapGet]
  | cons e rest ih =>
    simp only [mapHas, List.any_cons, Bool.or_eq_false_iff] at h
    have := ih h.2
    simp only [mapGet, List.cons_append, List.find?_cons, h.1] at this ⊢
    exact this

/-- C4: (a) after any operation sequence from the constructor, at most
`MAX_VOICES` voices of any one layer are concurrently allocated; (b) in
any well-formed state where active layer `i` has an exhausted pool while
active layer `j` still has available voices, `noteOn` leaves layer `i`
exactly as it was and records no voice of layer `i` — the note is dropped
on that layer only — while a voice of layer `j` is allocated and
recorded. -/
theorem C4_voice_bound :
    (∀ ops : List SynthOp, ∀ i : ℕ,
      (allocatedVoices (ops.foldl applySynthOp initSynth) i).length
        ≤ MAX_VOICES)
    ∧ (∀ st : SynthState, ∀ i j : ℕ, ∀ osci oscj : OscillatorLayer,
        ∀ note : String, ∀ vel : ℚ,
        INV st → st.isInitialized = true →
        mapHas st.activeVoices note = false →
        st.oscillators.get? i = some osci →
        ¬(osci.wavetable = none ∨ osci.level = 0) →
        osci.availableVoices = [] →
        st.oscillators.get? j = some oscj →
        ¬(oscj.wavetable = none ∨ oscj.level = 0) →
        oscj.availableVoices ≠ [] →
        (noteOn st note vel).oscillators.get? i = some osci
        ∧ ∃ vs, mapGet (noteOn st note vel).activeVoices note = some vs
            ∧ (∀ v ∈ vs, v.osc ≠ i) ∧ ∃ v ∈ vs, v.osc = j) := by
  constructor
  · intro ops i
    obtain ⟨_, _, hnd, hrec, _⟩ := INV_run ops
    have hndf : (allocatedVoices (ops.foldl applySynthOp initSynth) i).Nodup :=
      hnd.filter _
    have hsub : allocatedVoices (ops.foldl applySynthOp initSynth) i
        ⊆ mkSynths i := by
      intro v hv
      obtain ⟨hvr, hvi⟩ := List.mem_filter.mp hv
      exact (mem_mkSynths v i).mpr
        ⟨of_decide_eq_true hvi, (hrec v hvr).2.1⟩
    have := (List.subperm_of_subset hndf hsub).length_le
    simpa [mkSynths] using this
  · intro st i j osci oscj note vel hwf hinit hhas hki hacti havi hkj hactj havj
    obtain ⟨hlen, hlayers, hnd, hrec, hkeys⟩ := hwf
    have havail_tag : ∀ k osc, st.oscillators.get? k = some osc →
        ∀ v ∈ osc.availableVoices, v.osc = k := fun k osc hk v hv =>
      ((mem_mkSynths v k).mp ((hlayers k osc hk).2.2 v hv)).1
    obtain ⟨w, ws, hav⟩ : ∃ w ws, oscj.availableVoices = w :: ws := by
      cases hc : oscj.availableVoices with
      | nil => exact absurd hc havj
      | cons w ws => exact ⟨w, ws, rfl⟩
    have hwr : w ∈ (noteOnLoop st.oscillators).2 := by
      rw [noteOnLoop_voices]
      refine List.mem_filterMap.mpr ⟨oscj, List.mem_iff_get?.mpr ⟨j, hkj⟩, ?_⟩
      rw [if_neg hactj, hav]; rfl
    have hwj : w.osc = j := havail_tag j oscj hkj w
      (by rw [hav]; exact List.mem_cons_self _ _)
    have h3 : 0 < (noteOnLoop st.oscillators).2.length :=
      List.length_pos.mpr fun hnil => List.not_mem_nil w (hnil ▸ hwr)
    have h1' : ¬ st.isInitialized = false := by simp [hinit]
    have heq : noteOn st note vel = { st with
        oscillators := (noteOnLoop st.oscillators).1,
        activeVoices :=
          st.activeVoices ++ [(note, (noteOnLoop st.oscillators).2)] } := by
      simp [noteOn, h1', hhas, h3]
    constructor
    · rw [heq]
      show (noteOnLoop st.oscillators).1.get? i = some osci
      rw [noteOnLoop_get?, hki]
      simp only [Option.map_some']
      congr 1
      unfold allocStep
      rw [if_neg hacti, havi]
    · refine ⟨(noteOnLoop st.oscillators).2, ?_, ?_, ⟨w, hwr, hwj⟩⟩
      · rw [heq]
        exact mapGet_append_fresh _ _ _ hhas
      · intro v hv hvi
        obtain ⟨k, osc, hk, _, hhead⟩ := noteOnLoop_voices_mem _ v hv
        have hvk : v.osc = k :=
          havail_tag k osc hk v (List.mem_of_mem_head? hhead)
        rw [hvi] at hvk
        rw [← hvk, hki] at hk
        have hosc : osci = osc := Option.some.inj hk
        rw [← hosc, havi] at hhead
        cases hhead

/-- A well-formed reachable-shape state with layer 0 active but
exhausted (all six of its voices recorded under one note) and layer 1
active with a full pool. -/
def C4st : SynthState :=
  { oscillators :=
      [⟨mkSynths 0, [], some [1], [], "", 1⟩,
       ⟨mkSynths 1, mkSynths 1, some [1], [], "", 1⟩,
       ⟨mkSynths 2, mkSynths 2, none, [], "", 1/2⟩]
    activeVoices := [("X", mkSynths 0)]
    envelope := DEFAULT_ENVELOPE
    userVolume := 7/10
    masterVolumeDb := -6
    isInitialized := true }

lemma C4st_INV : INV C4st := by
  refine ⟨rfl, ?_, ?_, ?_, ?_⟩
  · intro k osc hk
    rcases k with _ | _ | _ | k
    · have ho : osc = ⟨mkSynths 0, [], some [1], [], "", 1⟩ :=
        (Option.some.inj hk).symm
      subst ho
      exact ⟨rfl, List.nodup_nil, fun v hv => absurd hv (List.not_mem_nil v)⟩
    · have ho : osc = ⟨mkSynths 1, mkSynths 1, some [1], [], "", 1⟩ :=
        (Option.some.inj hk).symm
      subst ho
      exact ⟨rfl, mkSynths_nodup 1, fun v hv => hv⟩
    · have ho : osc = ⟨mkSynths 2, mkSynths 2, none, [], "", 1/2⟩ :=
        (Option.some.inj hk).symm
      subst ho
      exact ⟨rfl, mkSynths_nodup 2, fun v hv => hv⟩
    · exact Option.noConfusion hk
  · have : recordedAll C4st = mkSynths 0 := by simp [recordedAll, C4st]
    rw [this]
    exact mkSynths_nodup 0
  · intro v hv
    have hv0 : v ∈ mkSynths 0 := by simpa [recordedAll, C4st] using hv
    obtain ⟨h1, h2⟩ := (mem_mkSynths v 0).mp hv0
    refine ⟨by rw [h1]; decide, h2, ?_⟩
    intro osc hk hmem
    rw [h1] at hk
    have ho : osc = ⟨mkSynths 0, [], some [1], [], "", 1⟩ :=
      (Option.some.inj hk).symm
    subst ho
    exact List.not_mem_nil v hmem
  · simp [C4st]

/-- Witness for C4: from `C4st`, `noteOn` of a fresh note leaves the
exhausted layer 0 untouched and records only voices of other layers,
including one of layer 1. -/
theorem C4_witness :
    INV C4st
    ∧ ((noteOn C4st "Y" 1).oscillators.get? 0
        = some ⟨mkSynths 0, [], some [1], [], "", 1⟩
      ∧ ∃ vs, mapGet (noteOn C4st "Y" 1).activeVoices "Y" = some vs
          ∧ (∀ v ∈ vs, v.osc ≠ 0) ∧ ∃ v ∈ vs, v.osc = 1) :=
  ⟨C4st_INV,
    C4_voice_bound.2 C4st 0 1 ⟨mkSynths 0, [], some [1], [], "", 1⟩
      ⟨mkSynths 1, mkSynths 1, some [1], [], "", 1⟩ "Y" 1 C4st_INV rfl
      (by decide) rfl (by simp) rfl rfl (by simp) (by decide)⟩

/-- The wavetable-changing operations of the claim. -/
def isWavetableOp : SynthOp → Prop
  | .setWavetable _ _ _ => True
  | .clearWavetable _ => True
  | _ => False

/-- Wavetable changes neither touch the active-note map nor any layer's
`synths` or `availableVoices`. -/
lemma wtOp_preserves (st : SynthState) (op : SynthOp)
    (h : isWavetableOp op) :
    (applySynthOp st op).activeVoices = st.activeVoices
    ∧ ∀ k, ((applySynthOp st op).oscillators.get? k).map
        (fun o => (o.synths, o.availableVoices))
      = (st.oscillators.get? k).map
          (fun o => (o.synths, o.availableVoices)) := by
  have hset : ∀ (i : ℕ) (osc osc' : OscillatorLayer),
      st.oscillators.get? i = some osc →
      osc'.synths = osc.synths →
      osc'.availableVoices = osc.availableVoices →
      ∀ k, ((st.oscillators.set i osc').get? k).map
          (fun o => (o.synths, o.availableVoices))
        = (st.oscillators.get? k).map
            (fun o => (o.synths, o.availableVoices)) := by
    intro i osc osc' hko hsy hav k
    by_cases hk : k = i
    · subst hk
      rw [List.get?_set_eq_of_lt _ (get?_lt_of_some _ _ _ hko), hko]
      simp [hsy, hav]
    · rw [List.get?_set_ne _ _ fun hh => hk hh.symm]
  cases op with
  | setWavetable i w l =>
    simp only [applySynthOp]
    unfold setWavetable
    split
    · exact ⟨rfl, fun k => rfl⟩
    · split
      · exact ⟨rfl, fun k => rfl⟩
      · rename_i osc hko
        split
        · exact ⟨rfl, hset i osc _ hko rfl rfl⟩
        · exact ⟨rfl, hset i osc _ hko rfl rfl⟩
  | clearWavetable i =>
    simp only [applySynthOp]
    unfold clearWavetable
    split
    · exact ⟨rfl, fun k => rfl⟩
    · split
      · exact ⟨rfl, fun k => rfl⟩
      · rename_i osc hko
        exact ⟨rfl, hset i osc _ hko rfl rfl⟩
  | start => exact h.elim
  | noteOn n v => exact h.elim
  | noteOff n => exact h.elim
  | allNotesOff => exact h.elim
  | setOscillatorLevel i l => exact h.elim
  | setVolume v => exact h.elim
  | setEnvelope p => exact h.elim

/-- A whole sequence of wavetable operations is transparent to the
active-note map and the voice pools. -/
lemma wtOps_preserve (mid : List SynthOp) :
    ∀ st : SynthState, (∀ op ∈ mid, isWavetableOp op) →
      (mid.foldl applySynthOp st).activeVoices = st.activeVoices
      ∧ ∀ k, ((mid.foldl applySynthOp st).oscillators.get? k).map
          (fun o => (o.synths, o.availableVoices))
        = (st.oscillators.get? k).map
            (fun o => (o.synths, o.availableVoices)) := by
  induction mid with
  | nil => intro st _; exact ⟨rfl, fun k => rfl⟩
  | cons op rest ih =>
    intro st h
    obtain ⟨h1, h2⟩ := wtOp_preserves st op (h op (List.mem_cons_self _ _))
    obtain ⟨ih1, ih2⟩ :=
      ih (applySynthOp st op) fun o ho => h o (List.mem_cons_of_mem _ ho)
    exact ⟨ih1.trans h1, fun k => (ih2 k).trans (h2 k)⟩

/-- C5: from a well-formed state, an unknown note is a no-op for
`noteOff`; and whatever `setWavetable`/`clearWavetable` calls happen in
between, `noteOff` drops exactly the note's map entry and returns
exactly the recorded voices to their owning layers' pools. -/
theorem C5_noteOff_releases (st : SynthState) (note : String)
    (hwf : INV st) :
    (mapGet st.activeVoices note = none → noteOff st note = st)
    ∧ ∀ vs, mapGet st.activeVoices note = some vs →
        ∀ mid : List SynthOp, (∀ op ∈ mid, isWavetableOp op) →
          mapGet (mid.foldl applySynthOp st).activeVoices note = some vs
          ∧ (noteOff (mid.foldl applySynthOp st) note).activeVoices
              = mapDelete st.activeVoices note
          ∧ ∀ k osc, st.oscillators.get? k = some osc →
              ((noteOff (mid.foldl applySynthOp st) note).oscillators.get? k).map
                  (·.availableVoices)
                = some (osc.availableVoices
                    ++ vs.filter fun v => decide (v.osc = k)) := by
  constructor
  · intro h
    unfold noteOff
    rw [h]
  · intro vs hget mid hmid
    have hwfm : INV (mid.foldl applySynthOp st) := INV_foldl mid st hwf
    obtain ⟨hA, hO⟩ := wtOps_preserve mid st hmid
    have hgetm : mapGet (mid.foldl applySynthOp st).activeVoices note
        = some vs := by rw [hA]; exact hget
    refine ⟨hgetm, ?_, ?_⟩
    · simp only [noteOff, hgetm]
      rw [hA]
    · intro k osc hk
      obtain ⟨hlenm, hlayersm, hndm, hrecm, hkeysm⟩ := hwfm
      obtain ⟨m1, m2, hm⟩ := mapGet_some_entry _ _ _ hgetm
      have hdec : recordedAll (mid.foldl applySynthOp st)
          = (m1.map (·.2)).flatten ++ (vs ++ (m2.map (·.2)).flatten) := by
        simp [recordedAll, hm]
      have hvnd : vs.Nodup := by
        rw [hdec] at hndm
        exact (List.nodup_append.mp (List.nodup_append.mp hndm).2.1).1
      have hmem : ∀ v ∈ vs, v ∈ recordedAll (mid.foldl applySynthOp st) := by
        intro v hv
        rw [hdec]
        exact List.mem_append_right _ (List.mem_append_left _ hv)
      have hval : ∀ v ∈ vs, v.idx < MAX_VOICES ∧
          ∀ o, (mid.foldl applySynthOp st).oscillators.get? v.osc = some o →
            v ∉ o.availableVoices :=
        fun v hv => ⟨(hrecm v (hmem v hv)).2.1, (hrecm v (hmem v hv)).2.2⟩
      have hG := returnVoices_get? vs (mid.foldl applySynthOp st).oscillators
        (fun j o hj => (hlayersm j o hj).1) hval hvnd
      have hosc : (noteOff (mid.foldl applySynthOp st) note).oscillators
          = vs.foldl returnVoice (mid.foldl applySynthOp st).oscillators := by
        simp only [noteOff, hgetm]
      rw [hosc, hG k]
      have hOk := hO k
      rw [hk] at hOk
      cases hkm : (mid.foldl applySynthOp st).oscillators.get? k with
      | none => rw [hkm] at hOk; cases hOk
      | some oscm =>
        rw [hkm] at hOk
        simp only [Option.map_some'] at hOk ⊢
        have hpair := Option.some.inj hOk
        rw [show oscm.availableVoices = osc.availableVoices from
          congrArg Prod.snd hpair]

/-- Witness for C5: the freshly constructed synth is well-formed, so the
release characterisation applies to it for the note `"A"`. -/
theorem C5_witness :
    INV initSynth
    ∧ ((mapGet initSynth.activeVoices "A" = none →
          noteOff initSynth "A" = initSynth)
      ∧ ∀ vs, mapGet initSynth.activeVoices "A" = some vs →
          ∀ mid : List SynthOp, (∀ op ∈ mid, isWavetableOp op) →
            mapGet (mid.foldl applySynthOp initSynth).activeVoices "A"
              = some vs
            ∧ (noteOff (mid.foldl applySynthOp initSynth) "A").activeVoices
                = mapDelete initSynth.activeVoices "A"
            ∧ ∀ k osc, initSynth.oscillators.get? k = some osc →
                ((noteOff (mid.foldl applySynthOp initSynth) "A").oscillators.get?
                    k).map (·.availableVoices)
                  = some (osc.availableVoices
                      ++ vs.filter fun v => decide (v.osc = k))) :=
  ⟨INV_initSynth, C5_noteOff_releases initSynth "A" INV_initSynth⟩

end Glukoscillator
